import Mathlib

/-!
FlexASIO driver session: a shallow embedding of `flexasio.cpp`.

The driver object `CFlexASIO` bridges the double-buffered ASIO host protocol and a
PortAudio stream.  The embedding below turns every member function of the class into a
function on an explicit state record.

* Calls into PortAudio are replaced by the results they return, supplied as arguments.
* Calls into the host are recorded as values of `HostCall`.
* Raw sample memory is an explicit heap of allocation blocks, so that a pointer into a
  released block is distinguishable from a live one.  A function returns `none` exactly
  where the C++ has undefined behaviour: a null or dangling pointer, an access past the end
  of an array, a call through a null function pointer.
* `flexasio.h` is not part of the sources.  What the code needs from it (the `Buffers`
  class, the sample type, the members the constructor does not initialise) is modelled
  from the specification and marked as such.  Constants of the ASIO and PortAudio headers
  carry the values those headers give them.
* Diagnostics (`Log()`) have no effect on the state and are left out; in `init_error` the
  backend's error text is spelled as the decimal error code.  The sample rate is an exact
  rational and the sample count an unbounded integer.  Memory allocation is taken to
  succeed.
* The destructor is modelled by its body, with the calls it makes; the members of the
  object are destroyed after the body has run.
-/

namespace FlexASIO

/-! ## Result codes -/

/-- Result codes of the driver protocol (the `ASE_*` constants). -/
inductive ASIOError
  | ASE_OK
  | ASE_SUCCESS
  | ASE_NotPresent
  | ASE_HWMalfunction
  | ASE_InvalidParameter
  | ASE_InvalidMode
  | ASE_SPNotAdvancing
  | ASE_NoClock
  | ASE_NoMemory
  deriving DecidableEq, Repr

/-- Numeric value of a result code, as the protocol header assigns them. -/
def ASIOError.toLong : ASIOError → Int
  | .ASE_OK => 0
  | .ASE_SUCCESS => 0x3f4847a0
  | .ASE_NotPresent => -1000
  | .ASE_HWMalfunction => -999
  | .ASE_InvalidParameter => -998
  | .ASE_InvalidMode => -997
  | .ASE_SPNotAdvancing => -996
  | .ASE_NoClock => -995
  | .ASE_NoMemory => -994

/-- `ASIOBool` is a `long`; any non-zero value is true. -/
abbrev ASIOBool := Int
def ASIOTrue : ASIOBool := 1
def ASIOFalse : ASIOBool := 0

/-- PortAudio result code; `paNoError` is zero and failures are negative. -/
abbrev PaError := Int
def paNoError : PaError := 0
def paContinue : Int := 0
def paNoDevice : Int := -1
def paHostApiNotFound : Int := -9979
/-- Host API type ids of PortAudio. -/
def paDirectSound : Int := 1
def paWASAPI : Int := 13

def kAsioSelectorSupported : Int := 1
def kAsioResetRequest : Int := 3
def kAsioSupportsTimeInfo : Int := 7

def kSystemTimeValid : Nat := 1
def kSamplePositionValid : Nat := 2
def kSampleRateValid : Nat := 4
def kSpeedValid : Nat := 8

/-! ## Sample memory -/

/-- Modelled from the spec: the `Sample` type of `flexasio.h`, which is not part of the
sources.  A sample is taken as its bit pattern; `memset(_, 0, _)` produces pattern `0`. -/
abbrev Sample := Nat

/-- A `Sample*`: an allocation block and an offset (in samples) inside it. -/
structure SamplePtr where
  block : Nat
  offset : Nat
  deriving DecidableEq, Repr

/-- The free store: block `i` is `some data` while allocated and `none` once released. -/
abbrev Heap := List (Option (List Sample))

/-- Read `n` samples starting at `off`; reading past the end is undefined. -/
def readSamples (arr : List Sample) (off n : Nat) : Option (List Sample) :=
  if off + n ≤ arr.length then some ((arr.drop off).take n) else none

/-- Overwrite `data.length` samples starting at `off`; writing past the end is undefined. -/
def writeSamples (arr : List Sample) (off : Nat) (data : List Sample) : Option (List Sample) :=
  if off + data.length ≤ arr.length then
    some (arr.take off ++ data ++ arr.drop (off + data.length))
  else none

/-- Dereference a pointer for reading `n` samples. -/
def Heap.read (heap : Heap) (p : SamplePtr) (n : Nat) : Option (List Sample) :=
  match heap[p.block]? with
  | some (some arr) => readSamples arr p.offset n
  | _ => none

/-- Dereference a pointer for writing. -/
def Heap.write (heap : Heap) (p : SamplePtr) (data : List Sample) : Option Heap :=
  match heap[p.block]? with
  | some (some arr) =>
    match writeSamples arr p.offset data with
    | some arr' => some (heap.set p.block (some arr'))
    | none => none
  | _ => none

/-- Modelled from the spec: the `Buffers` class is declared in `flexasio.h`, which is not
part of the sources.  It owns one zero-initialised block holding `buffer_count` contiguous
halves, each of `channel_count * buffer_size` samples. -/
structure Buffers where
  buffer_count : Nat
  channel_count : Nat
  buffer_size : Nat
  buffers : Nat
  deriving DecidableEq, Repr

/-- Modelled from the spec: total number of samples owned by a `Buffers`. -/
def Buffers.getSize (b : Buffers) : Nat :=
  b.buffer_count * b.channel_count * b.buffer_size

/-- Modelled from the spec: address of the slot of channel `channel` in half `buffer`. -/
def Buffers.getBuffer (b : Buffers) (buffer channel : Nat) : SamplePtr :=
  ⟨b.buffers, buffer * b.channel_count * b.buffer_size + channel * b.buffer_size⟩

/-- Modelled from the spec: the constructor `Buffers(buffer_count, channel_count,
buffer_size)` of the absent class, which allocates a fresh zero-initialised block. -/
def Buffers.create (heap : Heap) (buffer_count channel_count buffer_size : Nat) :
    Heap × Buffers :=
  (heap ++ [some (List.replicate (buffer_count * channel_count * buffer_size) 0)],
   ⟨buffer_count, channel_count, buffer_size, heap.length⟩)

/-- Modelled from the spec: the destructor of the absent class `Buffers`.  The block is
released and every pointer into it dangles. -/
def Buffers.destroy (heap : Heap) (b : Buffers) : Heap :=
  heap.set b.buffers none

/-! ## Protocol records -/

/-- One channel binding as the host passes it to `createBuffers`.  `isInput` is an
`ASIOBool` that the protocol restricts to `ASIOTrue`/`ASIOFalse`. -/
structure ASIOBufferInfo where
  isInput : Bool
  channelNum : Int
  buffers0 : SamplePtr
  buffers1 : SamplePtr
  deriving DecidableEq, Repr

/-- The two-element array `buffers[]` of a binding; any other index is out of bounds. -/
def ASIOBufferInfo.buffers (b : ASIOBufferInfo) : Nat → Option SamplePtr
  | 0 => some b.buffers0
  | 1 => some b.buffers1
  | _ => none

/-- The host's callback table; each field says whether the function pointer is non-null. -/
structure ASIOCallbacks where
  bufferSwitch : Bool
  sampleRateDidChange : Bool
  asioMessage : Bool
  bufferSwitchTimeInfo : Bool
  deriving DecidableEq, Repr

/-- `ASIOSamples` (and `ASIOTimeStamp`, which has the same layout) of the protocol header:
a 64-bit quantity as two 32-bit words, `hi` the upper and `lo` the lower one, declared in
this order. -/
structure ASIOSamples where
  hi : Nat
  lo : Nat
  deriving DecidableEq, Repr

/-- The 64-bit quantity the protocol reads from an `ASIOSamples`. -/
def ASIOSamples.value (x : ASIOSamples) : Nat := x.hi * 2 ^ 32 + x.lo

/-- Modelled from the spec: `flexasio.h` declares `position` with the two members
`samples`, the 64-bit integer the code counts in, and `asio_samples`, the `ASIOSamples`
it hands to the host and never assigns (likewise `position_timestamp` with `timestamp`
and `asio_timestamp`).  The two members share their storage; on the little-endian
machines the driver is built for, the first word of the struct, `hi`, lies on the low 32
bits of the integer and `lo` on its high 32 bits. -/
def asio_samples (samples : Int) : ASIOSamples :=
  { hi := (samples % 2 ^ 64).toNat % 2 ^ 32, lo := (samples % 2 ^ 64).toNat / 2 ^ 32 }

/-- The fields of `ASIOTime` that `StreamCallback` fills in. -/
structure ASIOTime where
  flags : Nat
  speed : Int
  samplePosition : ASIOSamples
  systemTime : ASIOSamples
  sampleRate : Rat
  timeCodeFlags : Nat
  timeCodeSamples : ASIOSamples
  timeCodeSpeed : Int
  deriving DecidableEq, Repr

/-- A call made by the driver into the host. -/
inductive HostCall
  | bufferSwitch (index : Nat) (directProcess : ASIOBool)
  | bufferSwitchTimeInfo (time : ASIOTime) (index : Nat) (directProcess : ASIOBool)
  | asioMessage (selector value : Int)
  deriving DecidableEq, Repr

/-! ## Backend records -/

structure PaDeviceInfo where
  maxInputChannels : Int
  maxOutputChannels : Int
  defaultSampleRate : Rat
  deriving DecidableEq, Repr

structure PaHostApiInfo where
  type : Int
  defaultInputDevice : Int
  defaultOutputDevice : Int
  deriving DecidableEq, Repr

/-! ## The driver object -/

/-- The data members of `CFlexASIO` as the constructor and the member functions use them
(the class declaration itself is in `flexasio.h`), together with the sample memory they
point into. -/
structure CFlexASIO where
  portaudio_initialized : Bool
  init_error : String
  pa_api_info : Option PaHostApiInfo
  input_device_info : Option PaDeviceInfo
  output_device_info : Option PaDeviceInfo
  input_channel_count : Int
  output_channel_count : Int
  input_channel_mask : Nat
  output_channel_mask : Nat
  sample_rate : Rat
  buffers : Option Buffers
  buffers_info : List ASIOBufferInfo
  stream : Option Nat
  started : Bool
  callbacks : ASIOCallbacks
  host_supports_timeinfo : Bool
  our_buffer_index : Nat
  position : Int
  position_timestamp : Int
  heap : Heap
  deriving DecidableEq, Repr

/-- The constructor `CFlexASIO::CFlexASIO()`.  Members the constructor leaves without an
initialiser are given zero values. -/
def CFlexASIO.new : CFlexASIO :=
  { portaudio_initialized := false, init_error := "", pa_api_info := none,
    input_device_info := none, output_device_info := none,
    input_channel_count := 0, output_channel_count := 0,
    input_channel_mask := 0, output_channel_mask := 0,
    sample_rate := 0, buffers := none, buffers_info := [], stream := none, started := false,
    callbacks := ⟨false, false, false, false⟩, host_supports_timeinfo := false,
    our_buffer_index := 0, position := 0, position_timestamp := 0, heap := [] }

/-! ## The backend as seen by the driver -/

/-- Text of a backend error code (`Pa_GetErrorText`); only diagnostics depend on it. -/
def Pa_GetErrorText (error : PaError) : String := toString error

/-- Answers of the PortAudio library to the queries `init` makes. -/
structure PortAudio where
  Pa_Initialize : PaError
  Pa_HostApiTypeIdToHostApiIndex : Int → Int
  Pa_GetDefaultHostApi : Int
  Pa_GetHostApiInfo : Int → Option PaHostApiInfo
  Pa_GetDeviceInfo : Int → Option PaDeviceInfo
  /-- Result code, `Format.nChannels` and `dwChannelMask` of the default format. -/
  PaWasapi_GetDeviceDefaultFormat : Int → PaError × Int × Nat

/-- Per-direction arguments of `Pa_OpenStream`. -/
structure PaStreamParameters where
  device : Int
  channelCount : Int
  /-- The WASAPI extension: `none` if absent, else the channel mask in use (if any). -/
  hostApiSpecificStreamInfo : Option (Option Nat)
  deriving DecidableEq, Repr

/-- Everything `OpenStream` hands to `Pa_OpenStream`. -/
structure PaOpenStreamArgs where
  inputParameters : Option PaStreamParameters
  outputParameters : Option PaStreamParameters
  sampleRate : Rat
  framesPerBuffer : Nat
  deriving DecidableEq, Repr

/-- `paFramesPerBufferUnspecified`. -/
def paFramesPerBufferUnspecified : Nat := 0

/-! ## Member functions -/

/-- The input-device block of `init`; `none` when `Pa_GetDeviceInfo` yields null. -/
def CFlexASIO.init.inputDevice (s : CFlexASIO) (pa : PortAudio) (api : PaHostApiInfo) :
    Option CFlexASIO :=
  if api.defaultInputDevice ≠ paNoDevice then
    match pa.Pa_GetDeviceInfo api.defaultInputDevice with
    | none => none
    | some d =>
      some { s with input_device_info := some d,
                    input_channel_count := d.maxInputChannels,
                    sample_rate := max d.defaultSampleRate s.sample_rate }
  else some s

/-- The output-device block of `init`; `none` when `Pa_GetDeviceInfo` yields null. -/
def CFlexASIO.init.outputDevice (s : CFlexASIO) (pa : PortAudio) (api : PaHostApiInfo) :
    Option CFlexASIO :=
  if api.defaultOutputDevice ≠ paNoDevice then
    match pa.Pa_GetDeviceInfo api.defaultOutputDevice with
    | none => none
    | some d =>
      some { s with output_device_info := some d,
                    output_channel_count := d.maxOutputChannels,
                    sample_rate := max d.defaultSampleRate s.sample_rate }
  else some s

/-- The WASAPI block of `init`: the default formats supersede counts and masks. -/
def CFlexASIO.init.wasapi (s : CFlexASIO) (pa : PortAudio) (api : PaHostApiInfo) : CFlexASIO :=
  let input_waveformat := pa.PaWasapi_GetDeviceDefaultFormat api.defaultInputDevice
  let s :=
    if input_waveformat.1 ≤ 0 then s
    else { s with input_channel_count := input_waveformat.2.1,
                  input_channel_mask := input_waveformat.2.2 }
  let output_waveformat := pa.PaWasapi_GetDeviceDefaultFormat api.defaultOutputDevice
  if output_waveformat.1 ≤ 0 then s
  else { s with output_channel_count := output_waveformat.2.1,
                output_channel_mask := output_waveformat.2.2 }

/-- `CFlexASIO::init`. -/
def CFlexASIO.init (s : CFlexASIO) (pa : PortAudio) : ASIOBool × CFlexASIO :=
  if s.input_device_info.isSome || s.output_device_info.isSome then
    (ASIOError.ASE_NotPresent.toLong, s)
  else if pa.Pa_Initialize ≠ paNoError then
    (ASIOFalse,
      { s with init_error := "Could not initialize PortAudio: " ++ Pa_GetErrorText pa.Pa_Initialize })
  else
    let s := { s with portaudio_initialized := true }
    let pa_api_index := pa.Pa_HostApiTypeIdToHostApiIndex paWASAPI
    let pa_api_index :=
      if pa_api_index = paHostApiNotFound then pa.Pa_HostApiTypeIdToHostApiIndex paDirectSound
      else pa_api_index
    let pa_api_index :=
      if pa_api_index = paHostApiNotFound then pa.Pa_GetDefaultHostApi else pa_api_index
    if pa_api_index < 0 then
      (ASIOFalse, { s with init_error := "Unable to get PortAudio API index" })
    else
      let s := { s with pa_api_info := pa.Pa_GetHostApiInfo pa_api_index }
      match s.pa_api_info with
      | none => (ASIOFalse, { s with init_error := "Unable to get PortAudio API info" })
      | some api =>
        let s := { s with sample_rate := 0 }
        match CFlexASIO.init.inputDevice s pa api with
        | none => (ASIOFalse,
            { s with input_device_info := none,
                     init_error := "Unable to get input device info" })
        | some s =>
          match CFlexASIO.init.outputDevice s pa api with
          | none => (ASIOFalse,
              { s with output_device_info := none,
                       init_error := "Unable to get output device info" })
          | some s =>
            let s := if api.type = paWASAPI then CFlexASIO.init.wasapi s pa api else s
            let s := if s.sample_rate = 0 then { s with sample_rate := 44100 } else s
            (ASIOTrue, s)

/-- `CFlexASIO::getChannels`; the result carries `*numInputChannels`, `*numOutputChannels`. -/
def CFlexASIO.getChannels (s : CFlexASIO) : ASIOError × Option (Int × Int) :=
  if !s.input_device_info.isSome && !s.output_device_info.isSome then
    (.ASE_NotPresent, none)
  else (.ASE_OK, some (s.input_channel_count, s.output_channel_count))

/-- `SPEAKER_ALL`, the top bit of a channel mask. -/
def SPEAKER_ALL : Nat := 0x80000000

/-- The inner `while` of `getChannelName`: shift the 32-bit cursor left while it is below
`SPEAKER_ALL` and not in the mask.  The first argument bounds the number of shifts. -/
def getChannelName.skip (channelMask : Nat) : Nat → Nat → Option Nat
  | 0, _ => none
  | fuel + 1, current_channel_speaker =>
    if current_channel_speaker &&& channelMask = 0 ∧ current_channel_speaker < SPEAKER_ALL then
      getChannelName.skip channelMask fuel ((current_channel_speaker <<< 1) % 2 ^ 32)
    else some current_channel_speaker

/-- The `for (;;)` of `getChannelName`; yields the final cursor, or `none` if the loop
has not left after the given number of rounds. -/
def getChannelName.search (channel channelMask : Nat) : Nat → Nat → Nat → Option Nat
  | 0, _, _ => none
  | fuel + 1, current_channel, current_channel_speaker =>
    match getChannelName.skip channelMask 33 current_channel_speaker with
    | none => none
    | some current_channel_speaker =>
      if current_channel_speaker = SPEAKER_ALL then some current_channel_speaker
      else if current_channel = channel then some current_channel_speaker
      else getChannelName.search channel channelMask fuel (current_channel + 1)
        ((current_channel_speaker <<< 1) % 2 ^ 32)

/-- The `switch` of `getChannelName` over the `SPEAKER_*` bits. -/
def getChannelName.pretty_name (current_channel_speaker : Nat) : Option String :=
  if current_channel_speaker = 0x1 then some "FL (Front Left)"
  else if current_channel_speaker = 0x2 then some "FR (Front Right)"
  else if current_channel_speaker = 0x4 then some "FC (Front Center)"
  else if current_channel_speaker = 0x8 then some "LFE (Low Frequency)"
  else if current_channel_speaker = 0x10 then some "BL (Back Left)"
  else if current_channel_speaker = 0x20 then some "BR (Back Right)"
  else if current_channel_speaker = 0x40 then some "FCL (Front Left Center)"
  else if current_channel_speaker = 0x80 then some "FCR (Front Right Center)"
  else if current_channel_speaker = 0x100 then some "BC (Back Center)"
  else if current_channel_speaker = 0x200 then some "SL (Side Left)"
  else if current_channel_speaker = 0x400 then some "SR (Side Right)"
  else if current_channel_speaker = 0x800 then some "TC (Top Center)"
  else if current_channel_speaker = 0x1000 then some "TFL (Top Front Left)"
  else if current_channel_speaker = 0x2000 then some "TFC (Top Front Center)"
  else if current_channel_speaker = 0x4000 then some "TFR (Top Front Right)"
  else if current_channel_speaker = 0x8000 then some "TBL (Top Back left)"
  else if current_channel_speaker = 0x10000 then some "TBC (Top Back Center)"
  else if current_channel_speaker = 0x20000 then some "TBR (Top Back Right)"
  else none

/-- `getChannelName`; `none` stands for a search loop that does not terminate. -/
def getChannelName (channel channelMask : Nat) : Option String :=
  match getChannelName.search channel channelMask 33 0 1 with
  | none => none
  | some current_channel_speaker =>
    let channel_name := toString channel
    if current_channel_speaker = SPEAKER_ALL then some channel_name
    else
      match getChannelName.pretty_name current_channel_speaker with
      | none => some channel_name
      | some pretty_name => some (channel_name ++ " " ++ pretty_name)

/-- Modelled from the spec: the sample format tag `asio_sample_type` of `flexasio.h`, a
constant whose value the sources do not show. -/
inductive ASIOSampleType
  | asio_sample_type
  deriving DecidableEq, Repr

/-- What `getChannelInfo` writes into the caller's record. -/
structure ChannelInfoOut where
  isActive : Bool
  channelGroup : Int
  type : ASIOSampleType
  name : String
  deriving DecidableEq, Repr

/-- `CFlexASIO::getChannelInfo`.  The first component is `none` if the name search does
not terminate; the last is `none` when the caller's record is left untouched. -/
def CFlexASIO.getChannelInfo (s : CFlexASIO) (isInput : Bool) (channel : Int) :
    Option (ASIOError × Option ChannelInfoOut) :=
  if (if isInput then channel < 0 ∨ channel ≥ s.input_channel_count
      else channel < 0 ∨ channel ≥ s.output_channel_count) then
    some (.ASE_NotPresent, none)
  else
    let isActive := s.buffers_info.any fun b => b.isInput == isInput && b.channelNum == channel
    match getChannelName channel.toNat
        (if isInput then s.input_channel_mask else s.output_channel_mask) with
    | none => none
    | some channel_name =>
      some (.ASE_OK, some
        { isActive := isActive, channelGroup := 0, type := .asio_sample_type,
          name := (if isInput then "IN" else "OUT") ++ " " ++ channel_name })

/-- `CFlexASIO::getBufferSize`: min, max, preferred size and granularity. -/
def CFlexASIO.getBufferSize (_s : CFlexASIO) : ASIOError × Int × Int × Int × Int :=
  (.ASE_OK, 48, 48000, 1024, 1)

/-- The arguments `CFlexASIO::OpenStream` builds for `Pa_OpenStream`. -/
def CFlexASIO.OpenStream (s : CFlexASIO) (sampleRate : Rat) (framesPerBuffer : Nat) :
    Option PaOpenStreamArgs :=
  match s.pa_api_info with
  | none => if s.input_device_info.isSome || s.output_device_info.isSome then none
            else some ⟨none, none, sampleRate, framesPerBuffer⟩
  | some api =>
    some
      { inputParameters := s.input_device_info.map fun _ =>
          { device := api.defaultInputDevice, channelCount := s.input_channel_count,
            hostApiSpecificStreamInfo :=
              if api.type = paWASAPI then
                some (if s.input_channel_mask ≠ 0 then some s.input_channel_mask else none)
              else none },
        outputParameters := s.output_device_info.map fun _ =>
          { device := api.defaultOutputDevice, channelCount := s.output_channel_count,
            hostApiSpecificStreamInfo :=
              if api.type = paWASAPI then
                some (if s.output_channel_mask ≠ 0 then some s.output_channel_mask else none)
              else none },
        sampleRate := sampleRate, framesPerBuffer := framesPerBuffer }

/-- `CFlexASIO::getSampleRate`. -/
def CFlexASIO.getSampleRate (s : CFlexASIO) : ASIOError × Option Rat :=
  if s.sample_rate = 0 then (.ASE_NoClock, none) else (.ASE_OK, some s.sample_rate)

/-- `CFlexASIO::setSampleRate`, with the calls it makes into the host. -/
def CFlexASIO.setSampleRate (s : CFlexASIO) (sampleRate : Rat) :
    ASIOError × CFlexASIO × List HostCall :=
  if s.buffers.isSome then
    if s.callbacks.asioMessage then
      (.ASE_OK, s, [HostCall.asioMessage kAsioResetRequest 0])
    else (.ASE_NotPresent, s, [])
  else (.ASE_OK, { s with sample_rate := sampleRate }, [])

/-- The range test `createBuffers` applies to one requested binding. -/
def CFlexASIO.outOfBounds (s : CFlexASIO) (buffer_info : ASIOBufferInfo) : Prop :=
  if buffer_info.isInput then
    buffer_info.channelNum < 0 ∨ buffer_info.channelNum ≥ s.input_channel_count
  else buffer_info.channelNum < 0 ∨ buffer_info.channelNum ≥ s.output_channel_count

instance (s : CFlexASIO) (buffer_info : ASIOBufferInfo) : Decidable (s.outOfBounds buffer_info) := by
  unfold CFlexASIO.outOfBounds; exact inferInstance

/-- The `for` loop of `createBuffers` from `channel_index` on, over the entries of the
caller's array not yet visited.  Yields whether the loop ran to its end, the caller's
entries as the loop leaves them, and the member `buffers_info`. -/
def CFlexASIO.createBuffers.loop (s : CFlexASIO) (temp_buffers : Buffers) :
    Nat → List ASIOBufferInfo → List ASIOBufferInfo →
      Bool × List ASIOBufferInfo × List ASIOBufferInfo
  | _, [], buffers_info => (true, [], buffers_info)
  | channel_index, buffer_info :: rest, buffers_info =>
    if s.outOfBounds buffer_info then (false, buffer_info :: rest, buffers_info)
    else
      let buffer_info :=
        { buffer_info with
          buffers0 := temp_buffers.getBuffer 0 channel_index,
          buffers1 := temp_buffers.getBuffer 1 channel_index }
      let r := CFlexASIO.createBuffers.loop s temp_buffers (channel_index + 1) rest
        (buffers_info ++ [buffer_info])
      (r.1, buffer_info :: r.2.1, r.2.2)

/-- Outcome of `createBuffers`: result code, the driver afterwards, and the caller's
`bufferInfos` array afterwards. -/
structure CreateBuffersResult where
  result : ASIOError
  state : CFlexASIO
  bufferInfos : List ASIOBufferInfo
  deriving DecidableEq

/-- `CFlexASIO::createBuffers`.  `bufferInfos` is the caller's array (`numChannels` is its
length); `callbacks` is `none` for a null pointer; `Pa_OpenStream` is the backend's answer
(result code and stream handle) to an open request.  The two allocations of the function
(`buffers_info.reserve` and `new Buffers`) are taken to succeed: the function is declared
`throw()`, so an allocation that fails ends the process and the call never returns. -/
def CFlexASIO.createBuffers (s : CFlexASIO) (bufferInfos : List ASIOBufferInfo)
    (bufferSize : Int) (callbacks : Option ASIOCallbacks)
    (Pa_OpenStream : PaOpenStreamArgs → PaError × Nat) : Option CreateBuffersResult :=
  let numChannels : Int := bufferInfos.length
  if numChannels < 1 ∨ bufferSize < 1 ∨ (callbacks.map fun c => c.bufferSwitch) ≠ some true then
    some ⟨.ASE_InvalidMode, s, bufferInfos⟩
  else if !s.input_device_info.isSome && !s.output_device_info.isSome then
    some ⟨.ASE_InvalidMode, s, bufferInfos⟩
  else if s.buffers.isSome then
    some ⟨.ASE_InvalidMode, s, bufferInfos⟩
  else
    let alloc := Buffers.create s.heap 2 numChannels.toNat bufferSize.toNat
    let heap : Heap := alloc.1
    let temp_buffers : Buffers := alloc.2
    let r := CFlexASIO.createBuffers.loop s temp_buffers 0 bufferInfos s.buffers_info
    if r.1 = false then
      some ⟨.ASE_InvalidMode,
        { s with buffers_info := r.2.2, heap := Buffers.destroy heap temp_buffers }, r.2.1⟩
    else
      let s : CFlexASIO := { s with buffers_info := r.2.2 }
      let s : CFlexASIO := if s.sample_rate = 0 then { s with sample_rate := 44100 } else s
      match s.OpenStream s.sample_rate temp_buffers.buffer_size with
      | none => none
      | some args =>
        let error : PaError := (Pa_OpenStream args).1
        let temp_stream : Nat := (Pa_OpenStream args).2
        if error ≠ paNoError then
          some ⟨.ASE_HWMalfunction,
            { s with
              init_error := "Unable to open PortAudio stream: " ++ Pa_GetErrorText error,
              heap := Buffers.destroy heap temp_buffers }, r.2.1⟩
        else
          some ⟨.ASE_OK,
            { s with
              buffers := some temp_buffers, stream := some temp_stream,
              callbacks := callbacks.getD s.callbacks, heap := heap }, r.2.1⟩

/-- `CFlexASIO::disposeBuffers`; the argument is the result of `Pa_CloseStream`. -/
def CFlexASIO.disposeBuffers (s : CFlexASIO) (Pa_CloseStream : PaError) :
    ASIOError × CFlexASIO :=
  match s.buffers with
  | none => (.ASE_InvalidMode, s)
  | some buffers =>
    if s.started then (.ASE_InvalidMode, s)
    else if Pa_CloseStream ≠ paNoError then
      (.ASE_NotPresent,
        { s with init_error :=
            "Unable to close PortAudio stream: " ++ Pa_GetErrorText Pa_CloseStream })
    else
      (.ASE_OK,
        { s with stream := none, buffers := none, buffers_info := [],
                 heap := Buffers.destroy s.heap buffers })

/-- `CFlexASIO::start`.  `asioMessage` is the host's reply to a message (selector, value),
`timeGetTime` the clock reading, `Pa_StartStream` the backend's result. -/
def CFlexASIO.start (s : CFlexASIO) (asioMessage : Int → Int → Int) (timeGetTime : Int)
    (Pa_StartStream : PaError) : ASIOError × CFlexASIO × List HostCall :=
  if !s.buffers.isSome then (.ASE_NotPresent, s, [])
  else if s.started then (.ASE_NotPresent, s, [])
  else
    let query : Bool × List HostCall :=
      if s.callbacks.asioMessage then
        if asioMessage kAsioSelectorSupported kAsioSupportsTimeInfo = 1 then
          (decide (asioMessage kAsioSupportsTimeInfo 0 = 1),
            [HostCall.asioMessage kAsioSelectorSupported kAsioSupportsTimeInfo,
             HostCall.asioMessage kAsioSupportsTimeInfo 0])
        else (false, [HostCall.asioMessage kAsioSelectorSupported kAsioSupportsTimeInfo])
      else (false, [])
    let s := { s with host_supports_timeinfo := query.1 }
    let s := { s with our_buffer_index := 0, position := 0,
                      position_timestamp := timeGetTime * 1000000, started := true }
    if Pa_StartStream ≠ paNoError then
      (.ASE_HWMalfunction,
        { s with started := false,
                 init_error :=
                   "Unable to start PortAudio stream: " ++ Pa_GetErrorText Pa_StartStream },
        query.2)
    else (.ASE_OK, s, query.2)

/-- `CFlexASIO::stop`; the argument is the result of `Pa_StopStream`. -/
def CFlexASIO.stop (s : CFlexASIO) (Pa_StopStream : PaError) : ASIOError × CFlexASIO :=
  if !s.started then (.ASE_NotPresent, s)
  else if Pa_StopStream ≠ paNoError then
    (.ASE_NotPresent,
      { s with init_error :=
          "Unable to stop PortAudio stream: " ++ Pa_GetErrorText Pa_StopStream })
  else (.ASE_OK, { s with started := false })

/-- `CFlexASIO::getSamplePosition`: `position.asio_samples` and
`position_timestamp.asio_timestamp`. -/
def CFlexASIO.getSamplePosition (s : CFlexASIO) :
    ASIOError × Option (ASIOSamples × ASIOSamples) :=
  if !s.started then (.ASE_SPNotAdvancing, none)
  else (.ASE_OK, some (asio_samples s.position, asio_samples s.position_timestamp))

/-! ## The realtime callback -/

/-- The `memset` loop of `StreamCallback` over the given output channel indices. -/
def StreamCallback.zeroFill (frameCount : Nat) :
    List Nat → List (List Sample) → Option (List (List Sample))
  | [], output_samples => some output_samples
  | output_channel_index :: rest, output_samples =>
    match output_samples[output_channel_index]? with
    | none => none
    | some arr =>
      match writeSamples arr 0 (List.replicate frameCount 0) with
      | none => none
      | some arr' =>
        StreamCallback.zeroFill frameCount rest (output_samples.set output_channel_index arr')

/-- One round of the transfer loop of `StreamCallback`: the `memcpy` for one binding. -/
def StreamCallback.copy (our_buffer_index frameCount : Nat) (input_samples : List (List Sample))
    (buffer_info : ASIOBufferInfo) (mem : Heap × List (List Sample)) :
    Option (Heap × List (List Sample)) :=
  match buffer_info.buffers our_buffer_index with
  | none => none
  | some buffer =>
    if buffer_info.channelNum < 0 then none
    else if buffer_info.isInput then
      match input_samples[buffer_info.channelNum.toNat]? with
      | none => none
      | some src =>
        match readSamples src 0 frameCount with
        | none => none
        | some data =>
          match mem.1.write buffer data with
          | none => none
          | some heap => some (heap, mem.2)
    else
      match mem.1.read buffer frameCount with
      | none => none
      | some data =>
        match mem.2[buffer_info.channelNum.toNat]? with
        | none => none
        | some dst =>
          match writeSamples dst 0 data with
          | none => none
          | some dst' => some (mem.1, mem.2.set buffer_info.channelNum.toNat dst')

/-- The transfer loop of `StreamCallback` over `buffers_info`. -/
def StreamCallback.transfer (our_buffer_index frameCount : Nat)
    (input_samples : List (List Sample)) :
    List ASIOBufferInfo → Heap × List (List Sample) → Option (Heap × List (List Sample))
  | [], mem => some mem
  | buffer_info :: rest, mem =>
    match StreamCallback.copy our_buffer_index frameCount input_samples buffer_info mem with
    | none => none
    | some mem' => StreamCallback.transfer our_buffer_index frameCount input_samples rest mem'

/-- The moment `StreamCallback` calls into the host: the call, the driver (with the
sample memory) and the backend's output arrays as they are at that moment. -/
structure Handoff where
  call : HostCall
  state : CFlexASIO
  output : List (List Sample)
  deriving DecidableEq

/-- Outcome of one `StreamCallback`: the value returned to the backend, the driver and the
backend's output arrays on return, and the host notification if one was issued. -/
structure StreamCallbackResult where
  ret : Int
  state : CFlexASIO
  output : List (List Sample)
  handoff : Option Handoff
  deriving DecidableEq

/-- `CFlexASIO::StreamCallback`.  `input` and `output` are the backend's per-channel
sample arrays, `timeGetTime` the clock reading taken at the end.  The `timeInfo` argument
is unused by the code and `statusFlags` only feeds diagnostics; both are left out. -/
def CFlexASIO.StreamCallback (s : CFlexASIO) (input output : List (List Sample))
    (frameCount : Nat) (timeGetTime : Int) : Option StreamCallbackResult :=
  if !s.started then some ⟨paContinue, s, output, none⟩
  else
    match s.buffers with
    | none => none
    | some buffers =>
      if frameCount ≠ buffers.buffer_size then some ⟨paContinue, s, output, none⟩
      else
        match StreamCallback.zeroFill frameCount (List.range s.output_channel_count.toNat)
            output with
        | none => none
        | some output_samples =>
          let locked_buffer_index := (s.our_buffer_index + 1) % 2
          match StreamCallback.transfer s.our_buffer_index frameCount input s.buffers_info
              (s.heap, output_samples) with
          | none => none
          | some (heap, output_samples) =>
            let s := { s with heap := heap }
            let call : Option HostCall :=
              if !s.host_supports_timeinfo then
                if s.callbacks.bufferSwitch then
                  some (HostCall.bufferSwitch s.our_buffer_index ASIOFalse)
                else none
              else if s.callbacks.bufferSwitchTimeInfo then
                some (HostCall.bufferSwitchTimeInfo
                  (ASIOTime.mk
                    (kSystemTimeValid ||| kSamplePositionValid ||| kSampleRateValid
                      ||| kSpeedValid)
                    1 (asio_samples s.position) (asio_samples s.position_timestamp)
                    s.sample_rate 0 ⟨0, 0⟩ 1)
                  s.our_buffer_index ASIOFalse)
              else none
            match call with
            | none => none
            | some call =>
              some
                { ret := paContinue,
                  state := { s with our_buffer_index := locked_buffer_index,
                                    position := s.position + frameCount,
                                    position_timestamp := timeGetTime * 1000000 },
                  output := output_samples,
                  handoff := some ⟨call, s, output_samples⟩ }

/-! ## Well-formedness of a session -/

/-- The recorded bindings are exactly those of the existing BufferSet: the `Buffers` block
is live and holds two halves of one slot per binding, the `i`-th binding points at slot `i`
of either half, and every bound channel index is within its direction's channel count. -/
def CFlexASIO.BufferSetOk (s : CFlexASIO) : Prop :=
  match s.buffers with
  | none => False
  | some b =>
    b.buffer_count = 2 ∧ b.channel_count = s.buffers_info.length ∧
    s.heap[b.buffers]?.join.map List.length = some b.getSize ∧
    s.buffers_info.map (fun bi => (bi.buffers0, bi.buffers1))
      = (List.range s.buffers_info.length).map (fun i => (b.getBuffer 0 i, b.getBuffer 1 i)) ∧
    ∀ bi ∈ s.buffers_info, ¬ s.outOfBounds bi

instance (s : CFlexASIO) : Decidable s.BufferSetOk := by
  unfold CFlexASIO.BufferSetOk
  cases s.buffers <;> exact inferInstance

/-- The host supplied the callback the driver is going to use for its notifications. -/
def CFlexASIO.HostReady (s : CFlexASIO) : Prop :=
  if s.host_supports_timeinfo then s.callbacks.bufferSwitchTimeInfo = true
  else s.callbacks.bufferSwitch = true

instance (s : CFlexASIO) : Decidable s.HostReady := by
  unfold CFlexASIO.HostReady; exact inferInstance

/-- The backend passes one array of at least `frameCount` samples for every channel of
either direction. -/
def CFlexASIO.ArraysOk (s : CFlexASIO) (input output : List (List Sample)) (frameCount : Nat) :
    Prop :=
  s.input_channel_count.toNat ≤ input.length ∧ (∀ a ∈ input, frameCount ≤ a.length) ∧
  s.output_channel_count.toNat ≤ output.length ∧ (∀ a ∈ output, frameCount ≤ a.length)

instance (s : CFlexASIO) (input output : List (List Sample)) (frameCount : Nat) :
    Decidable (s.ArraysOk input output frameCount) := by
  unfold CFlexASIO.ArraysOk; exact inferInstance

/-- The session is Streaming on a well-formed BufferSet of period length `frameCount`. -/
def CFlexASIO.StreamingOk (s : CFlexASIO) (frameCount : Nat) : Prop :=
  s.started = true ∧ s.BufferSetOk ∧ s.our_buffer_index < 2 ∧ s.HostReady ∧
  s.buffers.map (fun b => b.buffer_size) = some frameCount

instance (s : CFlexASIO) (frameCount : Nat) : Decidable (s.StreamingOk frameCount) := by
  unfold CFlexASIO.StreamingOk; exact inferInstance

/-- The notification `StreamCallback` issues in state `s`. -/
def CFlexASIO.notification (s : CFlexASIO) : HostCall :=
  if s.host_supports_timeinfo then
    HostCall.bufferSwitchTimeInfo
      (ASIOTime.mk
        (kSystemTimeValid ||| kSamplePositionValid ||| kSampleRateValid ||| kSpeedValid)
        1 (asio_samples s.position) (asio_samples s.position_timestamp) s.sample_rate 0
        ⟨0, 0⟩ 1)
      s.our_buffer_index ASIOFalse
  else HostCall.bufferSwitch s.our_buffer_index ASIOFalse

/-- The test the member functions use for "initialised": `init` resolved a default device
for at least one direction. -/
def CFlexASIO.negotiated (s : CFlexASIO) : Prop :=
  s.input_device_info.isSome = true ∨ s.output_device_info.isSome = true

instance (s : CFlexASIO) : Decidable s.negotiated := by
  unfold CFlexASIO.negotiated; exact inferInstance

/-- The host claims time-info support only if it supplied `bufferSwitchTimeInfo`. -/
def HostConsistent (callbacks : ASIOCallbacks) (asioMessage : Int → Int → Int) : Prop :=
  callbacks.asioMessage = true →
    asioMessage kAsioSelectorSupported kAsioSupportsTimeInfo = 1 →
    asioMessage kAsioSupportsTimeInfo 0 = 1 → callbacks.bufferSwitchTimeInfo = true

instance (callbacks : ASIOCallbacks) (asioMessage : Int → Int → Int) :
    Decidable (HostConsistent callbacks asioMessage) := by
  unfold HostConsistent; exact inferInstance

/-- The half-index a host notification carries. -/
def HostCall.halfIndex : HostCall → Option Nat
  | .bufferSwitch index _ => some index
  | .bufferSwitchTimeInfo _ index _ => some index
  | .asioMessage _ _ => none

/-! ## Sequences of calls on a session -/

/-- One call on the driver while a BufferSet exists: a backend callback, or a `stop` or
`start` issued by the host. -/
inductive DriverCall
  | StreamCallback (input output : List (List Sample)) (frameCount : Nat) (timeGetTime : Int)
  | stop (Pa_StopStream : PaError)
  | start (asioMessage : Int → Int → Int) (timeGetTime : Int) (Pa_StartStream : PaError)

/-- Perform one call; the second component is the half-index handed to the host, if the
call issued a buffer notification. -/
def CFlexASIO.step (s : CFlexASIO) : DriverCall → Option ( CFlexASIO × Option Nat)
  | .StreamCallback input output frameCount timeGetTime =>
    match s.StreamCallback input output frameCount timeGetTime with
    | none => none
    | some r => some (r.state, r.handoff.bind fun h => h.call.halfIndex)
  | .stop Pa_StopStream => some ((s.stop Pa_StopStream).2, none)
  | .start asioMessage timeGetTime Pa_StartStream =>
    some ((s.start asioMessage timeGetTime Pa_StartStream).2.1, none)

/-- Perform a sequence of calls, collecting what each handed to the host. -/
def CFlexASIO.run (s : CFlexASIO) : List DriverCall → Option ( CFlexASIO × List (Option Nat))
  | [] => some (s, [])
  | c :: cs =>
    match s.step c with
    | none => none
    | some (s', o) =>
      match CFlexASIO.run s' cs with
      | none => none
      | some (s'', os) => some (s'', o :: os)

/-- The alternation as the specification words it, for a session with period length `N`:
`streaming` tells whether the session is Streaming and `k` counts the transfers since the
latest successful `start`.  A callback transfers exactly when the session is Streaming and
its frame count is `N`, and then hands `k mod 2` to the host; every other call hands over
nothing and leaves `k` alone, except that a successful `start` resets `k` to zero. -/
def alternation (N : Nat) : Bool → Nat → List DriverCall → List (Option Nat)
  | _, _, [] => []
  | streaming, k, .StreamCallback _ _ frameCount _ :: cs =>
    if streaming = true ∧ frameCount = N then some (k % 2) :: alternation N true (k + 1) cs
    else none :: alternation N streaming k cs
  | streaming, k, .stop Pa_StopStream :: cs =>
    none :: alternation N (streaming && decide (Pa_StopStream ≠ paNoError)) k cs
  | streaming, k, .start _ _ Pa_StartStream :: cs =>
    if streaming = true then none :: alternation N true k cs
    else if Pa_StartStream = paNoError then none :: alternation N true 0 cs
    else none :: alternation N false k cs

/-- The backend and the host keep their side of the contract for this call: a callback
over a full period comes with complete sample arrays, and a `start` meets a host whose
time-info claim is backed by its callback table. -/
def CFlexASIO.CallOk (s : CFlexASIO) (N : Nat) : DriverCall → Prop
  | .StreamCallback input output frameCount _ => frameCount = N → s.ArraysOk input output N
  | .stop _ => True
  | .start asioMessage _ _ => HostConsistent s.callbacks asioMessage

instance (s : CFlexASIO) (N : Nat) (c : DriverCall) : Decidable (s.CallOk N c) := by
  cases c <;> unfold CFlexASIO.CallOk <;> exact inferInstance

/-- The host stores samples through a buffer address it received from `createBuffers`. -/
def CFlexASIO.hostWrite (s : CFlexASIO) (p : SamplePtr) (data : List Sample) :
    Option CFlexASIO :=
  match s.heap.write p data with
  | none => none
  | some heap => some { s with heap := heap }

/-! ## Concrete sessions -/

/-- A backend reached through DirectSound with a two-channel input device (device 0) and a
two-channel output device (device 1), both at 48000 Hz. -/
def stereoBackend : PortAudio :=
  { Pa_Initialize := paNoError,
    Pa_HostApiTypeIdToHostApiIndex := fun t => if t = paDirectSound then 0 else paHostApiNotFound,
    Pa_GetDefaultHostApi := 0,
    Pa_GetHostApiInfo := fun i => if i = 0 then some ⟨paDirectSound, 0, 1⟩ else none,
    Pa_GetDeviceInfo := fun d =>
      if d = 0 then some ⟨2, 0, 48000⟩ else if d = 1 then some ⟨0, 2, 48000⟩ else none,
    PaWasapi_GetDeviceDefaultFormat := fun _ => (-1, 0, 0) }

/-- The session after `init` on `stereoBackend`. -/
def stereoSession : CFlexASIO := ( CFlexASIO.new.init stereoBackend).2

/-- A binding request as the host fills it in: direction and channel index. -/
def binding (isInput : Bool) (channelNum : Int) : ASIOBufferInfo :=
  ⟨isInput, channelNum, ⟨0, 0⟩, ⟨0, 0⟩⟩

/-- A host callback table with `bufferSwitch` and `asioMessage` only. -/
def plainHost : ASIOCallbacks := ⟨true, false, true, false⟩

/-- A backend that opens every stream, as stream number 1. -/
def openAlways : PaOpenStreamArgs → PaError × Nat := fun _ => (paNoError, 1)

/-- A host that answers every message with 0 (nothing supported). -/
def noMessage : Int → Int → Int := fun _ _ => 0

/-- The driver state of a successful `createBuffers`, or the unchanged session state if the call has
undefined behaviour. -/
def CFlexASIO.afterCreateBuffers (s : CFlexASIO) (bufferInfos : List ASIOBufferInfo)
    (bufferSize : Int) : CFlexASIO :=
  match s.createBuffers bufferInfos bufferSize (some plainHost) openAlways with
  | none => s
  | some r => r.state

/-- The four bindings of the stereo scenario: both inputs and both outputs. -/
def stereoBindings : List ASIOBufferInfo :=
  [binding true 0, binding true 1, binding false 0, binding false 1]

/-- The stereo session after `createBuffers` with the four bindings and period length 4. -/
def stereoAllocated : CFlexASIO := stereoSession.afterCreateBuffers stereoBindings 4

/-- A full period for the stereo session with period length 4. -/
def period4 : DriverCall :=
  DriverCall.StreamCallback [[1, 2, 3, 4], [5, 6, 7, 8]] [[9, 9, 9, 9], [9, 9, 9, 9]] 4 0

/-- A callback whose frame count (3) is not the period length. -/
def shortPeriod : DriverCall :=
  DriverCall.StreamCallback [[1, 2, 3], [5, 6, 7]] [[9, 9, 9], [9, 9, 9]] 3 0

/-- The frame count of a backend callback. -/
def DriverCall.frames : DriverCall → Option Nat
  | .StreamCallback _ _ frameCount _ => some frameCount
  | _ => none

/-- The stereo session after `createBuffers` with the four bindings and period length 256. -/
def stereoAllocated256 : CFlexASIO := stereoSession.afterCreateBuffers stereoBindings 256

/-- A full period of 256 frames for the stereo session, with known input patterns. -/
def period256 : DriverCall :=
  DriverCall.StreamCallback [List.replicate 256 1, List.replicate 256 2]
    [List.replicate 256 9, List.replicate 256 9] 256 0

/-- The stereo session with period length 4 after the host has filled the output slots of
half 0 and one slot of half 1, and `start` has succeeded. -/
def stereoStreaming : CFlexASIO :=
  match (stereoAllocated.hostWrite ⟨0, 8⟩ [11, 12, 13, 14]).bind fun s =>
      (s.hostWrite ⟨0, 12⟩ [21, 22, 23, 24]).bind fun s => s.hostWrite ⟨0, 16⟩ [31, 32, 33, 34] with
  | none => stereoAllocated
  | some s => (s.start noMessage 0 paNoError).2.1

/-- A session in which the host bound output channel 0 twice (period length 2), filled the
half-0 slot of the first binding with `[1, 1]` and that of the second with `[2, 2]`, and
started streaming. -/
def doubleBound : CFlexASIO :=
  match ((stereoSession.afterCreateBuffers [binding false 0, binding false 0] 2).hostWrite
      ⟨0, 0⟩ [1, 1]).bind fun s => s.hostWrite ⟨0, 2⟩ [2, 2] with
  | none => stereoSession
  | some s => (s.start noMessage 0 paNoError).2.1


/-! ## Speaker positions of a channel mask -/

/-- The positions of the set bits of a 32-bit channel mask from position `p` upwards, in
ascending order of significance. -/
def setBitsFrom (channelMask p : Nat) : List Nat :=
  (List.range' p (32 - p)).filter fun q => channelMask.testBit q

/-- The position of the `i`-th (0-based) set bit of a 32-bit channel mask, counted from
the least significant bit; `none` if the mask has no more than `i` set bits. -/
def nthSetBit (channelMask i : Nat) : Option Nat :=
  (setBitsFrom channelMask 0)[i]?

/-- The names of the 18 known speaker positions, by bit position (`SPEAKER_FRONT_LEFT` is
bit 0, `SPEAKER_TOP_BACK_RIGHT` is bit 17). -/
def speakerPositionNames : List String :=
  ["FL (Front Left)", "FR (Front Right)", "FC (Front Center)", "LFE (Low Frequency)",
   "BL (Back Left)", "BR (Back Right)", "FCL (Front Left Center)",
   "FCR (Front Right Center)", "BC (Back Center)", "SL (Side Left)", "SR (Side Right)",
   "TC (Top Center)", "TFL (Top Front Left)", "TFC (Top Front Center)",
   "TFR (Top Front Right)", "TBL (Top Back left)", "TBC (Top Back Center)",
   "TBR (Top Back Right)"]

/-- The resolved channel count of a direction: `input_channel_count` or
`output_channel_count`. -/
def CFlexASIO.channel_count (s : CFlexASIO) (isInput : Bool) : Int :=
  if isInput then s.input_channel_count else s.output_channel_count

/-! ## Reachable states -/

/-- The three facts that tie the streaming flag, the BufferSet, the stream handle and the
resolved devices together. -/
def CFlexASIO.WellFormed (s : CFlexASIO) : Prop :=
  (s.started = true → s.buffers.isSome = true) ∧
  (s.buffers.isSome = true ↔ s.stream.isSome = true) ∧
  (s.buffers.isSome = true → s.negotiated)

instance (s : CFlexASIO) : Decidable s.WellFormed := by
  unfold CFlexASIO.WellFormed; exact inferInstance

/-- The states of a session: what the constructor leaves, and what a call of `init`,
`createBuffers`, `disposeBuffers`, `start`, `stop`, `setSampleRate` or `StreamCallback`, or
a store of the host into a buffer, makes of such a state.  The members the constructor
does not initialise start with any value; the results of the backend and the answers of
the host are arbitrary, except that the backends `init` talks to satisfy `P`; a call with
undefined behaviour has no state after it. -/
inductive CFlexASIO.ReachableWith (P : PortAudio → Prop) : CFlexASIO → Prop
  | fresh (callbacks : ASIOCallbacks) (host_supports_timeinfo : Bool) (our_buffer_index : Nat)
      (position position_timestamp : Int) :
      CFlexASIO.ReachableWith P
        { CFlexASIO.new with
          callbacks := callbacks, host_supports_timeinfo := host_supports_timeinfo,
          our_buffer_index := our_buffer_index, position := position,
          position_timestamp := position_timestamp }
  | init (s : CFlexASIO) (pa : PortAudio) :
      CFlexASIO.ReachableWith P s → P pa → CFlexASIO.ReachableWith P (s.init pa).2
  | createBuffers (s : CFlexASIO) (bufferInfos : List ASIOBufferInfo) (bufferSize : Int)
      (callbacks : Option ASIOCallbacks) (Pa_OpenStream : PaOpenStreamArgs → PaError × Nat)
      (r : CreateBuffersResult) :
      CFlexASIO.ReachableWith P s →
      s.createBuffers bufferInfos bufferSize callbacks Pa_OpenStream = some r →
      CFlexASIO.ReachableWith P r.state
  | disposeBuffers (s : CFlexASIO) (Pa_CloseStream : PaError) :
      CFlexASIO.ReachableWith P s → CFlexASIO.ReachableWith P (s.disposeBuffers Pa_CloseStream).2
  | start (s : CFlexASIO) (asioMessage : Int → Int → Int) (timeGetTime : Int)
      (Pa_StartStream : PaError) :
      CFlexASIO.ReachableWith P s →
      CFlexASIO.ReachableWith P (s.start asioMessage timeGetTime Pa_StartStream).2.1
  | stop (s : CFlexASIO) (Pa_StopStream : PaError) :
      CFlexASIO.ReachableWith P s → CFlexASIO.ReachableWith P (s.stop Pa_StopStream).2
  | setSampleRate (s : CFlexASIO) (sampleRate : Rat) :
      CFlexASIO.ReachableWith P s → CFlexASIO.ReachableWith P (s.setSampleRate sampleRate).2.1
  | StreamCallback (s : CFlexASIO) (input output : List (List Sample)) (frameCount : Nat)
      (timeGetTime : Int) (r : StreamCallbackResult) :
      CFlexASIO.ReachableWith P s →
      s.StreamCallback input output frameCount timeGetTime = some r →
      CFlexASIO.ReachableWith P r.state
  | hostWrite (s : CFlexASIO) (p : SamplePtr) (data : List Sample) (s1 : CFlexASIO) :
      CFlexASIO.ReachableWith P s → s.hostWrite p data = some s1 →
      CFlexASIO.ReachableWith P s1

/-- The reachable states, whatever the backend answers. -/
def CFlexASIO.Reachable (s : CFlexASIO) : Prop :=
  CFlexASIO.ReachableWith (fun _ => True) s

/-- A backend that reports no WASAPI default format for `paNoDevice`, the device index of
an absent device. -/
def PortAudio.noFormatWithoutDevice (pa : PortAudio) : Prop :=
  (pa.PaWasapi_GetDeviceDefaultFormat paNoDevice).1 ≤ 0

instance (pa : PortAudio) : Decidable pa.noFormatWithoutDevice := by
  unfold PortAudio.noFormatWithoutDevice; exact inferInstance

/-! ## The life of a session -/

/-- The results of the `Pa_Initialize` calls one call of `init` makes: none if the guard at
its top returns first, one otherwise. -/
def CFlexASIO.init.Pa_Initialize_calls (s : CFlexASIO) (pa : PortAudio) : List PaError :=
  if s.input_device_info.isSome || s.output_device_info.isSome then [] else [pa.Pa_Initialize]

/-- A call the body of the destructor makes, with its result. -/
inductive DestructorCall
  | stop (result : ASIOError)
  | disposeBuffers (result : ASIOError)
  | Pa_Terminate (error : PaError)
  deriving DecidableEq, Repr

/-- The body of `CFlexASIO::~CFlexASIO`: the session as the body leaves it, and the calls
it makes in order.  The arguments are the results of `Pa_StopStream`, `Pa_CloseStream` and
`Pa_Terminate`. -/
def CFlexASIO.destructor (s : CFlexASIO) (Pa_StopStream Pa_CloseStream Pa_Terminate : PaError) :
    CFlexASIO × List DestructorCall :=
  let stopped : CFlexASIO × List DestructorCall :=
    if s.started then ((s.stop Pa_StopStream).2, [DestructorCall.stop (s.stop Pa_StopStream).1])
    else (s, [])
  let disposed : CFlexASIO × List DestructorCall :=
    if stopped.1.buffers.isSome then
      ((stopped.1.disposeBuffers Pa_CloseStream).2,
        stopped.2 ++ [DestructorCall.disposeBuffers (stopped.1.disposeBuffers Pa_CloseStream).1])
    else stopped
  if disposed.1.portaudio_initialized then
    (disposed.1, disposed.2 ++ [DestructorCall.Pa_Terminate Pa_Terminate])
  else disposed

/-- A sequence of `init` calls, one backend answer set per call: the session after the
last call, the result of each call, and the results of all `Pa_Initialize` calls made. -/
def CFlexASIO.inits (s : CFlexASIO) : List PortAudio → CFlexASIO × List ASIOBool × List PaError
  | [] => (s, [], [])
  | pa :: rest =>
    let r := CFlexASIO.inits (s.init pa).2 rest
    (r.1, (s.init pa).1 :: r.2.1, CFlexASIO.init.Pa_Initialize_calls s pa ++ r.2.2)

/-- The largest default sample rate among the directions for which a device is resolved;
`none` if no direction has a device. -/
def CFlexASIO.maxDefaultSampleRate (s : CFlexASIO) : Option Rat :=
  match s.input_device_info, s.output_device_info with
  | none, none => none
  | some i, none => some i.defaultSampleRate
  | none, some o => some o.defaultSampleRate
  | some i, some o => some (max i.defaultSampleRate o.defaultSampleRate)

/-! ## More concrete backends -/

/-- A backend that initialises but has no usable host API. -/
def noHostApiBackend : PortAudio :=
  { Pa_Initialize := paNoError,
    Pa_HostApiTypeIdToHostApiIndex := fun _ => paHostApiNotFound,
    Pa_GetDefaultHostApi := paHostApiNotFound,
    Pa_GetHostApiInfo := fun _ => none,
    Pa_GetDeviceInfo := fun _ => none,
    PaWasapi_GetDeviceDefaultFormat := fun _ => (-1, 0, 0) }

/-- A backend reached through DirectSound whose only device is a one-channel input device
(device 0) that reports the default sample rate 0. -/
def zeroRateBackend : PortAudio :=
  { Pa_Initialize := paNoError,
    Pa_HostApiTypeIdToHostApiIndex := fun t => if t = paDirectSound then 0 else paHostApiNotFound,
    Pa_GetDefaultHostApi := 0,
    Pa_GetHostApiInfo := fun i => if i = 0 then some ⟨paDirectSound, 0, paNoDevice⟩ else none,
    Pa_GetDeviceInfo := fun d => if d = 0 then some ⟨1, 0, 0⟩ else none,
    PaWasapi_GetDeviceDefaultFormat := fun _ => (-1, 0, 0) }

/-! ## The cursor of `getChannelName` -/

/-- The inner `while` of `getChannelName` with a record of its shifts: the cursor it stops
at and the values the cursor takes, one per `<<= 1`, in order.  The first argument bounds
the number of shifts. -/
def getChannelName.skipTrace (channelMask : Nat) : Nat → Nat → Option (Nat × List Nat)
  | 0, _ => none
  | fuel + 1, current_channel_speaker =>
    if current_channel_speaker &&& channelMask = 0 ∧ current_channel_speaker < SPEAKER_ALL then
      match getChannelName.skipTrace channelMask fuel
          ((current_channel_speaker <<< 1) % 2 ^ 32) with
      | none => none
      | some r => some (r.1, (current_channel_speaker <<< 1) % 2 ^ 32 :: r.2)
    else some (current_channel_speaker, [])

/-- The `for (;;)` of `getChannelName` with a record of its shifts, those of the inner
`while` included: the final cursor and the values the cursor takes, in order. -/
def getChannelName.searchTrace (channel channelMask : Nat) :
    Nat → Nat → Nat → Option (Nat × List Nat)
  | 0, _, _ => none
  | fuel + 1, current_channel, current_channel_speaker =>
    match getChannelName.skipTrace channelMask 33 current_channel_speaker with
    | none => none
    | some skipped =>
      if skipped.1 = SPEAKER_ALL then some skipped
      else if current_channel = channel then some skipped
      else
        match getChannelName.searchTrace channel channelMask fuel (current_channel + 1)
            ((skipped.1 <<< 1) % 2 ^ 32) with
        | none => none
        | some r => some (r.1, skipped.2 ++ (skipped.1 <<< 1) % 2 ^ 32 :: r.2)

/-! ## The notifications of a run -/

/-- What a buffer notification tells the host: a plain one carries the half-index, an
extended one also the time information, of which the playback speed and the sample
position are kept here. -/
inductive NotificationForm
  | plain (index : Nat)
  | extended (index : Nat) (speed : Int) (samplePosition : ASIOSamples)
  deriving DecidableEq, Repr

/-- The form of a call into the host, if it is a buffer notification. -/
def HostCall.form : HostCall → Option NotificationForm
  | .bufferSwitch index _ => some (.plain index)
  | .bufferSwitchTimeInfo time index _ => some (.extended index time.speed time.samplePosition)
  | .asioMessage _ _ => none

/-- Perform one call; the second component is the buffer notification the call issued, if
it issued one. -/
def CFlexASIO.stepCall (s : CFlexASIO) : DriverCall → Option ( CFlexASIO × Option HostCall)
  | .StreamCallback input output frameCount timeGetTime =>
    match s.StreamCallback input output frameCount timeGetTime with
    | none => none
    | some r => some (r.state, r.handoff.map fun h => h.call)
  | .stop Pa_StopStream => some ((s.stop Pa_StopStream).2, none)
  | .start asioMessage timeGetTime Pa_StartStream =>
    some ((s.start asioMessage timeGetTime Pa_StartStream).2.1, none)

/-- Perform a sequence of calls, collecting the buffer notification of each. -/
def CFlexASIO.runCalls (s : CFlexASIO) :
    List DriverCall → Option ( CFlexASIO × List (Option HostCall))
  | [] => some (s, [])
  | c :: cs =>
    match s.stepCall c with
    | none => none
    | some (s', o) =>
      match CFlexASIO.runCalls s' cs with
      | none => none
      | some (s'', os) => some (s'', o :: os)

/-- The capability negotiation of `start`: the host declares time-info support if it has a
message callback, answers 1 when asked whether it knows the selector
`kAsioSupportsTimeInfo`, and answers 1 to that selector. -/
def declaresTimeInfo (callbacks : ASIOCallbacks) (asioMessage : Int → Int → Int) : Bool :=
  callbacks.asioMessage &&
    (decide (asioMessage kAsioSelectorSupported kAsioSupportsTimeInfo = 1) &&
      decide (asioMessage kAsioSupportsTimeInfo 0 = 1))

/-- The notifications of a run, for a session with period length `N` and host callbacks
`callbacks`: `streaming` tells whether the session is Streaming, `timeInfo` what the host
declared in the negotiation of the latest `start` that went through, and `k` counts the
transfers since then.  A callback transfers exactly when the session is Streaming and its
frame count is `N`; its notification is extended exactly if `timeInfo` holds, and then
carries speed 1 and, as sample position, the words of `asio_samples` over the count
`k * N`; a plain one carries the half-index only. -/
def notifications (callbacks : ASIOCallbacks) (N : Nat) :
    Bool → Bool → Nat → List DriverCall → List (Option NotificationForm)
  | _, _, _, [] => []
  | streaming, timeInfo, k, .StreamCallback _ _ frameCount _ :: cs =>
    if streaming = true ∧ frameCount = N then
      some (if timeInfo = true then
              NotificationForm.extended (k % 2) 1 (asio_samples ((k * N : Nat) : Int))
            else NotificationForm.plain (k % 2))
        :: notifications callbacks N true timeInfo (k + 1) cs
    else none :: notifications callbacks N streaming timeInfo k cs
  | streaming, timeInfo, k, .stop Pa_StopStream :: cs =>
    none :: notifications callbacks N (streaming && decide (Pa_StopStream ≠ paNoError))
      timeInfo k cs
  | streaming, timeInfo, k, .start asioMessage _ Pa_StartStream :: cs =>
    if streaming = true then none :: notifications callbacks N true timeInfo k cs
    else if Pa_StartStream = paNoError then
      none :: notifications callbacks N true (declaresTimeInfo callbacks asioMessage) 0 cs
    else none :: notifications callbacks N false timeInfo k cs

/-! ## More concrete hosts and backends -/

/-- A host callback table with `bufferSwitch`, `asioMessage` and `bufferSwitchTimeInfo`. -/
def timeInfoHost : ASIOCallbacks := ⟨true, false, true, true⟩

/-- A host that knows the selector `kAsioSupportsTimeInfo` and answers 1 to it. -/
def timeInfoMessage : Int → Int → Int := fun selector value =>
  if selector = kAsioSelectorSupported ∧ value = kAsioSupportsTimeInfo then 1
  else if selector = kAsioSupportsTimeInfo then 1
  else 0

/-- The stereo session after `createBuffers` with the four bindings, period length 4 and
the callbacks of `timeInfoHost`. -/
def stereoAllocatedTimeInfo : CFlexASIO :=
  match stereoSession.createBuffers stereoBindings 4 (some timeInfoHost) openAlways with
  | none => stereoSession
  | some r => r.state

/-- A backend that refuses to open a stream, with `paUnanticipatedHostError`. -/
def openNever : PaOpenStreamArgs → PaError × Nat := fun _ => (-9999, 0)

/-! ## Sessions after a call that was refused or failed -/

/-- The stereo session after a refused `createBuffers`: the bindings (input, 0) and
(input, 5) with period length 4, of which the second is out of range. -/
def staleRefused : CFlexASIO :=
  stereoSession.afterCreateBuffers [binding true 0, binding true 5] 4

/-- The session of `staleRefused` after an accepted `createBuffers` with the four bindings
and period length 4. -/
def staleAllocated : CFlexASIO := staleRefused.afterCreateBuffers stereoBindings 4

/-- The session of `staleAllocated` after `start`. -/
def staleStreaming : CFlexASIO := (staleAllocated.start noMessage 0 paNoError).2.1

/-- A backend reached through DirectSound whose default input device (device 0, two
channels, 48000 Hz) has a device info, and whose default output device (device 1) has
none. -/
def inputOnlyBackend : PortAudio :=
  { Pa_Initialize := paNoError,
    Pa_HostApiTypeIdToHostApiIndex := fun t => if t = paDirectSound then 0 else paHostApiNotFound,
    Pa_GetDefaultHostApi := 0,
    Pa_GetHostApiInfo := fun i => if i = 0 then some ⟨paDirectSound, 0, 1⟩ else none,
    Pa_GetDeviceInfo := fun d => if d = 0 then some ⟨2, 0, 48000⟩ else none,
    PaWasapi_GetDeviceDefaultFormat := fun _ => (-1, 0, 0) }

/-- A backend reached through DirectSound on a machine without any audio device: the host
API has no default device in either direction. -/
def noDeviceBackend : PortAudio :=
  { Pa_Initialize := paNoError,
    Pa_HostApiTypeIdToHostApiIndex := fun t => if t = paDirectSound then 0 else paHostApiNotFound,
    Pa_GetDefaultHostApi := 0,
    Pa_GetHostApiInfo := fun i =>
      if i = 0 then some ⟨paDirectSound, paNoDevice, paNoDevice⟩ else none,
    Pa_GetDeviceInfo := fun _ => none,
    PaWasapi_GetDeviceDefaultFormat := fun _ => (-1, 0, 0) }

/-- The session after `init` on `inputOnlyBackend`, which fails at the output device with
the input device resolved. -/
def halfResolved : CFlexASIO := ( CFlexASIO.new.init inputOnlyBackend).2

/-- The session after `init` on `noDeviceBackend`, which succeeds without a device. -/
def noDeviceSession : CFlexASIO := ( CFlexASIO.new.init noDeviceBackend).2

/-! ## The session states of the specification -/

/-- The reachable states together with the record the specification's session states rest
on and the session itself does not keep: `s.ReachableIn g` says that `s` is reached from a
fresh session through the driver operations (as in `ReachableWith`, the backend and the
host answering anything) and that `g` tells whether one of the `init` calls on the way
returned `ASIOTrue`.  With `g = false` the session is in the specification's state
Uninitialized (no successful negotiation), with `g = true` in Negotiated or a later
state. -/
inductive CFlexASIO.ReachableIn : Bool → CFlexASIO → Prop
  | fresh (callbacks : ASIOCallbacks) (host_supports_timeinfo : Bool) (our_buffer_index : Nat)
      (position position_timestamp : Int) :
      CFlexASIO.ReachableIn false
        { CFlexASIO.new with
          callbacks := callbacks, host_supports_timeinfo := host_supports_timeinfo,
          our_buffer_index := our_buffer_index, position := position,
          position_timestamp := position_timestamp }
  | init (g : Bool) (s : CFlexASIO) (pa : PortAudio) :
      CFlexASIO.ReachableIn g s →
      CFlexASIO.ReachableIn (g || decide ((s.init pa).1 = ASIOTrue)) (s.init pa).2
  | createBuffers (g : Bool) (s : CFlexASIO) (bufferInfos : List ASIOBufferInfo)
      (bufferSize : Int) (callbacks : Option ASIOCallbacks)
      (Pa_OpenStream : PaOpenStreamArgs → PaError × Nat) (r : CreateBuffersResult) :
      CFlexASIO.ReachableIn g s →
      s.createBuffers bufferInfos bufferSize callbacks Pa_OpenStream = some r →
      CFlexASIO.ReachableIn g r.state
  | disposeBuffers (g : Bool) (s : CFlexASIO) (Pa_CloseStream : PaError) :
      CFlexASIO.ReachableIn g s → CFlexASIO.ReachableIn g (s.disposeBuffers Pa_CloseStream).2
  | start (g : Bool) (s : CFlexASIO) (asioMessage : Int → Int → Int) (timeGetTime : Int)
      (Pa_StartStream : PaError) :
      CFlexASIO.ReachableIn g s →
      CFlexASIO.ReachableIn g (s.start asioMessage timeGetTime Pa_StartStream).2.1
  | stop (g : Bool) (s : CFlexASIO) (Pa_StopStream : PaError) :
      CFlexASIO.ReachableIn g s → CFlexASIO.ReachableIn g (s.stop Pa_StopStream).2
  | setSampleRate (g : Bool) (s : CFlexASIO) (sampleRate : Rat) :
      CFlexASIO.ReachableIn g s → CFlexASIO.ReachableIn g (s.setSampleRate sampleRate).2.1
  | StreamCallback (g : Bool) (s : CFlexASIO) (input output : List (List Sample))
      (frameCount : Nat) (timeGetTime : Int) (r : StreamCallbackResult) :
      CFlexASIO.ReachableIn g s →
      s.StreamCallback input output frameCount timeGetTime = some r →
      CFlexASIO.ReachableIn g r.state
  | hostWrite (g : Bool) (s : CFlexASIO) (p : SamplePtr) (data : List Sample) (s1 : CFlexASIO) :
      CFlexASIO.ReachableIn g s → s.hostWrite p data = some s1 →
      CFlexASIO.ReachableIn g s1

/-! ## Sample ranges -/

theorem writeSamples_length {arr data arr' : List Sample} {off : Nat}
    (h : writeSamples arr off data = some arr') : arr'.length = arr.length := by
  unfold writeSamples at h
  split at h
  · injection h with h
    subst h
    simp only [List.length_append, List.length_take, List.length_drop]
    omega
  · cases h

theorem writeSamples_getElem? {arr data arr' : List Sample} {off : Nat}
    (h : writeSamples arr off data = some arr') (p : Nat) :
    arr'[p]? = if off ≤ p ∧ p < off + data.length then data[p - off]? else arr[p]? := by
  unfold writeSamples at h
  split at h
  · rename_i hle
    injection h with h
    subst h
    by_cases h1 : p < off
    · have : ¬ (off ≤ p ∧ p < off + data.length) := by omega
      rw [if_neg this, List.append_assoc, List.getElem?_append_left (by simp; omega),
        List.getElem?_take_of_lt h1]
    · by_cases h2 : p < off + data.length
      · have : off ≤ p ∧ p < off + data.length := by omega
        rw [if_pos this, List.append_assoc, List.getElem?_append_right (by simp; omega),
          List.getElem?_append_left (by simp; omega)]
        congr 1
        simp
        omega
      · have : ¬ (off ≤ p ∧ p < off + data.length) := by omega
        rw [if_neg this, List.getElem?_append_right (by simp; omega), List.getElem?_drop]
        congr 1
        simp
        omega
  · cases h

theorem writeSamples_eq_some (arr data : List Sample) (off : Nat)
    (h : off + data.length ≤ arr.length) : ∃ arr', writeSamples arr off data = some arr' := by
  unfold writeSamples
  rw [if_pos h]
  exact ⟨_, rfl⟩

theorem readSamples_length {arr d : List Sample} {off n : Nat}
    (h : readSamples arr off n = some d) : d.length = n := by
  unfold readSamples at h
  split at h
  · injection h with h
    subst h
    simp only [List.length_take, List.length_drop]
    omega
  · cases h

theorem readSamples_getElem? {arr d : List Sample} {off n : Nat}
    (h : readSamples arr off n = some d) (q : Nat) :
    d[q]? = if q < n then arr[off + q]? else none := by
  unfold readSamples at h
  split at h
  · injection h with h
    subst h
    rw [List.getElem?_take, List.getElem?_drop]
  · cases h

theorem readSamples_eq_some (arr : List Sample) (off n : Nat) (h : off + n ≤ arr.length) :
    ∃ d, readSamples arr off n = some d := by
  unfold readSamples
  rw [if_pos h]
  exact ⟨_, rfl⟩

theorem readSamples_bound {arr d : List Sample} {off n : Nat}
    (h : readSamples arr off n = some d) : off + n ≤ arr.length := by
  unfold readSamples at h
  split at h
  · assumption
  · cases h

/-- Two reads of `n` samples agree when the arrays agree on the ranges read. -/
theorem readSamples_congr {a b : List Sample} {offa offb n : Nat}
    (ha : offa + n ≤ a.length) (hb : offb + n ≤ b.length)
    (h : ∀ q, q < n → a[offa + q]? = b[offb + q]?) :
    readSamples a offa n = readSamples b offb n := by
  obtain ⟨da, hda⟩ := readSamples_eq_some a offa n ha
  obtain ⟨db, hdb⟩ := readSamples_eq_some b offb n hb
  rw [hda, hdb]
  congr 1
  apply List.ext_getElem?
  intro q
  rw [readSamples_getElem? hda, readSamples_getElem? hdb]
  by_cases hq : q < n
  · simp only [hq, if_true]; exact h q hq
  · simp only [hq, if_false]

/-! ## Heap access through one block -/

theorem Heap.read_block {heap : Heap} {blk : Nat} {blob : List Sample}
    (h : heap[blk]? = some (some blob)) (off n : Nat) :
    heap.read ⟨blk, off⟩ n = readSamples blob off n := by
  simp only [Heap.read, h]

theorem Heap.write_block {heap : Heap} {blk : Nat} {blob blob' : List Sample} {off : Nat}
    {data : List Sample} (h : heap[blk]? = some (some blob))
    (hw : writeSamples blob off data = some blob') :
    heap.write ⟨blk, off⟩ data = some (heap.set blk (some blob')) := by
  simp only [Heap.write, h, hw]

theorem Heap.set_block_self {heap : Heap} {blk : Nat} {blob : List Sample}
    (h : heap[blk]? = some (some blob)) : heap.set blk (some blob) = heap := by
  apply List.ext_getElem?
  intro i
  by_cases hi : blk = i
  · subst hi
    have hlt : blk < heap.length := by
      rcases List.getElem?_eq_some.mp h with ⟨hlt, _⟩
      exact hlt
    rw [List.getElem?_set_self hlt, h]
  · rw [List.getElem?_set_ne hi]

theorem Heap.getElem?_set_block {heap : Heap} {blk : Nat} {blob blob' : List Sample}
    (h : heap[blk]? = some (some blob)) :
    (heap.set blk (some blob'))[blk]? = some (some blob') := by
  have hlt : blk < heap.length := by
    rcases List.getElem?_eq_some.mp h with ⟨hlt, _⟩
    exact hlt
  exact List.getElem?_set_self hlt

theorem readSamples_zero_take {src : List Sample} {n : Nat} (h : n ≤ src.length) :
    readSamples src 0 n = some (src.take n) := by
  unfold readSamples
  rw [if_pos (by omega)]
  simp

theorem writeSamples_zero (dst data : List Sample) (h : data.length ≤ dst.length) :
    writeSamples dst 0 data = some (data ++ dst.drop data.length) := by
  unfold writeSamples
  rw [if_pos (by omega)]
  simp

theorem StreamCallback.copy_input {h n : Nat} {input : List (List Sample)}
    {bi : ASIOBufferInfo} {heap : Heap} (out : List (List Sample)) {blk off : Nat}
    {blob src : List Sample}
    (hp : bi.buffers h = some ⟨blk, off⟩) (hnn : 0 ≤ bi.channelNum) (hi : bi.isInput = true)
    (hsrc : input[bi.channelNum.toNat]? = some src) (hn : n ≤ src.length)
    (hheap : heap[blk]? = some (some blob)) (hlen : off + n ≤ blob.length) :
    ∃ blob', writeSamples blob off (src.take n) = some blob' ∧
      StreamCallback.copy h n input bi (heap, out) = some (heap.set blk (some blob'), out) := by
  have hl : (src.take n).length = n := by simp; omega
  obtain ⟨blob', hw⟩ := writeSamples_eq_some blob (src.take n) off
    (by omega)
  refine ⟨blob', hw, ?_⟩
  have hneg : ¬ bi.channelNum < 0 := by omega
  simp only [StreamCallback.copy, hp, hneg, if_false, hi, if_true, hsrc,
    readSamples_zero_take hn, Heap.write_block hheap hw]

theorem StreamCallback.copy_output {h n : Nat} (input : List (List Sample))
    {bi : ASIOBufferInfo} {heap : Heap} {out : List (List Sample)} {blk off : Nat}
    {blob dst : List Sample}
    (hp : bi.buffers h = some ⟨blk, off⟩) (hnn : 0 ≤ bi.channelNum) (hi : bi.isInput = false)
    (hdst : out[bi.channelNum.toNat]? = some dst) (hn : n ≤ dst.length)
    (hheap : heap[blk]? = some (some blob)) (hlen : off + n ≤ blob.length) :
    ∃ data, readSamples blob off n = some data ∧
      StreamCallback.copy h n input bi (heap, out)
        = some (heap, out.set bi.channelNum.toNat (data ++ dst.drop n)) := by
  obtain ⟨data, hr⟩ := readSamples_eq_some blob off n hlen
  have hl : data.length = n := readSamples_length hr
  refine ⟨data, hr, ?_⟩
  have hneg : ¬ bi.channelNum < 0 := by omega
  have hw : writeSamples dst 0 data = some (data ++ dst.drop n) := by
    have := writeSamples_zero dst data (by omega)
    rw [hl] at this
    exact this
  simp [StreamCallback.copy, hp, hneg, hi, Heap.read_block hheap, hr, hdst, hw]

theorem StreamCallback.transfer_spec (blk h n : Nat) (input : List (List Sample)) :
    ∀ (rest : List ASIOBufferInfo) (base : Nat) (heap : Heap) (blob : List Sample)
      (out : List (List Sample)),
      heap[blk]? = some (some blob) →
      base + rest.length * n ≤ blob.length →
      (∀ (i : Nat) (bi : ASIOBufferInfo), rest[i]? = some bi → bi.buffers h = some ⟨blk, base + i * n⟩) →
      (∀ bi ∈ rest, 0 ≤ bi.channelNum) →
      (∀ bi ∈ rest, bi.isInput = true →
        ∃ src, input[bi.channelNum.toNat]? = some src ∧ n ≤ src.length) →
      (∀ bi ∈ rest, bi.isInput = false →
        ∃ dst, out[bi.channelNum.toNat]? = some dst ∧ n ≤ dst.length) →
      ∃ blob' out',
        StreamCallback.transfer h n input rest (heap, out)
          = some (heap.set blk (some blob'), out') ∧
        blob'.length = blob.length ∧
        out'.length = out.length ∧
        (∀ p, (∀ (i : Nat) (bi : ASIOBufferInfo), rest[i]? = some bi → bi.isInput = true →
            ¬ (base + i * n ≤ p ∧ p < base + i * n + n)) → blob'[p]? = blob[p]?) ∧
        (∀ (i : Nat) (bi : ASIOBufferInfo), rest[i]? = some bi → bi.isInput = true →
          ∃ src, input[bi.channelNum.toNat]? = some src ∧
            readSamples blob' (base + i * n) n = some (src.take n)) ∧
        (∀ c, (∀ bi ∈ rest, bi.isInput = false → bi.channelNum.toNat ≠ c) →
          out'[c]? = out[c]?) ∧
        (∀ (c i : Nat) (bi : ASIOBufferInfo), rest[i]? = some bi → bi.isInput = false → bi.channelNum.toNat = c →
          (∀ (i' : Nat) (bi' : ASIOBufferInfo), i < i' → rest[i']? = some bi' → bi'.isInput = false →
            bi'.channelNum.toNat ≠ c) →
          ∃ dst data, out[c]? = some dst ∧ readSamples blob (base + i * n) n = some data ∧
            out'[c]? = some (data ++ dst.drop n)) := by
  intro rest
  induction rest with
  | nil =>
    intro base heap blob out hheap _ _ _ _ _
    refine ⟨blob, out, ?_, rfl, rfl, ?_, ?_, ?_, ?_⟩
    · simp only [StreamCallback.transfer, Heap.set_block_self hheap]
    · intro p _; rfl
    · intro i bi hi; simp at hi
    · intro c _; rfl
    · intro c i bi hi; simp at hi
  | cons b rest ih =>
    intro base heap blob out hheap hlen hptr hnn hin hout
    have hlen' : base + n + rest.length * n ≤ blob.length := by
      simp only [List.length_cons, Nat.succ_mul] at hlen
      omega
    have hp0 : b.buffers h = some ⟨blk, base⟩ := by
      have := hptr 0 b (by simp)
      simpa using this
    have hptr' : ∀ (i : Nat) (bi : ASIOBufferInfo), rest[i]? = some bi → bi.buffers h = some ⟨blk, base + n + i * n⟩ := by
      intro i bi hi
      have := hptr (i + 1) bi (by simpa using hi)
      rw [this, Nat.succ_mul]
      congr 2
      omega
    have hnn0 : 0 ≤ b.channelNum := hnn b (List.mem_cons_self _ _)
    have hnn' : ∀ bi ∈ rest, 0 ≤ bi.channelNum := fun bi hbi => hnn bi (List.mem_cons_of_mem _ hbi)
    have hin' : ∀ bi ∈ rest, bi.isInput = true →
        ∃ src, input[bi.channelNum.toNat]? = some src ∧ n ≤ src.length :=
      fun bi hbi => hin bi (List.mem_cons_of_mem _ hbi)
    cases hdir : b.isInput with
    | true =>
      obtain ⟨src, hsrc, hsn⟩ := hin b (List.mem_cons_self _ _) hdir
      obtain ⟨blob1, hw, hcopy⟩ := StreamCallback.copy_input out hp0 hnn0 hdir hsrc hsn
        hheap (by omega)
      have hl1 : blob1.length = blob.length := writeSamples_length hw
      have hsl : (src.take n).length = n := by simp; omega
      have hheap1 : (heap.set blk (some blob1))[blk]? = some (some blob1) :=
        Heap.getElem?_set_block hheap
      obtain ⟨blob', out', hrun, hl', hol, hframe, hinp, ho2, ho3⟩ :=
        ih (base + n) (heap.set blk (some blob1)) blob1 out hheap1 (by omega) hptr' hnn' hin'
          (fun bi hbi => hout bi (List.mem_cons_of_mem _ hbi))
      refine ⟨blob', out', ?_, by omega, hol, ?_, ?_, ?_, ?_⟩
      · simp only [StreamCallback.transfer, hcopy, hrun, List.set_set]
      · intro p hp
        have h1 : blob'[p]? = blob1[p]? := by
          apply hframe
          intro i bi hi hii
          have := hp (i + 1) bi (by simpa using hi) hii
          rw [Nat.succ_mul] at this
          omega
        have h0 := hp 0 b (by simp) hdir
        rw [h1, writeSamples_getElem? hw p, if_neg (by rw [hsl]; omega)]
      · intro i bi hi hii
        cases i with
        | zero =>
          have hb : b = bi := by simpa using hi
          subst hb
          refine ⟨src, hsrc, ?_⟩
          have e1 : readSamples blob' (base + 0 * n) n = readSamples blob1 base n := by
            apply readSamples_congr (by omega) (by omega)
            intro q hq
            rw [Nat.zero_mul, Nat.add_zero]
            apply hframe
            intro i' bi' _ _
            have : n ≤ n + i' * n := Nat.le_add_right _ _
            omega
          rw [e1]
          have e2 : readSamples blob1 base n = some ((blob1.drop base).take n) := by
            unfold readSamples; rw [if_pos (by omega)]
          rw [e2]
          congr 1
          apply List.ext_getElem?
          intro q
          rw [List.getElem?_take, List.getElem?_drop, writeSamples_getElem? hw]
          by_cases hq : q < n
          · rw [if_pos hq, if_pos (by rw [hsl]; omega)]
            congr 1
            omega
          · rw [if_neg hq]
            symm
            apply List.getElem?_eq_none
            omega
        | succ i =>
          obtain ⟨src', hs', hr'⟩ := hinp i bi (by simpa using hi) hii
          refine ⟨src', hs', ?_⟩
          rw [Nat.succ_mul]
          rw [← hr']
          congr 1
          omega
      · intro c hc
        apply ho2
        intro bi hbi
        exact hc bi (List.mem_cons_of_mem _ hbi)
      · intro c i bi hi hio hch hlast
        cases i with
        | zero =>
          have hb : b = bi := by simpa using hi
          subst hb
          rw [hdir] at hio
          cases hio
        | succ i =>
          obtain ⟨dst, data, hd, hr, ho⟩ := ho3 c i bi (by simpa using hi) hio hch (by
            intro i' bi' hlt hi' hio'
            exact hlast (i' + 1) bi' (by omega) (by simpa using hi') hio')
          refine ⟨dst, data, hd, ?_, ho⟩
          have hb1 := readSamples_bound hr
          rw [← hr, Nat.succ_mul]
          apply readSamples_congr (by omega) (by omega)
          intro q hq
          rw [writeSamples_getElem? hw, if_neg (by rw [hsl]; omega)]
          congr 1
          omega
    | false =>
      obtain ⟨dst0, hdst0, hdn0⟩ := hout b (List.mem_cons_self _ _) hdir
      obtain ⟨data0, hr0, hcopy⟩ := StreamCallback.copy_output input hp0 hnn0 hdir
        hdst0 hdn0 hheap (by omega)
      have hdl0 : data0.length = n := readSamples_length hr0
      have hclt : b.channelNum.toNat < out.length := by
        rcases List.getElem?_eq_some.mp hdst0 with ⟨hlt, _⟩
        exact hlt
      have hout1 : ∀ (c : Nat) (dst : List Sample), out[c]? = some dst →
          ∃ dst1 : List Sample, (out.set b.channelNum.toNat (data0 ++ dst0.drop n))[c]? = some dst1 ∧
            dst1.length = dst.length ∧ dst1.drop n = dst.drop n := by
        intro c dst hc
        by_cases hcc : b.channelNum.toNat = c
        · subst hcc
          rw [hdst0] at hc
          injection hc with hc
          subst hc
          refine ⟨_, List.getElem?_set_self hclt, ?_, ?_⟩
          · simp only [List.length_append, List.length_drop]; omega
          · rw [List.drop_append_of_le_length (by omega), List.drop_eq_nil_of_le (by omega)]
            simp
        · exact ⟨dst, by rw [List.getElem?_set_ne hcc]; exact hc, rfl, rfl⟩
      obtain ⟨blob', out', hrun, hl', hol, hframe, hinp, ho2, ho3⟩ :=
        ih (base + n) heap blob (out.set b.channelNum.toNat (data0 ++ dst0.drop n)) hheap
          (by omega) hptr' hnn' hin'
          (by
            intro bi hbi hio
            obtain ⟨dst, hd, hdn⟩ := hout bi (List.mem_cons_of_mem _ hbi) hio
            obtain ⟨dst1, h1, h2, _⟩ := hout1 _ _ hd
            exact ⟨dst1, h1, by omega⟩)
      refine ⟨blob', out', ?_, hl', ?_, ?_, ?_, ?_, ?_⟩
      · simp only [StreamCallback.transfer, hcopy, hrun]
      · rw [hol, List.length_set]
      · intro p hp
        apply hframe
        intro i bi hi hii
        have := hp (i + 1) bi (by simpa using hi) hii
        rw [Nat.succ_mul] at this
        omega
      · intro i bi hi hii
        cases i with
        | zero =>
          have hb : b = bi := by simpa using hi
          subst hb
          rw [hdir] at hii
          cases hii
        | succ i =>
          obtain ⟨src', hs', hr'⟩ := hinp i bi (by simpa using hi) hii
          refine ⟨src', hs', ?_⟩
          rw [Nat.succ_mul, ← hr']
          congr 1
          omega
      · intro c hc
        rw [ho2 c (fun bi hbi => hc bi (List.mem_cons_of_mem _ hbi))]
        exact List.getElem?_set_ne (hc b (List.mem_cons_self _ _) hdir)
      · intro c i bi hi hio hch hlast
        cases i with
        | zero =>
          have hb : b = bi := by simpa using hi
          subst hb
          refine ⟨dst0, data0, by rw [← hch]; exact hdst0, by simpa using hr0, ?_⟩
          rw [ho2 c (by
            intro bi' hbi' hio'
            obtain ⟨i', hi'⟩ := List.mem_iff_getElem?.mp hbi'
            exact hlast (i' + 1) bi' (by omega) (by simpa using hi') hio')]
          rw [← hch]
          exact List.getElem?_set_self hclt
        | succ i =>
          obtain ⟨dst1, data, hd1, hr, ho⟩ := ho3 c i bi (by simpa using hi) hio hch (by
            intro i' bi' hlt hi' hio'
            exact hlast (i' + 1) bi' (by omega) (by simpa using hi') hio')
          obtain ⟨dst, hd, _⟩ := hout bi (List.mem_iff_getElem?.mpr ⟨i + 1, hi⟩) hio
          rw [hch] at hd
          obtain ⟨dst1', h1, _, h3⟩ := hout1 c dst hd
          rw [hd1] at h1
          injection h1 with h1
          subst h1
          refine ⟨dst, data, hd, ?_, by rw [ho, h3]⟩
          rw [← hr, Nat.succ_mul]
          congr 1
          omega

theorem StreamCallback.zeroFill_spec (n : Nat) :
    ∀ (idx : List Nat) (out : List (List Sample)),
      (∀ i ∈ idx, ∃ arr, out[i]? = some arr ∧ n ≤ arr.length) →
      ∃ out', StreamCallback.zeroFill n idx out = some out' ∧ out'.length = out.length ∧
        ∀ (c : Nat) (arr : List Sample), out[c]? = some arr →
          ∃ arr', out'[c]? = some arr' ∧ arr'.length = arr.length ∧
            arr'.drop n = arr.drop n ∧ (c ∈ idx → arr'.take n = List.replicate n 0) ∧
            (c ∉ idx → arr' = arr) := by
  intro idx
  induction idx with
  | nil =>
    intro out _
    refine ⟨out, rfl, rfl, ?_⟩
    intro c arr hc
    exact ⟨arr, hc, rfl, rfl, by simp, fun _ => rfl⟩
  | cons i idx ih =>
    intro out hok
    obtain ⟨arr0, h0, hn0⟩ := hok i (List.mem_cons_self _ _)
    have hilt : i < out.length := by
      rcases List.getElem?_eq_some.mp h0 with ⟨hlt, _⟩
      exact hlt
    have hw : writeSamples arr0 0 (List.replicate n 0)
        = some (List.replicate n 0 ++ arr0.drop n) := by
      have := writeSamples_zero arr0 (List.replicate n 0) (by simpa using hn0)
      simpa using this
    have hstep : ∀ (c : Nat) (arr : List Sample), out[c]? = some arr →
        ∃ arr1 : List Sample, (out.set i (List.replicate n 0 ++ arr0.drop n))[c]? = some arr1 ∧
          arr1.length = arr.length ∧ arr1.drop n = arr.drop n ∧
          (c = i → arr1.take n = List.replicate n 0) ∧ (c ≠ i → arr1 = arr) := by
      intro c arr hc
      by_cases hci : i = c
      · subst hci
        rw [h0] at hc
        injection hc with hc
        subst hc
        refine ⟨_, List.getElem?_set_self hilt, ?_, ?_, ?_, ?_⟩
        · simp only [List.length_append, List.length_replicate, List.length_drop]; omega
        · rw [List.drop_append_of_le_length (by simp), List.drop_eq_nil_of_le (by simp)]
          simp
        · intro _
          rw [List.take_append_of_le_length (by simp), List.take_of_length_le (by simp)]
        · intro h; exact absurd rfl h
      · exact ⟨arr, by rw [List.getElem?_set_ne hci]; exact hc, rfl, rfl,
          fun h => absurd h.symm hci, fun _ => rfl⟩
    obtain ⟨out', hrun, hlen, hall⟩ := ih (out.set i (List.replicate n 0 ++ arr0.drop n)) (by
      intro j hj
      obtain ⟨arr, ha, hna⟩ := hok j (List.mem_cons_of_mem _ hj)
      obtain ⟨arr1, h1, h2, _⟩ := hstep j arr ha
      exact ⟨arr1, h1, by omega⟩)
    refine ⟨out', ?_, by rw [hlen, List.length_set], ?_⟩
    · simp only [StreamCallback.zeroFill, h0, hw, hrun]
    · intro c arr hc
      obtain ⟨arr1, h1, h2, h3, h4, h5⟩ := hstep c arr hc
      obtain ⟨arr', g1, g2, g3, g4, g5⟩ := hall c arr1 h1
      refine ⟨arr', g1, by omega, by rw [g3, h3], ?_, ?_⟩
      · intro hmem
        by_cases hcidx : c ∈ idx
        · exact g4 hcidx
        · have hci : c = i := by
            rcases List.mem_cons.mp hmem with h | h
            · exact h
            · exact absurd h hcidx
          rw [g5 hcidx]
          exact h4 hci
      · intro hmem
        have hci : c ≠ i := fun h => hmem (h ▸ List.mem_cons_self _ _)
        have hcidx : c ∉ idx := fun h => hmem (List.mem_cons_of_mem _ h)
        rw [g5 hcidx, h5 hci]

/-- What `BufferSetOk` says once the `Buffers` object is named. -/
theorem CFlexASIO.BufferSetOk.unpack {s : CFlexASIO} (h : s.BufferSetOk) :
    ∃ (b : Buffers) (blob : List Sample), s.buffers = some b ∧ b.buffer_count = 2 ∧
      b.channel_count = s.buffers_info.length ∧ s.heap[b.buffers]? = some (some blob) ∧
      blob.length = 2 * s.buffers_info.length * b.buffer_size ∧
      (∀ (i : Nat) (bi : ASIOBufferInfo), s.buffers_info[i]? = some bi →
        bi.buffers0 = b.getBuffer 0 i ∧ bi.buffers1 = b.getBuffer 1 i) ∧
      ∀ bi ∈ s.buffers_info, ¬ s.outOfBounds bi := by
  unfold CFlexASIO.BufferSetOk at h
  cases hb : s.buffers with
  | none => rw [hb] at h; exact h.elim
  | some b =>
    rw [hb] at h
    obtain ⟨h1, h2, h3, h4, h5⟩ := h
    cases hblk : s.heap[b.buffers]? with
    | none => rw [hblk] at h3; simp at h3
    | some o =>
      cases o with
      | none => rw [hblk] at h3; simp at h3
      | some blob =>
        rw [hblk] at h3
        have h3' : blob.length = b.getSize := by simpa [Option.join] using h3
        refine ⟨b, blob, rfl, h1, h2, hblk, ?_, ?_, h5⟩
        · rw [h3', Buffers.getSize, h1, h2]
        · intro i bi hi
          have hlt : i < s.buffers_info.length := by
            rcases List.getElem?_eq_some.mp hi with ⟨hlt, _⟩
            exact hlt
          have := congrArg (fun l => l[i]?) h4
          simp only [List.getElem?_map, hi, Option.map_some', List.getElem?_range hlt] at this
          injection this with this
          exact ⟨congrArg Prod.fst this, congrArg Prod.snd this⟩

/-- The slot of binding `i` in half `half`, as an offset into the block. -/
theorem CFlexASIO.getBuffer_offset (b : Buffers) (half i : Nat) :
    b.getBuffer half i = ⟨b.buffers, half * b.channel_count * b.buffer_size + i * b.buffer_size⟩ :=
  rfl

/-- A transfer on a well-formed Streaming session: the callback completes, and the memory
and the output arrays at the moment of the notification are determined as follows.  `out0`
is the result of the zero fill, `blob` and `blob'` are the `Buffers` block before the call
and at the notification. -/
theorem CFlexASIO.StreamCallback_full (s : CFlexASIO) (input output : List (List Sample))
    (n : Nat) (t : Int) (hs : s.StreamingOk n) (ha : s.ArraysOk input output n) :
    ∃ (b : Buffers) (blob blob' : List Sample) (out0 out' : List (List Sample)),
      StreamCallback.zeroFill n (List.range s.output_channel_count.toNat) output = some out0 ∧
      out0.length = output.length ∧
      (∀ (c : Nat) (arr : List Sample), output[c]? = some arr →
        ∃ arr', out0[c]? = some arr' ∧ arr'.length = arr.length ∧
          (c < s.output_channel_count.toNat → arr'.take n = List.replicate n 0)) ∧
      s.buffers = some b ∧ b.buffer_size = n ∧ b.channel_count = s.buffers_info.length ∧
      s.heap[b.buffers]? = some (some blob) ∧
      blob.length = 2 * s.buffers_info.length * n ∧
      blob'.length = blob.length ∧ out'.length = output.length ∧
      s.StreamCallback input output n t = some
        { ret := paContinue,
          state := { s with heap := s.heap.set b.buffers (some blob'),
                            our_buffer_index := (s.our_buffer_index + 1) % 2,
                            position := s.position + n,
                            position_timestamp := t * 1000000 },
          output := out',
          handoff := some ⟨s.notification,
            { s with heap := s.heap.set b.buffers (some blob') }, out'⟩ } ∧
      (∀ p, (∀ (i : Nat) (bi : ASIOBufferInfo), s.buffers_info[i]? = some bi →
          bi.isInput = true →
          ¬ (s.our_buffer_index * s.buffers_info.length * n + i * n ≤ p ∧
             p < s.our_buffer_index * s.buffers_info.length * n + i * n + n)) →
        blob'[p]? = blob[p]?) ∧
      (∀ (i : Nat) (bi : ASIOBufferInfo), s.buffers_info[i]? = some bi → bi.isInput = true →
        ∃ src, input[bi.channelNum.toNat]? = some src ∧
          readSamples blob' (s.our_buffer_index * s.buffers_info.length * n + i * n) n
            = some (src.take n)) ∧
      (∀ c, (∀ bi ∈ s.buffers_info, bi.isInput = false → bi.channelNum.toNat ≠ c) →
        out'[c]? = out0[c]?) ∧
      (∀ (c i : Nat) (bi : ASIOBufferInfo), s.buffers_info[i]? = some bi →
        bi.isInput = false → bi.channelNum.toNat = c →
        (∀ (i' : Nat) (bi' : ASIOBufferInfo), i < i' → s.buffers_info[i']? = some bi' →
          bi'.isInput = false → bi'.channelNum.toNat ≠ c) →
        ∃ dst data, out0[c]? = some dst ∧
          readSamples blob (s.our_buffer_index * s.buffers_info.length * n + i * n) n
            = some data ∧ out'[c]? = some (data ++ dst.drop n)) := by
  obtain ⟨hstarted, hok, hidx, hhost, hperiod⟩ := hs
  obtain ⟨hic, hia, hoc, hoa⟩ := ha
  obtain ⟨b, blob, hb, hbc, hcc, hblk, hlen, hptr, hrange⟩ := hok.unpack
  have hbs : b.buffer_size = n := by
    rw [hb] at hperiod
    simpa using hperiod
  rw [hbs] at hlen
  -- the zero fill
  obtain ⟨out0, hz, hzl, hzall⟩ := StreamCallback.zeroFill_spec n
    (List.range s.output_channel_count.toNat) output (by
      intro i hi
      have hi' : i < output.length := by
        have := List.mem_range.mp hi
        omega
      exact ⟨output[i], List.getElem?_eq_getElem hi', hoa _ (List.getElem_mem hi')⟩)
  -- the transfer loop
  have hbase : s.our_buffer_index * s.buffers_info.length * n + s.buffers_info.length * n
      ≤ blob.length := by
    rw [hlen]
    have h2 : s.our_buffer_index = 0 ∨ s.our_buffer_index = 1 := by omega
    rcases h2 with h2 | h2 <;> rw [h2] <;> simp [Nat.two_mul, Nat.add_mul]
  obtain ⟨blob', out', hrun, hl', hol, hframe, hinp, ho2, ho3⟩ :=
    StreamCallback.transfer_spec b.buffers s.our_buffer_index n input s.buffers_info
      (s.our_buffer_index * s.buffers_info.length * n) s.heap blob out0 hblk hbase
      (by
        intro i bi hi
        obtain ⟨p0, p1⟩ := hptr i bi hi
        have h2 : s.our_buffer_index = 0 ∨ s.our_buffer_index = 1 := by omega
        rcases h2 with h2 | h2 <;> rw [h2]
        · simp only [ASIOBufferInfo.buffers, p0, CFlexASIO.getBuffer_offset, hcc, hbs]
        · simp only [ASIOBufferInfo.buffers, p1, CFlexASIO.getBuffer_offset, hcc, hbs])
      (by
        intro bi hbi
        have := hrange bi hbi
        unfold CFlexASIO.outOfBounds at this
        split at this <;> omega)
      (by
        intro bi hbi hio
        have := hrange bi hbi
        unfold CFlexASIO.outOfBounds at this
        rw [if_pos hio] at this
        have hlt : bi.channelNum.toNat < input.length := by omega
        exact ⟨input[bi.channelNum.toNat], List.getElem?_eq_getElem hlt,
          hia _ (List.getElem_mem hlt)⟩)
      (by
        intro bi hbi hio
        have := hrange bi hbi
        unfold CFlexASIO.outOfBounds at this
        rw [if_neg (by simp [hio])] at this
        have hlt : bi.channelNum.toNat < output.length := by omega
        obtain ⟨arr', g1, g2, _⟩ := hzall _ _ (List.getElem?_eq_getElem hlt)
        exact ⟨arr', g1, by have := hoa _ (List.getElem_mem hlt); omega⟩)
  refine ⟨b, blob, blob', out0, out', hz, hzl, ?_, hb, hbs, hcc, hblk, hlen, hl', by omega, ?_,
    hframe, hinp, ho2, ho3⟩
  · intro c arr hc
    obtain ⟨arr', g1, g2, _, g4, _⟩ := hzall c arr hc
    exact ⟨arr', g1, g2, fun hlt => g4 (List.mem_range.mpr hlt)⟩
  · unfold CFlexASIO.HostReady at hhost
    unfold CFlexASIO.StreamCallback
    simp only [hstarted, hb, hbs, hz, hrun]
    cases hti : s.host_supports_timeinfo with
    | true =>
      have hh : s.callbacks.bufferSwitchTimeInfo = true := by simpa [hti] using hhost
      simp [ CFlexASIO.notification, hti, hh]
    | false =>
      have hh : s.callbacks.bufferSwitch = true := by simpa [hti] using hhost
      simp [ CFlexASIO.notification, hti, hh]

/-- A transfer on a well-formed Streaming session: the callback completes, and the memory
and the output arrays at the moment of the notification are as described. -/
theorem CFlexASIO.StreamCallback_spec (s : CFlexASIO) (input output : List (List Sample))
    (n : Nat) (t : Int) (hs : s.StreamingOk n) (ha : s.ArraysOk input output n) :
    ∃ (b : Buffers) (blob blob' : List Sample) (out' : List (List Sample)),
      s.buffers = some b ∧ b.buffer_size = n ∧ b.channel_count = s.buffers_info.length ∧
      s.heap[b.buffers]? = some (some blob) ∧
      blob.length = 2 * s.buffers_info.length * n ∧
      blob'.length = blob.length ∧ out'.length = output.length ∧
      s.StreamCallback input output n t = some
        { ret := paContinue,
          state := { s with heap := s.heap.set b.buffers (some blob'),
                            our_buffer_index := (s.our_buffer_index + 1) % 2,
                            position := s.position + n,
                            position_timestamp := t * 1000000 },
          output := out',
          handoff := some ⟨s.notification,
            { s with heap := s.heap.set b.buffers (some blob') }, out'⟩ } ∧
      (∀ p, (∀ (i : Nat) (bi : ASIOBufferInfo), s.buffers_info[i]? = some bi →
          bi.isInput = true →
          ¬ (s.our_buffer_index * s.buffers_info.length * n + i * n ≤ p ∧
             p < s.our_buffer_index * s.buffers_info.length * n + i * n + n)) →
        blob'[p]? = blob[p]?) ∧
      (∀ (i : Nat) (bi : ASIOBufferInfo), s.buffers_info[i]? = some bi → bi.isInput = true →
        ∃ src, input[bi.channelNum.toNat]? = some src ∧
          readSamples blob' (s.our_buffer_index * s.buffers_info.length * n + i * n) n
            = some (src.take n)) ∧
      (∀ c, c < s.output_channel_count.toNat →
        (∀ bi ∈ s.buffers_info, bi.isInput = false → bi.channelNum.toNat ≠ c) →
        ∃ arr, out'[c]? = some arr ∧ arr.take n = List.replicate n 0) ∧
      (∀ (c i : Nat) (bi : ASIOBufferInfo), s.buffers_info[i]? = some bi →
        bi.isInput = false → bi.channelNum.toNat = c →
        (∀ (i' : Nat) (bi' : ASIOBufferInfo), i < i' → s.buffers_info[i']? = some bi' →
          bi'.isInput = false → bi'.channelNum.toNat ≠ c) →
        ∃ arr data, out'[c]? = some arr ∧
          readSamples blob (s.our_buffer_index * s.buffers_info.length * n + i * n) n
            = some data ∧ arr.take n = data) := by
  obtain ⟨b, blob, blob', out0, out', hz, hzl, hzall, hb, hbs, hcc, hblk, hlen, hl', hol, hrun,
    hframe, hinp, ho2, ho3⟩ := CFlexASIO.StreamCallback_full s input output n t hs ha
  refine ⟨b, blob, blob', out', hb, hbs, hcc, hblk, hlen, hl', hol, hrun, hframe, hinp, ?_, ?_⟩
  · intro c hc hnone
    have hclt : c < output.length := by have := ha.2.2.1; omega
    obtain ⟨arr', g1, _, g4⟩ := hzall _ _ (List.getElem?_eq_getElem hclt)
    exact ⟨arr', by rw [ho2 c hnone]; exact g1, g4 hc⟩
  · intro c i bi hi hio hch hlast
    obtain ⟨dst, data, _, hr, ho⟩ := ho3 c i bi hi hio hch hlast
    refine ⟨_, data, ho, hr, ?_⟩
    have := readSamples_length hr
    rw [List.take_append_of_le_length (by omega), List.take_of_length_le (by omega)]


/-! ## Steps of a Streaming session -/

/-- `BufferSetOk` only depends on the BufferSet, the bindings, the channel counts and the
length of the `Buffers` block. -/
theorem CFlexASIO.BufferSetOk.of_same_set {s s' : CFlexASIO} (h : s.BufferSetOk)
    (h1 : s'.buffers = s.buffers) (h2 : s'.buffers_info = s.buffers_info)
    (h3 : s'.input_channel_count = s.input_channel_count)
    (h4 : s'.output_channel_count = s.output_channel_count)
    (h5 : ∀ b, s.buffers = some b →
      s'.heap[b.buffers]?.join.map List.length = s.heap[b.buffers]?.join.map List.length) :
    s'.BufferSetOk := by
  unfold CFlexASIO.BufferSetOk at h ⊢
  rw [h1, h2]
  cases hb : s.buffers with
  | none => rw [hb] at h; exact h.elim
  | some b =>
    rw [hb] at h
    obtain ⟨g1, g2, g3, g4, g5⟩ := h
    refine ⟨g1, g2, by rw [h5 b hb]; exact g3, g4, ?_⟩
    intro bi hbi
    have := g5 bi hbi
    unfold CFlexASIO.outOfBounds at this ⊢
    rw [h3, h4]
    exact this

/-- `CallOk` only depends on the channel counts and the callback table. -/
theorem CFlexASIO.CallOk.of_same_counts {s s' : CFlexASIO} {N : Nat} {c : DriverCall}
    (h : s.CallOk N c) (h3 : s'.input_channel_count = s.input_channel_count)
    (h4 : s'.output_channel_count = s.output_channel_count)
    (h5 : s'.callbacks = s.callbacks) : s'.CallOk N c := by
  cases c with
  | StreamCallback input output frameCount timeGetTime =>
    unfold CFlexASIO.CallOk CFlexASIO.ArraysOk at h ⊢
    rw [h3, h4]
    exact h
  | stop r => trivial
  | start m t r =>
    unfold CFlexASIO.CallOk at h ⊢
    rw [h5]
    exact h

/-- A successful `start`: a BufferSet exists, the session was not Streaming, the backend
started the stream, and the half-index and the sample count are reset. -/
theorem CFlexASIO.start_ok {s : CFlexASIO} {asioMessage : Int → Int → Int} {t : Int}
    {r : PaError} (h : (s.start asioMessage t r).1 = ASIOError.ASE_OK) :
    s.buffers.isSome = true ∧ s.started = false ∧ r = paNoError ∧
    (s.start asioMessage t r).2.1 =
      { s with
        host_supports_timeinfo :=
          (s.callbacks.asioMessage &&
            (decide (asioMessage kAsioSelectorSupported kAsioSupportsTimeInfo = 1) &&
              decide (asioMessage kAsioSupportsTimeInfo 0 = 1))),
        our_buffer_index := 0, position := 0, position_timestamp := t * 1000000,
        started := true } := by
  unfold CFlexASIO.start at h ⊢
  cases hb : s.buffers.isSome <;> cases hs : s.started <;>
    by_cases hr : r = paNoError <;> simp [hb, hs, hr] at h ⊢
  by_cases h1 : s.callbacks.asioMessage = true <;>
    by_cases h2 : asioMessage kAsioSelectorSupported kAsioSupportsTimeInfo = 1 <;>
    simp [h1, h2]

/-- After a successful `start` on a host that is consistent about time info, the callback
the driver will use is there. -/
theorem CFlexASIO.start_HostReady {s : CFlexASIO} {asioMessage : Int → Int → Int} {t : Int}
    {r : PaError} (h : (s.start asioMessage t r).1 = ASIOError.ASE_OK)
    (hcb : s.callbacks.bufferSwitch = true) (hc : HostConsistent s.callbacks asioMessage) :
    (s.start asioMessage t r).2.1.HostReady := by
  obtain ⟨_, _, _, heq⟩ := CFlexASIO.start_ok h
  rw [heq]
  unfold CFlexASIO.HostReady HostConsistent at *
  simp only
  split
  · rename_i hti
    simp only [Bool.and_eq_true, decide_eq_true_eq] at hti
    exact hc hti.1 hti.2.1 hti.2.2
  · exact hcb


/-- A callback outside Streaming, or with a frame count other than the period length,
changes nothing. -/
theorem CFlexASIO.StreamCallback_skip (s : CFlexASIO) (input output : List (List Sample))
    (n : Nat) (t : Int)
    (h : s.started = false ∨ ∃ b, s.buffers = some b ∧ n ≠ b.buffer_size) :
    s.StreamCallback input output n t = some ⟨paContinue, s, output, none⟩ := by
  unfold CFlexASIO.StreamCallback
  rcases h with h | ⟨b, hb, hn⟩
  · simp [h]
  · cases hs : s.started
    · simp
    · simp [hb, hn]

theorem CFlexASIO.notification_halfIndex (s : CFlexASIO) :
    s.notification.halfIndex = some s.our_buffer_index := by
  unfold CFlexASIO.notification
  split <;> rfl

/-- One transfer keeps the session Streaming and well-formed, hands the current half-index
to the host, flips it and adds the period length to the sample count. -/
theorem CFlexASIO.step_transfer (s : CFlexASIO) (input output : List (List Sample))
    (n : Nat) (t : Int) (hs : s.StreamingOk n) (ha : s.ArraysOk input output n) :
    ∃ s', s.step (DriverCall.StreamCallback input output n t)
        = some (s', some s.our_buffer_index) ∧
      s'.StreamingOk n ∧ s'.our_buffer_index = (s.our_buffer_index + 1) % 2 ∧
      s'.position = s.position + n ∧
      s'.input_channel_count = s.input_channel_count ∧
      s'.output_channel_count = s.output_channel_count ∧ s'.callbacks = s.callbacks := by
  obtain ⟨b, blob, blob', out', hb, hbs, hcc, hblk, hlen, hl', hol, hrun, _⟩ :=
    CFlexASIO.StreamCallback_spec s input output n t hs ha
  obtain ⟨hstarted, hok, hidx, hhost, hperiod⟩ := hs
  refine ⟨{ s with heap := s.heap.set b.buffers (some blob'),
                   our_buffer_index := (s.our_buffer_index + 1) % 2,
                   position := s.position + n,
                   position_timestamp := t * 1000000 },
    ?_, ⟨hstarted, ?_, ?_, ?_, hperiod⟩, rfl, rfl, rfl, rfl, rfl⟩
  · simp [ CFlexASIO.step, hrun, CFlexASIO.notification_halfIndex]
  · refine hok.of_same_set rfl rfl rfl rfl ?_
    intro b' hb'
    rw [hb] at hb'
    injection hb' with hb'
    subst hb'
    simp [Heap.getElem?_set_block hblk, hblk, Option.join, hl']
  · exact Nat.mod_lt _ (by decide)
  · exact hhost

/-- Along any sequence of callbacks, `stop`s and `start`s on a well-formed BufferSet the
half-indices handed to the host are those of the specification's alternation. -/
theorem CFlexASIO.run_alternation (N : Nat) :
    ∀ (calls : List DriverCall) (s : CFlexASIO) (streaming : Bool) (k : Nat),
      s.BufferSetOk → s.buffers.map (fun b => b.buffer_size) = some N →
      s.callbacks.bufferSwitch = true →
      s.started = streaming →
      (streaming = true → s.our_buffer_index = k % 2 ∧ s.HostReady) →
      (∀ c ∈ calls, s.CallOk N c) →
      ∃ s', s.run calls = some (s', alternation N streaming k calls) := by
  intro calls
  induction calls with
  | nil =>
    intro s streaming k _ _ _ _ _ _
    exact ⟨s, rfl⟩
  | cons c cs ih =>
    intro s streaming k hok hper hcb hst hidx hcalls
    have hc := hcalls c (List.mem_cons_self _ _)
    have hcs : ∀ c ∈ cs, s.CallOk N c := fun c hc => hcalls c (List.mem_cons_of_mem _ hc)
    cases c with
    | StreamCallback input output n t =>
      by_cases htr : streaming = true ∧ n = N
      · obtain ⟨hs1, hn⟩ := htr
        subst hn
        obtain ⟨hk, hhost⟩ := hidx hs1
        have hS : s.StreamingOk n := ⟨by rw [hst, hs1], hok, by rw [hk]; exact Nat.mod_lt _ (by decide),
          hhost, hper⟩
        obtain ⟨s1, hstep, hS1, hi1, _, hic, hoc, hcb1⟩ :=
          CFlexASIO.step_transfer s input output n t hS (hc rfl)
        obtain ⟨s', hrun⟩ := ih s1 true (k + 1) hS1.2.1 hS1.2.2.2.2 (by rw [hcb1]; exact hcb)
          hS1.1 (fun _ => ⟨by rw [hi1, hk]; omega, hS1.2.2.2.1⟩)
          (fun c hc => (hcs c hc).of_same_counts hic hoc hcb1)
        refine ⟨s', ?_⟩
        simp [ CFlexASIO.run, hstep, hrun, alternation, hs1, hk, and_self, if_true]
      · have hskip : s.StreamCallback input output n t = some ⟨paContinue, s, output, none⟩ := by
          apply CFlexASIO.StreamCallback_skip
          cases hs1 : streaming with
          | false => left; rw [hst, hs1]
          | true =>
            right
            cases hb : s.buffers with
            | none => rw [hb] at hper; cases hper
            | some b =>
              rw [hb] at hper
              refine ⟨b, rfl, ?_⟩
              intro hn
              apply htr
              refine ⟨hs1, ?_⟩
              simp only [Option.map_some', Option.some.injEq] at hper
              omega
        obtain ⟨s', hrun⟩ := ih s streaming k hok hper hcb hst hidx hcs
        refine ⟨s', ?_⟩
        simp [ CFlexASIO.run, CFlexASIO.step, hskip, hrun, alternation, htr, if_false,
          Option.bind_none]
    | stop r =>
      have hfix : (s.stop r).2.buffers = s.buffers ∧ (s.stop r).2.buffers_info = s.buffers_info ∧
          (s.stop r).2.input_channel_count = s.input_channel_count ∧
          (s.stop r).2.output_channel_count = s.output_channel_count ∧
          (s.stop r).2.callbacks = s.callbacks ∧ (s.stop r).2.heap = s.heap ∧
          (s.stop r).2.our_buffer_index = s.our_buffer_index ∧
          (s.stop r).2.host_supports_timeinfo = s.host_supports_timeinfo ∧
          (s.stop r).2.started = (s.started && decide (r ≠ paNoError)) := by
        unfold CFlexASIO.stop
        cases hs : s.started <;> by_cases hr : r = paNoError <;> simp [hr, hs]
      obtain ⟨f1, f2, f3, f4, f5, f6, f7, f8, f9⟩ := hfix
      obtain ⟨s', hrun⟩ := ih (s.stop r).2 (streaming && decide (r ≠ paNoError)) k
        (hok.of_same_set f1 f2 f3 f4 (by intro b _; rw [f6]))
        (by rw [f1]; exact hper) (by rw [f5]; exact hcb) (by rw [f9, hst])
        (by
          intro h
          have hs1 : streaming = true := by
            cases streaming
            · simp at h
            · rfl
          obtain ⟨hk, hhost⟩ := hidx hs1
          refine ⟨by rw [f7]; exact hk, ?_⟩
          unfold CFlexASIO.HostReady at hhost ⊢
          rw [f8, f5]
          exact hhost)
        (fun c hc => (hcs c hc).of_same_counts f3 f4 f5)
      refine ⟨s', ?_⟩
      simp [ CFlexASIO.run, CFlexASIO.step, hrun, alternation]
    | start m t r =>
      cases hs1 : streaming with
      | true =>
        have hsame : (s.start m t r).2.1 = s := by
          unfold CFlexASIO.start
          rw [hst, hs1]
          cases s.buffers.isSome <;> simp
        obtain ⟨s', hrun⟩ := ih s true k hok hper hcb (by rw [hst, hs1])
          (fun h => hidx (by rw [hs1])) hcs
        refine ⟨s', ?_⟩
        simp [ CFlexASIO.run, CFlexASIO.step, hsame, hrun, alternation, if_true]
      | false =>
        have hbs : s.buffers.isSome = true := by
          cases hb : s.buffers with
          | none => rw [hb] at hper; cases hper
          | some b => rfl
        have hfix : (s.start m t r).2.1.buffers = s.buffers ∧
            (s.start m t r).2.1.buffers_info = s.buffers_info ∧
            (s.start m t r).2.1.input_channel_count = s.input_channel_count ∧
            (s.start m t r).2.1.output_channel_count = s.output_channel_count ∧
            (s.start m t r).2.1.callbacks = s.callbacks ∧ (s.start m t r).2.1.heap = s.heap ∧
            (s.start m t r).2.1.started = decide (r = paNoError) ∧
            (r = paNoError → (s.start m t r).1 = ASIOError.ASE_OK) := by
          unfold CFlexASIO.start
          rw [hst, hs1, hbs]
          by_cases hr : r = paNoError <;> simp [hr]
        obtain ⟨f1, f2, f3, f4, f5, f6, f7, f8⟩ := hfix
        by_cases hr : r = paNoError
        · have hOK := f8 hr
          obtain ⟨_, _, _, heq⟩ := CFlexASIO.start_ok hOK
          obtain ⟨s', hrun⟩ := ih (s.start m t r).2.1 true 0
            (hok.of_same_set f1 f2 f3 f4 (by intro b _; rw [f6]))
            (by rw [f1]; exact hper) (by rw [f5]; exact hcb) (by rw [f7]; simp [hr])
            (fun _ => ⟨by rw [heq], CFlexASIO.start_HostReady hOK hcb hc⟩)
            (fun c hc => (hcs c hc).of_same_counts f3 f4 f5)
          refine ⟨s', ?_⟩
          rw [hr] at hrun
          simp [ CFlexASIO.run, CFlexASIO.step, hrun, alternation, hr]
        · obtain ⟨s', hrun⟩ := ih (s.start m t r).2.1 false k
            (hok.of_same_set f1 f2 f3 f4 (by intro b _; rw [f6]))
            (by rw [f1]; exact hper) (by rw [f5]; exact hcb) (by rw [f7]; simp [hr])
            (fun h => by cases h)
            (fun c hc => (hcs c hc).of_same_counts f3 f4 f5)
          refine ⟨s', ?_⟩
          simp [ CFlexASIO.run, CFlexASIO.step, hrun, alternation, hr, if_false]


/-- Without an intervening `start`, the half-indices of the specification's alternation
are consecutive residues modulo 2. -/
theorem alternation_consecutive (N : Nat) :
    ∀ (calls : List DriverCall) (streaming : Bool) (k : Nat),
      (∀ c ∈ calls, ∀ m t r, c ≠ DriverCall.start m t r) →
      ∃ m, (alternation N streaming k calls).filterMap id
        = (List.range m).map (fun j => (k + j) % 2) := by
  intro calls
  induction calls with
  | nil => intro _ _ _; exact ⟨0, rfl⟩
  | cons c cs ih =>
    intro streaming k hno
    have hcs : ∀ c ∈ cs, ∀ m t r, c ≠ DriverCall.start m t r :=
      fun c hc => hno c (List.mem_cons_of_mem _ hc)
    cases c with
    | StreamCallback input output n t =>
      by_cases htr : streaming = true ∧ n = N
      · obtain ⟨m, hm⟩ := ih true (k + 1) hcs
        refine ⟨m + 1, ?_⟩
        simp only [alternation, htr, and_self, if_true,
          List.range_succ_eq_map, List.map_cons, List.map_map, Nat.add_zero]
        rw [List.filterMap_cons_some (by rfl), hm]
        congr 1
        apply List.map_congr_left
        intro j _
        simp only [Function.comp, Nat.succ_eq_add_one]
        congr 1
        omega
      · obtain ⟨m, hm⟩ := ih streaming k hcs
        refine ⟨m, ?_⟩
        simp only [alternation, htr, if_false]
        rw [List.filterMap_cons_none (by rfl)]
        exact hm
    | stop r =>
      obtain ⟨m, hm⟩ := ih (streaming && decide (r ≠ paNoError)) k hcs
      refine ⟨m, ?_⟩
      simp only [alternation]
      rw [List.filterMap_cons_none (by rfl)]
      exact hm
    | start m t r => exact absurd rfl (hno _ (List.mem_cons_self _ _) m t r)


/-- The two ways a callback can return: it skipped everything, or it went through the
transfer, the notification, the flip of the half-index and the advance of the clock. -/
theorem CFlexASIO.StreamCallback_cases {s : CFlexASIO} {input output : List (List Sample)}
    {n : Nat} {t : Int} {r : StreamCallbackResult}
    (h : s.StreamCallback input output n t = some r) :
    (r = ⟨paContinue, s, output, none⟩ ∧
      (s.started = false ∨ ∃ b, s.buffers = some b ∧ n ≠ b.buffer_size)) ∨
    (s.started = true ∧ (∃ b, s.buffers = some b ∧ n = b.buffer_size) ∧
      ∃ heap out call,
        r = ⟨paContinue,
             { s with heap := heap, our_buffer_index := (s.our_buffer_index + 1) % 2,
                      position := s.position + n, position_timestamp := t * 1000000 },
             out, some ⟨call, { s with heap := heap }, out⟩⟩ ∧
        call.halfIndex = some s.our_buffer_index) := by
  unfold CFlexASIO.StreamCallback at h
  cases hs : s.started with
  | false =>
    simp [hs] at h
    exact Or.inl ⟨h.symm, Or.inl rfl⟩
  | true =>
    simp only [hs, Bool.not_true, Bool.false_eq_true, if_false] at h
    cases hb : s.buffers with
    | none => simp [hb] at h
    | some b =>
      simp only [hb] at h
      by_cases hn : n = b.buffer_size
      · right
        refine ⟨rfl, ⟨b, rfl, hn⟩, ?_⟩
        simp only [hn, ne_eq, not_true_eq_false, if_false] at h
        split at h
        · cases h
        · split at h
          · cases h
          · rename_i heap out _
            split at h
            · cases h
            · rename_i call hcall
              injection h with h
              refine ⟨heap, out, call, ?_, ?_⟩
              · rw [← h, hn]
              · split at hcall
                · split at hcall
                  · injection hcall with hcall
                    rw [← hcall]
                    rfl
                  · cases hcall
                · split at hcall
                  · injection hcall with hcall
                    rw [← hcall]
                    rfl
                  · cases hcall
      · left
        simp only [ne_eq, hn, not_false_eq_true, if_true] at h
        injection h with h
        exact ⟨h.symm, Or.inr ⟨b, rfl, hn⟩⟩

/-- A sequence of full periods on a Streaming session: every one is transferred and the
sample count grows by the period length each time. -/
theorem CFlexASIO.run_transfers (N : Nat) :
    ∀ (calls : List DriverCall) (s : CFlexASIO), s.StreamingOk N →
      (∀ c ∈ calls, c.frames = some N) → (∀ c ∈ calls, s.CallOk N c) →
      ∃ s' obs, s.run calls = some (s', obs) ∧
        s'.position = s.position + ((calls.length * N : Nat) : Int) ∧ s'.StreamingOk N := by
  intro calls
  induction calls with
  | nil =>
    intro s hS _ _
    exact ⟨s, [], rfl, by simp, hS⟩
  | cons c cs ih =>
    intro s hS hfr hok
    have hc := hok c (List.mem_cons_self _ _)
    have hf := hfr c (List.mem_cons_self _ _)
    cases c with
    | StreamCallback input output n t =>
      have hn : n = N := by simpa [DriverCall.frames] using hf
      subst hn
      obtain ⟨s1, hstep, hS1, _, hpos, hic, hoc, hcb⟩ :=
        CFlexASIO.step_transfer s input output n t hS (hc rfl)
      obtain ⟨s', obs, hrun, hp', hS'⟩ := ih s1 hS1
        (fun c hc => hfr c (List.mem_cons_of_mem _ hc))
        (fun c hc => (hok c (List.mem_cons_of_mem _ hc)).of_same_counts hic hoc hcb)
      refine ⟨s', some s.our_buffer_index :: obs, ?_, ?_, hS'⟩
      · simp only [ CFlexASIO.run, hstep, hrun]
      · rw [hp', hpos, List.length_cons]
        push_cast
        ring
    | stop r => simp [DriverCall.frames] at hf
    | start m t r => simp [DriverCall.frames] at hf


/-! ## Slots of the BufferSet -/

/-- Distinct slots of `n` samples do not overlap. -/
theorem slot_disjoint {j j' n q : Nat} (h : j ≠ j') (hq : q < n) :
    ¬ (j' * n ≤ j * n + q ∧ j * n + q < j' * n + n) := by
  intro ⟨h1, h2⟩
  rcases Nat.lt_or_gt_of_ne h with hlt | hgt
  · have : (j + 1) * n ≤ j' * n := Nat.mul_le_mul_right n hlt
    rw [Nat.succ_mul] at this
    omega
  · have : (j' + 1) * n ≤ j * n := Nat.mul_le_mul_right n hgt
    rw [Nat.succ_mul] at this
    omega

/-- The address recorded for binding `i` in either half is the address of slot `i`. -/
theorem CFlexASIO.BufferSetOk.pointer {s : CFlexASIO} (hok : s.BufferSetOk) {b : Buffers}
    (hb : s.buffers = some b) {i : Nat} {bi : ASIOBufferInfo}
    (hi : s.buffers_info[i]? = some bi) (half : Nat) (hh : half < 2) :
    bi.buffers half = some (b.getBuffer half i) := by
  obtain ⟨b', _, hb', _, _, _, _, hptr, _⟩ := hok.unpack
  rw [hb] at hb'
  injection hb' with hb'
  subst hb'
  obtain ⟨p0, p1⟩ := hptr i bi hi
  have h2 : half = 0 ∨ half = 1 := by omega
  rcases h2 with h2 | h2 <;> rw [h2]
  · simp only [ASIOBufferInfo.buffers, p0]
  · simp only [ASIOBufferInfo.buffers, p1]

/-- Every bound channel index is non-negative and below its direction's channel count. -/
theorem CFlexASIO.BufferSetOk.inRange {s : CFlexASIO} (hok : s.BufferSetOk)
    {bi : ASIOBufferInfo} (hbi : bi ∈ s.buffers_info) :
    0 ≤ bi.channelNum ∧
      bi.channelNum < (if bi.isInput then s.input_channel_count else s.output_channel_count) := by
  obtain ⟨_, _, _, _, _, _, _, _, hrange⟩ := hok.unpack
  have := hrange bi hbi
  unfold CFlexASIO.outOfBounds at this
  split at this <;> simp_all

/-- A slot that `StreamCallback` does not fill from an input array has the same contents
at the notification as before the call.  `j` is the slot's position counted over both
halves. -/
theorem frame_slot {blob blob' : List Sample} {h nc n : Nat} {infos : List ASIOBufferInfo}
    (hlen : blob'.length = blob.length)
    (hframe : ∀ p, (∀ (i : Nat) (bi : ASIOBufferInfo), infos[i]? = some bi →
        bi.isInput = true → ¬ (h * nc * n + i * n ≤ p ∧ p < h * nc * n + i * n + n)) →
      blob'[p]? = blob[p]?)
    {j : Nat} (hj : j * n + n ≤ blob.length)
    (hfree : ∀ (i : Nat) (bi : ASIOBufferInfo), infos[i]? = some bi → bi.isInput = true →
      j ≠ h * nc + i) :
    readSamples blob' (j * n) n = readSamples blob (j * n) n := by
  apply readSamples_congr (by omega) hj
  intro q hq
  apply hframe
  intro i bi hi hio
  have := slot_disjoint (n := n) (q := q) (hfree i bi hi hio) hq
  rw [Nat.add_mul] at this
  exact this


/-! ## The binding loop of `createBuffers` -/

/-- The loop of `createBuffers` runs to its end exactly when no requested binding is out of
range. -/
theorem CFlexASIO.createBuffers.loop_completes (s : CFlexASIO) (tb : Buffers) :
    ∀ (infos : List ASIOBufferInfo) (idx : Nat) (acc : List ASIOBufferInfo),
      ( CFlexASIO.createBuffers.loop s tb idx infos acc).1 = true ↔
        ∀ bi ∈ infos, ¬ s.outOfBounds bi := by
  intro infos
  induction infos with
  | nil => intro idx acc; simp [ CFlexASIO.createBuffers.loop]
  | cons bi rest ih =>
    intro idx acc
    by_cases h : s.outOfBounds bi
    · simp [ CFlexASIO.createBuffers.loop, h]
    · simp only [ CFlexASIO.createBuffers.loop, h, if_false, List.mem_cons, forall_eq_or_imp,
        not_false_eq_true, true_and]
      exact ih _ _

/-- `OpenStream` does not read the bindings, the sample rate member, the heap or the
error text. -/
theorem CFlexASIO.OpenStream_congr {s s' : CFlexASIO} (h1 : s'.pa_api_info = s.pa_api_info)
    (h2 : s'.input_device_info = s.input_device_info)
    (h3 : s'.output_device_info = s.output_device_info)
    (h4 : s'.input_channel_count = s.input_channel_count)
    (h5 : s'.output_channel_count = s.output_channel_count)
    (h6 : s'.input_channel_mask = s.input_channel_mask)
    (h7 : s'.output_channel_mask = s.output_channel_mask) (rate : Rat) (n : Nat) :
    s'.OpenStream rate n = s.OpenStream rate n := by
  unfold CFlexASIO.OpenStream
  rw [h1, h2, h3, h4, h5, h6, h7]

/-- Once an API is resolved `OpenStream` builds its arguments without a null dereference. -/
theorem CFlexASIO.OpenStream_isSome {s : CFlexASIO}
    (hapi : s.negotiated → s.pa_api_info.isSome = true) (rate : Rat) (n : Nat) :
    ∃ args, s.OpenStream rate n = some args := by
  unfold CFlexASIO.OpenStream
  cases ha : s.pa_api_info with
  | some api => exact ⟨_, rfl⟩
  | none =>
    by_cases hn : s.negotiated
    · have := hapi hn
      rw [ha] at this
      cases this
    · unfold CFlexASIO.negotiated at hn
      have h1 : s.input_device_info.isSome = false := by
        cases h : s.input_device_info.isSome
        · rfl
        · exact absurd (Or.inl h) hn
      have h2 : s.output_device_info.isSome = false := by
        cases h : s.output_device_info.isSome
        · rfl
        · exact absurd (Or.inr h) hn
      simp [h1, h2]


/-- What `createBuffers` does once its three guards have let the call through. -/
theorem CFlexASIO.createBuffers_past_guards (s : CFlexASIO) (bufferInfos : List ASIOBufferInfo)
    (bufferSize : Int) (cb : ASIOCallbacks)
    (Pa_OpenStream : PaOpenStreamArgs → PaError × Nat)
    (h1 : 1 ≤ bufferInfos.length) (h2 : 1 ≤ bufferSize) (h3 : cb.bufferSwitch = true)
    (h4 : s.negotiated) (h5 : s.buffers = none) :
    s.createBuffers bufferInfos bufferSize (some cb) Pa_OpenStream =
      (let alloc := Buffers.create s.heap 2 (bufferInfos.length : Int).toNat bufferSize.toNat
       let r := CFlexASIO.createBuffers.loop s alloc.2 0 bufferInfos s.buffers_info
       if r.1 = false then
         some ⟨.ASE_InvalidMode,
           { s with buffers_info := r.2.2, heap := Buffers.destroy alloc.1 alloc.2 }, r.2.1⟩
       else
         match s.OpenStream (if s.sample_rate = 0 then 44100 else s.sample_rate)
             bufferSize.toNat with
         | none => none
         | some args =>
           if (Pa_OpenStream args).1 ≠ paNoError then
             some ⟨.ASE_HWMalfunction,
               { s with
                 buffers_info := r.2.2,
                 sample_rate := if s.sample_rate = 0 then 44100 else s.sample_rate,
                 init_error := "Unable to open PortAudio stream: "
                   ++ Pa_GetErrorText (Pa_OpenStream args).1,
                 heap := Buffers.destroy alloc.1 alloc.2 }, r.2.1⟩
           else
             some ⟨.ASE_OK,
               { s with
                 buffers_info := r.2.2,
                 sample_rate := if s.sample_rate = 0 then 44100 else s.sample_rate,
                 buffers := some alloc.2, stream := some (Pa_OpenStream args).2,
                 callbacks := cb, heap := alloc.1 }, r.2.1⟩) := by
  have g1 : ¬ ((bufferInfos.length : Int) < 1 ∨ bufferSize < 1 ∨
      (Option.map (fun c => c.bufferSwitch) (some cb)) ≠ some true) := by
    simp only [Option.map_some', h3, ne_eq, not_true_eq_false, or_false]
    omega
  have g2 : (!s.input_device_info.isSome && !s.output_device_info.isSome) = false := by
    unfold CFlexASIO.negotiated at h4
    rcases h4 with h4 | h4 <;> simp [h4]
  unfold CFlexASIO.createBuffers
  simp only [g1, g2, h5, if_false, Bool.false_eq_true, Option.isSome_none]
  by_cases hr : s.sample_rate = 0
  · simp only [hr, if_true]
    rfl
  · simp only [hr, if_false]
    rfl

/-- A `createBuffers` call stopped by one of its three guards returns `ASE_InvalidMode` and
changes nothing. -/
theorem CFlexASIO.createBuffers_guarded (s : CFlexASIO) (bufferInfos : List ASIOBufferInfo)
    (bufferSize : Int) (callbacks : Option ASIOCallbacks)
    (Pa_OpenStream : PaOpenStreamArgs → PaError × Nat)
    (h : ¬ (1 ≤ bufferInfos.length ∧ 1 ≤ bufferSize ∧
      (∃ cb, callbacks = some cb ∧ cb.bufferSwitch = true) ∧ s.negotiated ∧ s.buffers = none)) :
    s.createBuffers bufferInfos bufferSize callbacks Pa_OpenStream
      = some ⟨.ASE_InvalidMode, s, bufferInfos⟩ := by
  unfold CFlexASIO.createBuffers
  by_cases g1 : ((bufferInfos.length : Int) < 1 ∨ bufferSize < 1 ∨
      (callbacks.map fun c => c.bufferSwitch) ≠ some true)
  · simp only [g1, if_true]
  · simp only [g1, if_false]
    by_cases g2 : (!s.input_device_info.isSome && !s.output_device_info.isSome) = true
    · simp only [g2, if_true]
    · simp only [g2, if_false]
      cases hb : s.buffers with
      | some b => simp
      | none =>
        exfalso
        apply h
        refine ⟨by omega, by omega, ?_, ?_, hb⟩
        · cases hc : callbacks with
          | none => exact absurd (Or.inr (Or.inr (by simp [hc]))) g1
          | some cb =>
            refine ⟨cb, rfl, ?_⟩
            cases hbs : cb.bufferSwitch with
            | true => rfl
            | false => exact absurd (Or.inr (Or.inr (by simp [hc, hbs]))) g1
        · unfold CFlexASIO.negotiated
          cases h1 : s.input_device_info.isSome <;> cases h2 : s.output_device_info.isSome <;>
            simp_all

/-- The range test of `createBuffers`, spelled out. -/
theorem CFlexASIO.not_outOfBounds_iff (s : CFlexASIO) (bi : ASIOBufferInfo) :
    ¬ s.outOfBounds bi ↔ 0 ≤ bi.channelNum ∧
      bi.channelNum < (if bi.isInput then s.input_channel_count else s.output_channel_count) := by
  unfold CFlexASIO.outOfBounds
  cases bi.isInput <;> simp


/-- When the loop of `createBuffers` runs to its end it has appended to `buffers_info` one
entry per requested binding, in order, the entry of position `i` pointing at slot `i` of
either half. -/
theorem CFlexASIO.createBuffers.loop_bindings (s : CFlexASIO) (tb : Buffers) :
    ∀ (infos : List ASIOBufferInfo) (idx : Nat) (acc : List ASIOBufferInfo),
      ( CFlexASIO.createBuffers.loop s tb idx infos acc).1 = true →
      ( CFlexASIO.createBuffers.loop s tb idx infos acc).2.2 =
        acc ++ List.zipWith
          (fun i bi => { bi with buffers0 := tb.getBuffer 0 i, buffers1 := tb.getBuffer 1 i })
          (List.range' idx infos.length) infos := by
  intro infos
  induction infos with
  | nil => intro idx acc _; simp [ CFlexASIO.createBuffers.loop]
  | cons bi rest ih =>
    intro idx acc h
    by_cases hb : s.outOfBounds bi
    · simp [ CFlexASIO.createBuffers.loop, hb] at h
    · simp only [ CFlexASIO.createBuffers.loop, hb, if_false] at h ⊢
      rw [ih _ _ h]
      simp [List.range'_succ]

/-- A successful `createBuffers` on a session without recorded bindings leaves a well-formed
BufferSet. -/
theorem CFlexASIO.createBuffers_BufferSetOk {s : CFlexASIO} {bufferInfos : List ASIOBufferInfo}
    {bufferSize : Int} {callbacks : Option ASIOCallbacks}
    {Pa_OpenStream : PaOpenStreamArgs → PaError × Nat} {r : CreateBuffersResult}
    (h : s.createBuffers bufferInfos bufferSize callbacks Pa_OpenStream = some r)
    (hok : r.result = ASIOError.ASE_OK) (hempty : s.buffers_info = []) :
    r.state.BufferSetOk ∧
      r.state.buffers.map (fun b => b.buffer_size) = some bufferSize.toNat ∧
      r.state.callbacks.bufferSwitch = true ∧ r.state.started = s.started := by
  by_cases hg : (1 ≤ bufferInfos.length ∧ 1 ≤ bufferSize ∧
      (∃ cb, callbacks = some cb ∧ cb.bufferSwitch = true) ∧ s.negotiated ∧ s.buffers = none)
  · obtain ⟨g1, g2, ⟨cb, g3, g3'⟩, g4, g5⟩ := hg
    subst g3
    rw [ CFlexASIO.createBuffers_past_guards s bufferInfos bufferSize cb Pa_OpenStream g1 g2 g3'
      g4 g5] at h
    simp only at h
    split at h
    · injection h with h
      rw [← h] at hok
      cases hok
    · rename_i hr
      have hr' : ( CFlexASIO.createBuffers.loop s
          (Buffers.create s.heap 2 (bufferInfos.length : Int).toNat bufferSize.toNat).2 0
          bufferInfos s.buffers_info).1 = true := by
        cases hc : ( CFlexASIO.createBuffers.loop s
          (Buffers.create s.heap 2 (bufferInfos.length : Int).toNat bufferSize.toNat).2 0
          bufferInfos s.buffers_info).1
        · exact absurd hc hr
        · rfl
      have hinr := ( CFlexASIO.createBuffers.loop_completes s _ bufferInfos 0 s.buffers_info).mp hr'
      have hbind := CFlexASIO.createBuffers.loop_bindings s _ bufferInfos 0 s.buffers_info hr'
      rw [hempty, List.nil_append] at hbind
      split at h
      · cases h
      · split at h
        · injection h with h
          rw [← h] at hok
          cases hok
        · injection h with h
          subst h
          refine ⟨?_, rfl, g3', rfl⟩
          unfold CFlexASIO.BufferSetOk
          simp only
          have hlen : ( CFlexASIO.createBuffers.loop s
              (Buffers.create s.heap 2 (bufferInfos.length : Int).toNat bufferSize.toNat).2 0
              bufferInfos s.buffers_info).2.2.length = bufferInfos.length := by
            rw [← hempty] at hbind
            rw [hbind]
            simp
          refine ⟨rfl, ?_, ?_, ?_, ?_⟩
          · rw [hlen]; simp [Buffers.create]
          · simp [Buffers.create, Buffers.getSize, Option.join]
          · rw [hlen]
            rw [← hempty] at hbind
            rw [hbind]
            apply List.ext_getElem?
            intro i
            simp only [List.getElem?_map, List.getElem?_zipWith, List.range_eq_range']
            by_cases hi : i < bufferInfos.length
            · simp [List.getElem?_range', hi, List.getElem?_eq_getElem hi]
            · have h1 : (List.range' 0 bufferInfos.length)[i]? = none :=
                List.getElem?_eq_none (by simp; omega)
              simp [List.getElem?_eq_none (Nat.le_of_not_lt hi), h1]
          · intro bi hbi
            rw [← hempty] at hbind
            rw [hbind] at hbi
            obtain ⟨i, hi⟩ := List.mem_iff_getElem?.mp hbi
            rw [List.getElem?_zipWith] at hi
            cases ha : (List.range' 0 bufferInfos.length)[i]? with
            | none => simp [ha] at hi
            | some a =>
              cases hb : bufferInfos[i]? with
              | none => simp [ha, hb] at hi
              | some b0 =>
                simp only [ha, hb, Option.map_some', Option.bind_some, Option.some.injEq] at hi
                have := hinr b0 (List.mem_iff_getElem?.mpr ⟨i, hb⟩)
                rw [← hi]
                unfold CFlexASIO.outOfBounds at this ⊢
                exact this
  · rw [ CFlexASIO.createBuffers_guarded s bufferInfos bufferSize callbacks Pa_OpenStream hg] at h
    injection h with h
    rw [← h] at hok
    cases hok

/-- The same, for the state `afterCreateBuffers` yields. -/
theorem CFlexASIO.afterCreateBuffers_BufferSetOk (s : CFlexASIO)
    (bufferInfos : List ASIOBufferInfo) (bufferSize : Int)
    (hres : (s.createBuffers bufferInfos bufferSize (some plainHost) openAlways).map
      (fun r => r.result) = some ASIOError.ASE_OK)
    (hempty : s.buffers_info = []) :
    (s.afterCreateBuffers bufferInfos bufferSize).BufferSetOk := by
  unfold CFlexASIO.afterCreateBuffers
  cases h : s.createBuffers bufferInfos bufferSize (some plainHost) openAlways with
  | none => rw [h] at hres; cases hres
  | some r =>
    rw [h] at hres
    simp only [Option.map_some', Option.some.injEq] at hres
    exact ( CFlexASIO.createBuffers_BufferSetOk h hres hempty).1


/-- Among the elements of a list that satisfy `P` there is a last one, unless there is
none. -/
theorem exists_last_index {α : Type} (P : α → Prop) (l : List α) :
    (∀ a ∈ l, ¬ P a) ∨
      ∃ (i : Nat) (a : α), l[i]? = some a ∧ P a ∧
        ∀ (i' : Nat) (a' : α), i < i' → l[i']? = some a' → ¬ P a' := by
  induction l with
  | nil => left; intro a ha; cases ha
  | cons x xs ih =>
    rcases ih with hnone | ⟨i, a, hi, hP, hlast⟩
    · by_cases hx : P x
      · right
        refine ⟨0, x, by simp, hx, ?_⟩
        intro i' a' hlt hi'
        cases i' with
        | zero => omega
        | succ j =>
          exact hnone a' (List.mem_iff_getElem?.mpr ⟨j, by simpa using hi'⟩)
      · left
        intro a ha
        rcases List.mem_cons.mp ha with h | h
        · rw [h]; exact hx
        · exact hnone a h
    · right
      refine ⟨i + 1, a, by simpa using hi, hP, ?_⟩
      intro i' a' hlt hi'
      cases i' with
      | zero => omega
      | succ j => exact hlast j a' (by omega) (by simpa using hi')

/-- What a transfer hands over depends on the sample memory only through the slots of the
engine-owned half: two well-formed Streaming sessions that differ only in their sample
memory, and whose engine-owned slots read the same, produce the same notification, the
same output arrays and the same engine-owned slots. -/
theorem CFlexASIO.StreamCallback_reads_own_half (s s2 : CFlexASIO)
    (input output : List (List Sample)) (n : Nat) (t : Int)
    (hs : s.StreamingOk n) (hs2 : s2.StreamingOk n) (ha : s.ArraysOk input output n)
    (hsame : { s2 with heap := s.heap } = s)
    (hagree : ∀ bi ∈ s.buffers_info, ∀ p, bi.buffers s.our_buffer_index = some p →
      s2.heap.read p n = s.heap.read p n) :
    ∃ r r2 h h2, s.StreamCallback input output n t = some r ∧
      s2.StreamCallback input output n t = some r2 ∧
      r.handoff = some h ∧ r2.handoff = some h2 ∧
      h2.call = h.call ∧ h2.output = h.output ∧ r2.output = r.output ∧
      ∀ bi ∈ s.buffers_info, ∀ p, bi.buffers s.our_buffer_index = some p →
        h2.state.heap.read p n = h.state.heap.read p n := by
  have e1 : s2.buffers = s.buffers := by
    have := congrArg CFlexASIO.buffers hsame
    exact this
  have e2 : s2.buffers_info = s.buffers_info := by
    have := congrArg CFlexASIO.buffers_info hsame
    exact this
  have e3 : s2.input_channel_count = s.input_channel_count := by
    have := congrArg CFlexASIO.input_channel_count hsame
    exact this
  have e4 : s2.output_channel_count = s.output_channel_count := by
    have := congrArg CFlexASIO.output_channel_count hsame
    exact this
  have e5 : s2.our_buffer_index = s.our_buffer_index := by
    have := congrArg CFlexASIO.our_buffer_index hsame
    exact this
  have e6 : s2.notification = s.notification := by
    have := congrArg CFlexASIO.notification hsame
    exact this
  have ha2 : s2.ArraysOk input output n := by
    unfold CFlexASIO.ArraysOk at ha ⊢
    rw [e3, e4]
    exact ha
  obtain ⟨b, blob, blob', out0, out', hz, hzl, hzall, hb, hbs, hcc, hblk, hlen, hl', hol, hrun,
    hframe, hinp, ho2, ho3⟩ := CFlexASIO.StreamCallback_full s input output n t hs ha
  obtain ⟨b2, blob2, blob2', out02, out2', hz2, hzl2, hzall2, hb2, hbs2, hcc2, hblk2, hlen2,
    hl2', hol2, hrun2, hframe2, hinp2, ho22, ho32⟩ :=
    CFlexASIO.StreamCallback_full s2 input output n t hs2 ha2
  rw [e1, hb] at hb2
  injection hb2 with hb2
  subst hb2
  rw [e4, hz] at hz2
  injection hz2 with hz2
  subst hz2
  rw [e2] at hlen2 hframe2 hinp2 ho22 ho32
  rw [e5] at hframe2 hinp2 ho32
  obtain ⟨hstarted, hok, hidx, hhost, hperiod⟩ := hs
  -- the engine-owned slots agree before the call
  have hslots : ∀ (i : Nat) (bi : ASIOBufferInfo), s.buffers_info[i]? = some bi →
      readSamples blob2 (s.our_buffer_index * s.buffers_info.length * n + i * n) n
        = readSamples blob (s.our_buffer_index * s.buffers_info.length * n + i * n) n := by
    intro i bi hi
    have hp := hok.pointer hb hi _ hidx
    have := hagree bi (List.mem_iff_getElem?.mpr ⟨i, hi⟩) _ hp
    rw [ CFlexASIO.getBuffer_offset, Heap.read_block hblk, Heap.read_block hblk2, hcc, hbs] at this
    exact this
  have hbound : ∀ (i : Nat) (bi : ASIOBufferInfo), s.buffers_info[i]? = some bi →
      (s.our_buffer_index * s.buffers_info.length + i) * n + n ≤ blob.length := by
    intro i bi hi
    have hilt : i < s.buffers_info.length := by
      rcases List.getElem?_eq_some.mp hi with ⟨hlt, _⟩
      exact hlt
    have : i * n + n ≤ s.buffers_info.length * n := by
      have := Nat.mul_le_mul_right n (Nat.succ_le_of_lt hilt)
      rw [Nat.succ_mul] at this
      exact this
    have h2 : s.our_buffer_index = 0 ∨ s.our_buffer_index = 1 := by omega
    rw [hlen]
    rcases h2 with h2 | h2 <;> rw [h2] <;>
      simp only [Nat.two_mul, Nat.add_mul, Nat.zero_mul, Nat.one_mul] <;> omega
  -- the output arrays agree
  have hout : out2' = out' := by
    apply List.ext_getElem?
    intro c
    rcases exists_last_index
      (fun bi : ASIOBufferInfo => bi.isInput = false ∧ bi.channelNum.toNat = c)
      s.buffers_info with hnone | ⟨i, bi, hi, ⟨hio, hch⟩, hlast⟩
    · have hn : ∀ bi ∈ s.buffers_info, bi.isInput = false → bi.channelNum.toNat ≠ c :=
        fun bi hbi hio hch => hnone bi hbi ⟨hio, hch⟩
      rw [ho2 c hn, ho22 c hn]
    · have hl : ∀ (i' : Nat) (bi' : ASIOBufferInfo), i < i' → s.buffers_info[i']? = some bi' →
          bi'.isInput = false → bi'.channelNum.toNat ≠ c :=
        fun i' bi' hlt hi' hio' hch' => hlast i' bi' hlt hi' ⟨hio', hch'⟩
      obtain ⟨dst, data, hd, hr, ho⟩ := ho3 c i bi hi hio hch hl
      obtain ⟨dst2, data2, hd2, hr2, ho'⟩ := ho32 c i bi hi hio hch hl
      rw [hd] at hd2
      injection hd2 with hd2
      rw [hslots i bi hi, hr] at hr2
      injection hr2 with hr2
      rw [ho, ho', ← hd2, ← hr2]
  refine ⟨_, _, _, _, hrun, hrun2, rfl, rfl, e6, hout, hout, ?_⟩
  intro bi hbi p hp
  obtain ⟨i, hi⟩ := List.mem_iff_getElem?.mp hbi
  have hp' := hok.pointer hb hi _ hidx
  rw [hp] at hp'
  injection hp' with hp'
  subst hp'
  show Heap.read (s2.heap.set b.buffers (some blob2')) _ n
    = Heap.read (s.heap.set b.buffers (some blob')) _ n
  rw [ CFlexASIO.getBuffer_offset, Heap.read_block (Heap.getElem?_set_block hblk),
    Heap.read_block (Heap.getElem?_set_block hblk2), hcc, hbs]
  cases hio : bi.isInput with
  | true =>
    obtain ⟨src, hsrc, hr⟩ := hinp i bi hi hio
    obtain ⟨src2, hsrc2, hr2⟩ := hinp2 i bi hi hio
    rw [hsrc] at hsrc2
    injection hsrc2 with hsrc2
    rw [hr, hr2, hsrc2]
  | false =>
    have e : s.our_buffer_index * s.buffers_info.length * n + i * n
        = (s.our_buffer_index * s.buffers_info.length + i) * n := by rw [Nat.add_mul]
    have hfree : ∀ (i' : Nat) (bi' : ASIOBufferInfo), s.buffers_info[i']? = some bi' →
        bi'.isInput = true →
        s.our_buffer_index * s.buffers_info.length + i
          ≠ s.our_buffer_index * s.buffers_info.length + i' := by
      intro i' bi' hi' hio' heq
      have : i = i' := by omega
      subst this
      rw [hi] at hi'
      injection hi' with hi'
      subst hi'
      rw [hio] at hio'
      cases hio'
    have f1 := frame_slot hl' hframe (hbound i bi hi) hfree
    have f2 := frame_slot hl2' hframe2 (by rw [hlen2, ← hlen]; exact hbound i bi hi) hfree
    rw [e, f1, f2, ← e]
    exact hslots i bi hi


theorem two_pow_and_eq_zero_iff (m q : Nat) : 2 ^ q &&& m = 0 ↔ m.testBit q = false := by
  constructor
  · intro h
    have := congrArg (fun x => Nat.testBit x q) h
    simpa [Nat.testBit_and, Nat.testBit_two_pow_self] using this
  · intro h
    apply Nat.eq_of_testBit_eq
    intro i
    simp [Nat.testBit_and, Nat.testBit_two_pow]
    intro hq; subst hq; exact h

theorem setBitsFrom_step (m p : Nat) (hp : p < 32) :
    setBitsFrom m p
      = if m.testBit p then p :: setBitsFrom m (p + 1) else setBitsFrom m (p + 1) := by
  unfold setBitsFrom
  have h : 32 - p = (32 - (p + 1)) + 1 := by omega
  rw [h, List.range'_succ, List.filter_cons]

theorem setBitsFrom_top (m : Nat) : setBitsFrom m 32 = [] := by
  simp [setBitsFrom]

theorem shift_two_pow (p : Nat) (hp : p < 31) : (2 ^ p <<< 1) % 2 ^ 32 = 2 ^ (p + 1) := by
  rw [Nat.shiftLeft_eq, ← Nat.pow_succ]
  apply Nat.mod_eq_of_lt
  exact Nat.pow_lt_pow_right (by decide) (by omega)

theorem two_pow_lt_SPEAKER_ALL (p : Nat) : 2 ^ p < SPEAKER_ALL ↔ p < 31 := by
  have : SPEAKER_ALL = 2 ^ 31 := by decide
  rw [this]
  exact Nat.pow_lt_pow_iff_right (by decide)

theorem two_pow_eq_SPEAKER_ALL (p : Nat) : 2 ^ p = SPEAKER_ALL ↔ p = 31 := by
  have : SPEAKER_ALL = 2 ^ 31 := by decide
  rw [this]
  constructor
  · intro h; exact Nat.pow_right_injective (le_refl 2) h
  · intro h; rw [h]

/-- The inner loop stops at the first set bit at or above the cursor, or at bit 31. -/
theorem getChannelName.skip_spec (m : Nat) :
    ∀ (fuel p : Nat), p ≤ 31 → 31 - p < fuel →
      ∃ p1, p ≤ p1 ∧ p1 ≤ 31 ∧ getChannelName.skip m fuel (2 ^ p) = some (2 ^ p1) ∧
        (p1 < 31 → setBitsFrom m p = p1 :: setBitsFrom m (p1 + 1)) ∧
        (p1 = 31 → setBitsFrom m p = setBitsFrom m 31) := by
  intro fuel
  induction fuel with
  | zero => intro p _ h; omega
  | succ fuel ih =>
    intro p hp hf
    unfold getChannelName.skip
    by_cases hc : 2 ^ p &&& m = 0 ∧ 2 ^ p < SPEAKER_ALL
    · rw [if_pos hc]
      have hp31 : p < 31 := (two_pow_lt_SPEAKER_ALL p).1 hc.2
      have hbit : m.testBit p = false := (two_pow_and_eq_zero_iff m p).1 hc.1
      rw [shift_two_pow p hp31]
      obtain ⟨p1, h1, h2, h3, h4, h5⟩ := ih (p + 1) (by omega) (by omega)
      have hstep : setBitsFrom m p = setBitsFrom m (p + 1) := by
        rw [setBitsFrom_step m p (by omega), hbit]; simp
      exact ⟨p1, by omega, h2, h3, fun h => by rw [hstep]; exact h4 h,
        fun h => by rw [hstep]; exact h5 h⟩
    · rw [if_neg hc]
      refine ⟨p, le_refl p, hp, rfl, ?_, ?_⟩
      · intro hp31
        have hbit : m.testBit p = true := by
          by_contra hb
          apply hc
          refine ⟨(two_pow_and_eq_zero_iff m p).2 ?_, (two_pow_lt_SPEAKER_ALL p).2 hp31⟩
          simpa using hb
        rw [setBitsFrom_step m p (by omega), hbit]; simp
      · intro h; rw [h]


theorem setBitsFrom_lt (m p q : Nat) (h : q ∈ setBitsFrom m p) :
    p ≤ q ∧ q < 32 ∧ m.testBit q = true := by
  unfold setBitsFrom at h
  rw [List.mem_filter, List.mem_range'_1] at h
  exact ⟨h.1.1, by omega, by simpa using h.2⟩

theorem setBitsFrom_last (m : Nat) (i : Nat) : ((setBitsFrom m 31)[i]?).getD 31 = 31 := by
  rw [setBitsFrom_step m 31 (by decide), setBitsFrom_top]
  cases m.testBit 31 <;> cases i <;> simp

/-- The outer loop of `getChannelName` leaves with the cursor on the wanted set bit of the
mask, or on bit 31 if the mask has too few set bits. -/
theorem getChannelName.search_spec (channel m : Nat) :
    ∀ (fuel current p : Nat), p ≤ 31 → 31 - p < fuel → current ≤ channel →
      getChannelName.search channel m fuel current (2 ^ p)
        = some (2 ^ ((setBitsFrom m p)[channel - current]?).getD 31) := by
  intro fuel
  induction fuel with
  | zero => intro _ p _ h; omega
  | succ fuel ih =>
    intro current p hp hf hc
    unfold getChannelName.search
    obtain ⟨p1, h1, h2, h3, h4, h5⟩ := getChannelName.skip_spec m 33 p hp (by omega)
    rw [h3]
    by_cases hall : p1 = 31
    · have : (2 : Nat) ^ p1 = SPEAKER_ALL := (two_pow_eq_SPEAKER_ALL p1).2 hall
      simp only [this, if_true]
      rw [h5 hall, setBitsFrom_last]
      rfl
    · have hne : (2 : Nat) ^ p1 ≠ SPEAKER_ALL := fun h => hall ((two_pow_eq_SPEAKER_ALL p1).1 h)
      have hlt : p1 < 31 := by omega
      simp only [hne, if_false]
      rw [h4 hlt]
      by_cases heq : current = channel
      · simp [heq]
      · rw [if_neg heq, shift_two_pow p1 hlt, ih (current + 1) (p1 + 1) (by omega) (by omega)
          (by omega)]
        have : channel - current = (channel - (current + 1)) + 1 := by omega
        rw [this, List.getElem?_cons_succ]

theorem getChannelName.pretty_name_two_pow (q : Nat) (hq : q < 31) :
    getChannelName.pretty_name (2 ^ q) = speakerPositionNames[q]? := by
  interval_cases q <;> rfl

/-- `getChannelName` always returns, and its label is the decimal channel index, followed
by a space and the name of the speaker position when the wanted set bit of the mask is a
known one. -/
theorem getChannelName_eq (channel m : Nat) :
    getChannelName channel m
      = some (match (nthSetBit m channel).bind fun q => speakerPositionNames[q]? with
          | some name => toString channel ++ " " ++ name
          | none => toString channel) := by
  unfold getChannelName nthSetBit
  have hs := getChannelName.search_spec channel m 33 0 0 (by decide) (by decide)
    (Nat.zero_le _)
  rw [pow_zero, Nat.sub_zero] at hs
  rw [hs]
  cases h : (setBitsFrom m 0)[channel]? with
  | none =>
    have : (2 : Nat) ^ 31 = SPEAKER_ALL := by decide
    simp [this]
  | some q =>
    have hq := setBitsFrom_lt m 0 q (List.getElem?_mem h)
    simp only [Option.getD_some, Option.some_bind]
    by_cases h31 : q = 31
    · subst h31
      have : (2 : Nat) ^ 31 = SPEAKER_ALL := by decide
      simp [this]
      rfl
    · have hne : (2 : Nat) ^ q ≠ SPEAKER_ALL := fun h => h31 ((two_pow_eq_SPEAKER_ALL q).1 h)
      rw [if_neg hne, getChannelName.pretty_name_two_pow q (by omega)]
      cases speakerPositionNames[q]? <;> rfl

theorem getChannelName_isSome (channel m : Nat) : (getChannelName channel m).isSome = true := by
  rw [getChannelName_eq]; rfl


/-- `getChannelInfo` always returns: it refuses an index outside the channel count of the
direction and leaves the record alone, and fills the record otherwise. -/
theorem CFlexASIO.getChannelInfo_eq (s : CFlexASIO) (isInput : Bool) (channel : Int) :
    s.getChannelInfo isInput channel
      = if channel < 0 ∨ channel ≥ s.channel_count isInput then
          some (ASIOError.ASE_NotPresent, none)
        else
          (getChannelName channel.toNat
              (if isInput then s.input_channel_mask else s.output_channel_mask)).map
            fun channel_name =>
              (ASIOError.ASE_OK, some
                { isActive := s.buffers_info.any fun b =>
                    b.isInput == isInput && b.channelNum == channel,
                  channelGroup := 0, type := ASIOSampleType.asio_sample_type,
                  name := (if isInput then "IN" else "OUT") ++ " " ++ channel_name }) := by
  unfold CFlexASIO.getChannelInfo CFlexASIO.channel_count
  cases isInput <;> simp only [Bool.false_eq_true, if_false, if_true] <;>
    split <;> first | rfl | (cases getChannelName _ _ <;> rfl)


/-- What `createBuffers` leaves alone, and the two ways it can treat the BufferSet and the
stream: leave both as they were, or create both in a negotiated session without a
BufferSet. -/
theorem CFlexASIO.createBuffers_frame {s : CFlexASIO} {bufferInfos : List ASIOBufferInfo}
    {bufferSize : Int} {callbacks : Option ASIOCallbacks}
    {Pa_OpenStream : PaOpenStreamArgs → PaError × Nat} {r : CreateBuffersResult}
    (h : s.createBuffers bufferInfos bufferSize callbacks Pa_OpenStream = some r) :
    (r.state.started = s.started ∧
      r.state.input_device_info = s.input_device_info ∧
      r.state.output_device_info = s.output_device_info ∧
      r.state.input_channel_count = s.input_channel_count ∧
      r.state.output_channel_count = s.output_channel_count ∧
      r.state.portaudio_initialized = s.portaudio_initialized) ∧
    ((r.state.buffers = s.buffers ∧ r.state.stream = s.stream) ∨
      (r.result = ASIOError.ASE_OK ∧ s.negotiated ∧ s.buffers = none ∧
        r.state.buffers.isSome = true ∧ r.state.stream.isSome = true)) := by
  by_cases g : (1 ≤ bufferInfos.length ∧ 1 ≤ bufferSize ∧
      (∃ cb, callbacks = some cb ∧ cb.bufferSwitch = true) ∧ s.negotiated ∧ s.buffers = none)
  · obtain ⟨h1, h2, ⟨cb, hcb, h3⟩, h4, h5⟩ := g
    subst hcb
    rw [ CFlexASIO.createBuffers_past_guards s bufferInfos bufferSize cb Pa_OpenStream h1 h2 h3
      h4 h5] at h
    simp only at h
    split at h
    · injection h with h; subst h
      exact ⟨⟨rfl, rfl, rfl, rfl, rfl, rfl⟩, Or.inl ⟨rfl, rfl⟩⟩
    · split at h
      · exact absurd h (by simp)
      · split at h
        · injection h with h; subst h
          exact ⟨⟨rfl, rfl, rfl, rfl, rfl, rfl⟩, Or.inl ⟨rfl, rfl⟩⟩
        · injection h with h; subst h
          exact ⟨⟨rfl, rfl, rfl, rfl, rfl, rfl⟩, Or.inr ⟨rfl, h4, h5, rfl, rfl⟩⟩
  · rw [ CFlexASIO.createBuffers_guarded s bufferInfos bufferSize callbacks Pa_OpenStream g] at h
    injection h with h; subst h
    exact ⟨⟨rfl, rfl, rfl, rfl, rfl, rfl⟩, Or.inl ⟨rfl, rfl⟩⟩

/-- What the callback leaves alone. -/
theorem CFlexASIO.StreamCallback_frame {s : CFlexASIO} {input output : List (List Sample)}
    {n : Nat} {t : Int} {r : StreamCallbackResult}
    (h : s.StreamCallback input output n t = some r) :
    r.state.started = s.started ∧ r.state.buffers = s.buffers ∧ r.state.stream = s.stream ∧
      r.state.input_device_info = s.input_device_info ∧
      r.state.output_device_info = s.output_device_info ∧
      r.state.input_channel_count = s.input_channel_count ∧
      r.state.output_channel_count = s.output_channel_count ∧
      r.state.portaudio_initialized = s.portaudio_initialized := by
  rcases CFlexASIO.StreamCallback_cases h with ⟨hr, _⟩ | ⟨_, _, heap, out, call, hr, _⟩ <;>
    subst hr <;> exact ⟨rfl, rfl, rfl, rfl, rfl, rfl, rfl, rfl⟩

theorem CFlexASIO.init.inputDevice_frame {s s1 : CFlexASIO} {pa : PortAudio}
    {api : PaHostApiInfo} (h : CFlexASIO.init.inputDevice s pa api = some s1) :
    s1.started = s.started ∧ s1.buffers = s.buffers ∧ s1.stream = s.stream ∧
      s1.portaudio_initialized = s.portaudio_initialized ∧
      s1.output_device_info = s.output_device_info ∧
      s1.output_channel_count = s.output_channel_count ∧
      (s1.input_device_info = none →
        s.input_device_info = none ∧ s1.input_channel_count = s.input_channel_count) := by
  unfold CFlexASIO.init.inputDevice at h
  split at h
  · split at h
    · exact absurd h (by simp)
    · injection h with h; subst h
      exact ⟨rfl, rfl, rfl, rfl, rfl, rfl, fun h => absurd h (by simp)⟩
  · injection h with h; subst h
    exact ⟨rfl, rfl, rfl, rfl, rfl, rfl, fun h => ⟨h, rfl⟩⟩

theorem CFlexASIO.init.outputDevice_frame {s s1 : CFlexASIO} {pa : PortAudio}
    {api : PaHostApiInfo} (h : CFlexASIO.init.outputDevice s pa api = some s1) :
    s1.started = s.started ∧ s1.buffers = s.buffers ∧ s1.stream = s.stream ∧
      s1.portaudio_initialized = s.portaudio_initialized ∧
      s1.input_device_info = s.input_device_info ∧
      s1.input_channel_count = s.input_channel_count ∧
      (s1.output_device_info = none →
        s.output_device_info = none ∧ s1.output_channel_count = s.output_channel_count) := by
  unfold CFlexASIO.init.outputDevice at h
  split at h
  · split at h
    · exact absurd h (by simp)
    · injection h with h; subst h
      exact ⟨rfl, rfl, rfl, rfl, rfl, rfl, fun h => absurd h (by simp)⟩
  · injection h with h; subst h
    exact ⟨rfl, rfl, rfl, rfl, rfl, rfl, fun h => ⟨h, rfl⟩⟩

theorem CFlexASIO.init.wasapi_frame (s : CFlexASIO) (pa : PortAudio) (api : PaHostApiInfo) :
    ( CFlexASIO.init.wasapi s pa api).started = s.started ∧
      ( CFlexASIO.init.wasapi s pa api).buffers = s.buffers ∧
      ( CFlexASIO.init.wasapi s pa api).stream = s.stream ∧
      ( CFlexASIO.init.wasapi s pa api).portaudio_initialized = s.portaudio_initialized ∧
      ( CFlexASIO.init.wasapi s pa api).input_device_info = s.input_device_info ∧
      ( CFlexASIO.init.wasapi s pa api).output_device_info = s.output_device_info ∧
      ( CFlexASIO.init.wasapi s pa api).sample_rate = s.sample_rate := by
  unfold CFlexASIO.init.wasapi
  simp only
  split <;> split <;> exact ⟨rfl, rfl, rfl, rfl, rfl, rfl, rfl⟩


theorem CFlexASIO.init_negotiated (s : CFlexASIO) (pa : PortAudio) (h : s.negotiated) :
    s.init pa = (ASIOError.ASE_NotPresent.toLong, s) := by
  unfold CFlexASIO.init
  unfold CFlexASIO.negotiated at h
  have : (s.input_device_info.isSome || s.output_device_info.isSome) = true := by
    rcases h with h | h <;> simp [h]
  rw [if_pos this]

/-- The ways `init` can go in a session without a resolved device. -/
theorem CFlexASIO.init_cases (s : CFlexASIO) (pa : PortAudio) (hn : ¬ s.negotiated) :
    (pa.Pa_Initialize ≠ paNoError ∧ ∃ e, s.init pa = (ASIOFalse, { s with init_error := e })) ∨
    (pa.Pa_Initialize = paNoError ∧
      ((∃ e, s.init pa
          = (ASIOFalse, { s with portaudio_initialized := true, init_error := e })) ∨
       (∃ e, s.init pa
          = (ASIOFalse,
              { s with portaudio_initialized := true, pa_api_info := none, init_error := e })) ∨
       (∃ api s0, s0 = { s with portaudio_initialized := true, pa_api_info := some api,
                                sample_rate := 0 } ∧
          (( CFlexASIO.init.inputDevice s0 pa api = none ∧
              ∃ e, s.init pa
                = (ASIOFalse, { s0 with input_device_info := none, init_error := e })) ∨
           (∃ s1, CFlexASIO.init.inputDevice s0 pa api = some s1 ∧
              (( CFlexASIO.init.outputDevice s1 pa api = none ∧
                  ∃ e, s.init pa
                    = (ASIOFalse, { s1 with output_device_info := none, init_error := e })) ∨
               (∃ s2 s3, CFlexASIO.init.outputDevice s1 pa api = some s2 ∧
                  s3 = (if api.type = paWASAPI then CFlexASIO.init.wasapi s2 pa api else s2) ∧
                  s.init pa
                    = (ASIOTrue,
                        if s3.sample_rate = 0 then { s3 with sample_rate := 44100 }
                        else s3)))))))) := by
  have hg : (s.input_device_info.isSome || s.output_device_info.isSome) = false := by
    unfold CFlexASIO.negotiated at hn
    cases h1 : s.input_device_info.isSome <;> cases h2 : s.output_device_info.isSome <;>
      simp_all
  unfold CFlexASIO.init
  rw [hg]
  simp only [Bool.false_eq_true, if_false]
  by_cases hi : pa.Pa_Initialize = paNoError
  · right
    refine ⟨hi, ?_⟩
    simp only [hi, ne_eq, not_true_eq_false, if_false]
    generalize (if (if pa.Pa_HostApiTypeIdToHostApiIndex paWASAPI = paHostApiNotFound then
          pa.Pa_HostApiTypeIdToHostApiIndex paDirectSound
        else pa.Pa_HostApiTypeIdToHostApiIndex paWASAPI) = paHostApiNotFound then
        pa.Pa_GetDefaultHostApi
      else (if pa.Pa_HostApiTypeIdToHostApiIndex paWASAPI = paHostApiNotFound then
          pa.Pa_HostApiTypeIdToHostApiIndex paDirectSound
        else pa.Pa_HostApiTypeIdToHostApiIndex paWASAPI)) = idx
    by_cases hlt : idx < 0
    · simp only [hlt, if_true]
      exact Or.inl ⟨_, rfl⟩
    · simp only [hlt, if_false]
      right
      cases hapi : pa.Pa_GetHostApiInfo idx with
      | none => exact Or.inl ⟨_, rfl⟩
      | some api =>
        right
        refine ⟨api, _, rfl, ?_⟩
        simp only
        cases h1 : CFlexASIO.init.inputDevice
            { s with portaudio_initialized := true, pa_api_info := some api, sample_rate := 0 }
            pa api with
        | none => exact Or.inl ⟨rfl, _, rfl⟩
        | some s1 =>
          right
          refine ⟨s1, rfl, ?_⟩
          simp only
          cases h2 : CFlexASIO.init.outputDevice s1 pa api with
          | none => exact Or.inl ⟨rfl, _, rfl⟩
          | some s2 => exact Or.inr ⟨s2, _, rfl, rfl, rfl⟩
  · left
    refine ⟨hi, ?_⟩
    rw [if_pos hi]
    exact ⟨_, rfl⟩


theorem CFlexASIO.init.inputDevice_cases {s s1 : CFlexASIO} {pa : PortAudio}
    {api : PaHostApiInfo} (h : CFlexASIO.init.inputDevice s pa api = some s1) :
    (api.defaultInputDevice = paNoDevice ∧ s1 = s) ∨
    (api.defaultInputDevice ≠ paNoDevice ∧ ∃ d,
      pa.Pa_GetDeviceInfo api.defaultInputDevice = some d ∧
      s1 = { s with input_device_info := some d, input_channel_count := d.maxInputChannels,
                    sample_rate := max d.defaultSampleRate s.sample_rate }) := by
  unfold CFlexASIO.init.inputDevice at h
  by_cases hd : api.defaultInputDevice = paNoDevice
  · simp only [hd, ne_eq, not_true_eq_false, if_false] at h
    injection h with h
    exact Or.inl ⟨hd, h.symm⟩
  · simp only [ne_eq, hd, not_false_eq_true, if_true] at h
    cases hg : pa.Pa_GetDeviceInfo api.defaultInputDevice with
    | none => rw [hg] at h; exact absurd h (by simp)
    | some d =>
      rw [hg] at h
      injection h with h
      exact Or.inr ⟨hd, d, rfl, h.symm⟩

theorem CFlexASIO.init.outputDevice_cases {s s1 : CFlexASIO} {pa : PortAudio}
    {api : PaHostApiInfo} (h : CFlexASIO.init.outputDevice s pa api = some s1) :
    (api.defaultOutputDevice = paNoDevice ∧ s1 = s) ∨
    (api.defaultOutputDevice ≠ paNoDevice ∧ ∃ d,
      pa.Pa_GetDeviceInfo api.defaultOutputDevice = some d ∧
      s1 = { s with output_device_info := some d, output_channel_count := d.maxOutputChannels,
                    sample_rate := max d.defaultSampleRate s.sample_rate }) := by
  unfold CFlexASIO.init.outputDevice at h
  by_cases hd : api.defaultOutputDevice = paNoDevice
  · simp only [hd, ne_eq, not_true_eq_false, if_false] at h
    injection h with h
    exact Or.inl ⟨hd, h.symm⟩
  · simp only [ne_eq, hd, not_false_eq_true, if_true] at h
    cases hg : pa.Pa_GetDeviceInfo api.defaultOutputDevice with
    | none => rw [hg] at h; exact absurd h (by simp)
    | some d =>
      rw [hg] at h
      injection h with h
      exact Or.inr ⟨hd, d, rfl, h.symm⟩

/-- `init` never touches the streaming flag, the BufferSet or the stream handle. -/
theorem CFlexASIO.init_frame (s : CFlexASIO) (pa : PortAudio) :
    (s.init pa).2.started = s.started ∧ (s.init pa).2.buffers = s.buffers ∧
      (s.init pa).2.stream = s.stream := by
  by_cases hn : s.negotiated
  · rw [ CFlexASIO.init_negotiated s pa hn]
    exact ⟨rfl, rfl, rfl⟩
  · rcases CFlexASIO.init_cases s pa hn with ⟨_, e, h⟩ | ⟨_, ⟨e, h⟩ | ⟨e, h⟩ |
      ⟨api, s0, hs0, ⟨_, e, h⟩ | ⟨s1, h1, ⟨_, e, h⟩ | ⟨s2, s3, h2, hs3, h⟩⟩⟩⟩
    · rw [h]; exact ⟨rfl, rfl, rfl⟩
    · rw [h]; exact ⟨rfl, rfl, rfl⟩
    · rw [h]; exact ⟨rfl, rfl, rfl⟩
    · rw [h, hs0]; exact ⟨rfl, rfl, rfl⟩
    · have f1 := CFlexASIO.init.inputDevice_frame h1
      rw [h]
      subst hs0
      exact ⟨f1.1, f1.2.1, f1.2.2.1⟩
    · have f1 := CFlexASIO.init.inputDevice_frame h1
      have f2 := CFlexASIO.init.outputDevice_frame h2
      have f3 := CFlexASIO.init.wasapi_frame s2 pa api
      have f4 : s3.started = s.started ∧ s3.buffers = s.buffers ∧ s3.stream = s.stream := by
        subst hs0
        rw [hs3]
        split
        · exact ⟨f3.1.trans (f2.1.trans f1.1), f3.2.1.trans (f2.2.1.trans f1.2.1),
            f3.2.2.1.trans (f2.2.2.1.trans f1.2.2.1)⟩
        · exact ⟨f2.1.trans f1.1, f2.2.1.trans f1.2.1, f2.2.2.1.trans f1.2.2.1⟩
      rw [h]
      split <;> exact f4

/-- A session with a resolved device keeps it through `init`. -/
theorem CFlexASIO.init_keeps_negotiated (s : CFlexASIO) (pa : PortAudio) (h : s.negotiated) :
    (s.init pa).2.negotiated := by
  rw [ CFlexASIO.init_negotiated s pa h]; exact h

/-- An `init` that ends without a resolved device leaves the channel counts alone, if the
backend reports no default format for the absent device. -/
theorem CFlexASIO.init_unresolved (s : CFlexASIO) (pa : PortAudio)
    (hpa : pa.noFormatWithoutDevice) (h : ¬ (s.init pa).2.negotiated) :
    (s.init pa).2.input_channel_count = s.input_channel_count ∧
      (s.init pa).2.output_channel_count = s.output_channel_count := by
  have hn : ¬ s.negotiated := fun hn => h ( CFlexASIO.init_keeps_negotiated s pa hn)
  rcases CFlexASIO.init_cases s pa hn with ⟨_, e, hi⟩ | ⟨_, ⟨e, hi⟩ | ⟨e, hi⟩ |
    ⟨api, s0, hs0, ⟨_, e, hi⟩ | ⟨s1, h1, ⟨_, e, hi⟩ | ⟨s2, s3, h2, hs3, hi⟩⟩⟩⟩
  · rw [hi]; exact ⟨rfl, rfl⟩
  · rw [hi]; exact ⟨rfl, rfl⟩
  · rw [hi]; exact ⟨rfl, rfl⟩
  · rw [hi, hs0]; exact ⟨rfl, rfl⟩
  · rw [hi] at h ⊢
    rcases CFlexASIO.init.inputDevice_cases h1 with ⟨_, e1⟩ | ⟨_, d, _, e1⟩
    · subst e1; subst hs0; exact ⟨rfl, rfl⟩
    · exfalso; apply h; subst e1; exact Or.inl rfl
  · rcases CFlexASIO.init.inputDevice_cases h1 with ⟨hd1, e1⟩ | ⟨_, d, _, e1⟩
    · rcases CFlexASIO.init.outputDevice_cases h2 with ⟨hd2, e2⟩ | ⟨_, d, _, e2⟩
      · have hw : CFlexASIO.init.wasapi s2 pa api = s2 := by
          unfold CFlexASIO.init.wasapi
          unfold PortAudio.noFormatWithoutDevice at hpa
          simp only [hd1, hd2, hpa, if_true]
        have hs3b : s3 = s2 := by rw [hs3, hw]; simp
        rw [hi, hs3b, e2, e1, hs0]
        split <;> exact ⟨rfl, rfl⟩
      · exfalso; apply h
        have f3 := CFlexASIO.init.wasapi_frame s2 pa api
        have : s3.output_device_info = some d := by
          rw [hs3]; split
          · rw [f3.2.2.2.2.2.1, e2]
          · rw [e2]
        rw [hi]
        right
        split <;> simp [this]
    · exfalso; apply h
      have f2 := CFlexASIO.init.outputDevice_frame h2
      have f3 := CFlexASIO.init.wasapi_frame s2 pa api
      have : s3.input_device_info = some d := by
        rw [hs3]; split
        · rw [f3.2.2.2.2.1, f2.2.2.2.2.1, e1]
        · rw [f2.2.2.2.2.1, e1]
      rw [hi]
      left
      split <;> simp [this]



theorem CFlexASIO.disposeBuffers_none (s : CFlexASIO) (e : PaError) (hb : s.buffers = none) :
    s.disposeBuffers e = (ASIOError.ASE_InvalidMode, s) := by
  unfold CFlexASIO.disposeBuffers
  split
  · rfl
  · rename_i b hb1
    rw [hb] at hb1
    exact absurd hb1 (by simp)

theorem CFlexASIO.disposeBuffers_started (s : CFlexASIO) (e : PaError)
    (hs : s.started = true) : s.disposeBuffers e = (ASIOError.ASE_InvalidMode, s) := by
  unfold CFlexASIO.disposeBuffers
  split
  · rfl
  · rw [if_pos hs]

theorem CFlexASIO.disposeBuffers_failed (s : CFlexASIO) (e : PaError) (hs : s.started = false)
    (he : e ≠ paNoError) :
    (s.disposeBuffers e).1 ≠ ASIOError.ASE_OK ∧
      ∃ t, (s.disposeBuffers e).2 = { s with init_error := t } := by
  unfold CFlexASIO.disposeBuffers
  split
  · exact ⟨by simp, s.init_error, rfl⟩
  · rw [if_neg (by simp [hs]), if_pos he]
    exact ⟨by simp, _, rfl⟩

theorem CFlexASIO.disposeBuffers_ok (s : CFlexASIO) (b : Buffers) (hb : s.buffers = some b)
    (hs : s.started = false) :
    s.disposeBuffers paNoError
      = (ASIOError.ASE_OK,
          { s with stream := none, buffers := none, buffers_info := [],
                   heap := Buffers.destroy s.heap b }) := by
  unfold CFlexASIO.disposeBuffers
  split
  · rename_i hb1
    rw [hb] at hb1
    exact absurd hb1 (by simp)
  · rename_i b1 hb1
    rw [hb] at hb1
    injection hb1 with hb1
    subst hb1
    rw [if_neg (by simp [hs]), if_neg (by simp)]

/-- `disposeBuffers` leaves the session as it was, but for the diagnostic text, or releases
the BufferSet and the stream of a session that is not streaming. -/
theorem CFlexASIO.disposeBuffers_cases (s : CFlexASIO) (e : PaError) :
    ((s.disposeBuffers e).1 ≠ ASIOError.ASE_OK ∧
      ∃ t, (s.disposeBuffers e).2 = { s with init_error := t }) ∨
    ((s.disposeBuffers e).1 = ASIOError.ASE_OK ∧ s.started = false ∧ e = paNoError ∧
      ∃ b, s.buffers = some b ∧
        (s.disposeBuffers e).2 = { s with stream := none, buffers := none, buffers_info := [],
                                          heap := Buffers.destroy s.heap b }) := by
  rcases Option.eq_none_or_eq_some s.buffers with hb | ⟨b, hb⟩
  · rw [ CFlexASIO.disposeBuffers_none s e hb]
    exact Or.inl ⟨by simp, s.init_error, rfl⟩
  · rcases Bool.eq_false_or_eq_true s.started with hs | hs
    · rw [ CFlexASIO.disposeBuffers_started s e hs]
      exact Or.inl ⟨by simp, s.init_error, rfl⟩
    · by_cases he : e = paNoError
      · subst he
        rw [ CFlexASIO.disposeBuffers_ok s b hb hs]
        exact Or.inr ⟨rfl, hs, rfl, b, hb, rfl⟩
      · exact Or.inl ( CFlexASIO.disposeBuffers_failed s e hs he)

theorem CFlexASIO.start_guarded (s : CFlexASIO) (asioMessage : Int → Int → Int) (t : Int)
    (e : PaError) (h : s.buffers = none ∨ s.started = true) :
    s.start asioMessage t e = (ASIOError.ASE_NotPresent, s, []) := by
  unfold CFlexASIO.start
  rcases h with h | h
  · have : (!s.buffers.isSome) = true := by rw [h]; rfl
    rw [if_pos this]
  · by_cases hb : (!s.buffers.isSome) = true
    · rw [if_pos hb]
    · rw [if_neg hb, if_pos h]

/-- The three ways `start` can go. -/
theorem CFlexASIO.start_cases (s : CFlexASIO) (asioMessage : Int → Int → Int) (t : Int)
    (e : PaError) :
    ((s.buffers = none ∨ s.started = true) ∧
      s.start asioMessage t e = (ASIOError.ASE_NotPresent, s, [])) ∨
    (s.buffers.isSome = true ∧ s.started = false ∧
      ∃ (q : Bool) (text : String),
        (e ≠ paNoError ∧ (s.start asioMessage t e).1 = ASIOError.ASE_HWMalfunction ∧
          (s.start asioMessage t e).2.1
            = { s with host_supports_timeinfo := q, our_buffer_index := 0, position := 0,
                       position_timestamp := t * 1000000, started := false,
                       init_error := text }) ∨
        (e = paNoError ∧ (s.start asioMessage t e).1 = ASIOError.ASE_OK ∧
          (s.start asioMessage t e).2.1
            = { s with host_supports_timeinfo := q, our_buffer_index := 0, position := 0,
                       position_timestamp := t * 1000000, started := true })) := by
  by_cases hg : s.buffers = none ∨ s.started = true
  · exact Or.inl ⟨hg, CFlexASIO.start_guarded s asioMessage t e hg⟩
  · right
    have hb : s.buffers.isSome = true := by
      cases h : s.buffers with
      | none => exact absurd (Or.inl h) hg
      | some b => rfl
    have hs : s.started = false := by
      cases h : s.started with
      | true => exact absurd (Or.inr h) hg
      | false => rfl
    refine ⟨hb, hs, ?_⟩
    unfold CFlexASIO.start
    rw [if_neg (by simp [hb]), if_neg (by simp [hs])]
    by_cases he : e = paNoError
    · subst he
      simp only [ne_eq, not_true_eq_false, if_false]
      exact ⟨_, "", Or.inr ⟨trivial, trivial, rfl⟩⟩
    · simp only [he, ne_eq, not_false_eq_true, if_true]
      exact ⟨_, _, Or.inl ⟨trivial, trivial, rfl⟩⟩

/-- The three ways `stop` can go. -/
theorem CFlexASIO.stop_cases (s : CFlexASIO) (e : PaError) :
    (s.started = false ∧ s.stop e = (ASIOError.ASE_NotPresent, s)) ∨
    (s.started = true ∧ e ≠ paNoError ∧
      ∃ text, s.stop e = (ASIOError.ASE_NotPresent, { s with init_error := text })) ∨
    (s.started = true ∧ e = paNoError ∧
      s.stop e = (ASIOError.ASE_OK, { s with started := false })) := by
  unfold CFlexASIO.stop
  rcases Bool.eq_false_or_eq_true s.started with hs | hs
  · right
    rw [if_neg (by simp [hs])]
    by_cases he : e = paNoError
    · right
      rw [if_neg (by simp [he])]
      exact ⟨hs, he, rfl⟩
    · left
      rw [if_pos he]
      exact ⟨hs, he, _, rfl⟩
  · left
    rw [if_pos (by simp [hs])]
    exact ⟨hs, rfl⟩

/-- `setSampleRate` changes at most the sample rate. -/
theorem CFlexASIO.setSampleRate_frame (s : CFlexASIO) (r : Rat) :
    ∃ q, (s.setSampleRate r).2.1 = { s with sample_rate := q } := by
  unfold CFlexASIO.setSampleRate
  split
  · split <;> exact ⟨s.sample_rate, rfl⟩
  · exact ⟨r, rfl⟩

/-- A store of the host changes the sample memory only. -/
theorem CFlexASIO.hostWrite_frame {s s1 : CFlexASIO} {p : SamplePtr} {data : List Sample}
    (h : s.hostWrite p data = some s1) : ∃ heap, s1 = { s with heap := heap } := by
  unfold CFlexASIO.hostWrite at h
  split at h
  · exact absurd h (by simp)
  · injection h with h
    exact ⟨_, h.symm⟩

/-- Every reachable state is well-formed. -/
theorem CFlexASIO.ReachableWith.wellFormed {P : PortAudio → Prop} {s : CFlexASIO}
    (h : CFlexASIO.ReachableWith P s) : s.WellFormed := by
  induction h with
  | fresh =>
    exact ⟨fun h => absurd h (by simp [ CFlexASIO.new]), by simp [ CFlexASIO.new],
      fun h => absurd h (by simp [ CFlexASIO.new])⟩
  | init s pa _ _ ih =>
    obtain ⟨f1, f2, f3⟩ := CFlexASIO.init_frame s pa
    obtain ⟨w1, w2, w3⟩ := ih
    refine ⟨?_, ?_, ?_⟩
    · rw [f1, f2]; exact w1
    · rw [f2, f3]; exact w2
    · rw [f2]; intro hb; exact CFlexASIO.init_keeps_negotiated s pa (w3 hb)
  | createBuffers s bufferInfos bufferSize callbacks Pa_OpenStream r _ hr ih =>
    obtain ⟨⟨f1, f2, f3, _⟩, f⟩ := CFlexASIO.createBuffers_frame hr
    obtain ⟨w1, w2, w3⟩ := ih
    have hneg : s.negotiated → r.state.negotiated := by
      unfold CFlexASIO.negotiated; rw [f2, f3]; exact id
    rcases f with ⟨g1, g2⟩ | ⟨_, g1, g2, g3, g4⟩
    · refine ⟨?_, ?_, ?_⟩
      · rw [f1, g1]; exact w1
      · rw [g1, g2]; exact w2
      · rw [g1]; exact fun hb => hneg (w3 hb)
    · exact ⟨fun _ => g3, ⟨fun _ => g4, fun _ => g3⟩, fun _ => hneg g1⟩
  | disposeBuffers s e _ ih =>
    obtain ⟨w1, w2, w3⟩ := ih
    rcases CFlexASIO.disposeBuffers_cases s e with ⟨_, t, h⟩ | ⟨_, hs, _, b, _, h⟩
    · rw [h]; exact ⟨w1, w2, w3⟩
    · rw [h]
      exact ⟨fun h1 => absurd (hs.symm.trans h1) (by simp), by simp,
        fun h1 => absurd h1 (by simp)⟩
  | start s m t e _ ih =>
    obtain ⟨w1, w2, w3⟩ := ih
    rcases CFlexASIO.start_cases s m t e with ⟨_, h⟩ | ⟨hb, _, q, text, ⟨_, _, h⟩ | ⟨_, _, h⟩⟩
    · rw [h]; exact ⟨w1, w2, w3⟩
    · rw [h]; exact ⟨fun _ => hb, w2, w3⟩
    · rw [h]; exact ⟨fun _ => hb, w2, w3⟩
  | stop s e _ ih =>
    obtain ⟨w1, w2, w3⟩ := ih
    rcases CFlexASIO.stop_cases s e with ⟨_, h⟩ | ⟨_, _, text, h⟩ | ⟨_, _, h⟩
    · rw [h]; exact ⟨w1, w2, w3⟩
    · rw [h]; exact ⟨w1, w2, w3⟩
    · rw [h]; exact ⟨fun h1 => absurd h1 (by simp), w2, w3⟩
  | setSampleRate s r _ ih =>
    obtain ⟨q, h⟩ := CFlexASIO.setSampleRate_frame s r
    rw [h]; exact ih
  | StreamCallback s input output n t r _ hr ih =>
    obtain ⟨f1, f2, f3, f4, f5, _⟩ := CFlexASIO.StreamCallback_frame hr
    obtain ⟨w1, w2, w3⟩ := ih
    refine ⟨?_, ?_, ?_⟩
    · rw [f1, f2]; exact w1
    · rw [f2, f3]; exact w2
    · rw [f2]; unfold CFlexASIO.negotiated; rw [f4, f5]; exact w3
  | hostWrite s p data s1 _ hw ih =>
    obtain ⟨heap, h⟩ := CFlexASIO.hostWrite_frame hw
    rw [h]; exact ih



/-- As long as no `init` has resolved a device the channel counts are those of the
constructor, if the backend reports no default format for the absent device. -/
theorem CFlexASIO.ReachableWith.unresolved_counts {s : CFlexASIO}
    (h : CFlexASIO.ReachableWith PortAudio.noFormatWithoutDevice s) :
    ¬ s.negotiated → s.input_channel_count = 0 ∧ s.output_channel_count = 0 := by
  induction h with
  | fresh => intro _; exact ⟨rfl, rfl⟩
  | init s pa _ hpa ih =>
    intro hn
    have hn0 : ¬ s.negotiated := fun h0 => hn ( CFlexASIO.init_keeps_negotiated s pa h0)
    obtain ⟨c1, c2⟩ := CFlexASIO.init_unresolved s pa hpa hn
    rw [c1, c2]
    exact ih hn0
  | createBuffers s bufferInfos bufferSize callbacks Pa_OpenStream r _ hr ih =>
    obtain ⟨⟨_, f2, f3, f4, f5, _⟩, _⟩ := CFlexASIO.createBuffers_frame hr
    unfold CFlexASIO.negotiated at *
    rw [f2, f3, f4, f5]
    exact ih
  | disposeBuffers s e _ ih =>
    rcases CFlexASIO.disposeBuffers_cases s e with ⟨_, t, h⟩ | ⟨_, _, _, b, _, h⟩ <;>
      rw [h] <;> exact ih
  | start s m t e _ ih =>
    rcases CFlexASIO.start_cases s m t e with ⟨_, h⟩ | ⟨_, _, q, text, ⟨_, _, h⟩ | ⟨_, _, h⟩⟩ <;>
      rw [h] <;> exact ih
  | stop s e _ ih =>
    rcases CFlexASIO.stop_cases s e with ⟨_, h⟩ | ⟨_, _, text, h⟩ | ⟨_, _, h⟩ <;>
      rw [h] <;> exact ih
  | setSampleRate s r _ ih =>
    obtain ⟨q, h⟩ := CFlexASIO.setSampleRate_frame s r
    rw [h]; exact ih
  | StreamCallback s input output n t r _ hr ih =>
    obtain ⟨_, _, _, f4, f5, f6, f7, _⟩ := CFlexASIO.StreamCallback_frame hr
    unfold CFlexASIO.negotiated at *
    rw [f4, f5, f6, f7]
    exact ih
  | hostWrite s p data s1 _ hw ih =>
    obtain ⟨heap, h⟩ := CFlexASIO.hostWrite_frame hw
    rw [h]; exact ih



theorem CFlexASIO.new_reachable (P : PortAudio → Prop) : CFlexASIO.ReachableWith P CFlexASIO.new :=
  CFlexASIO.ReachableWith.fresh ⟨false, false, false, false⟩ false 0 0 0

theorem CFlexASIO.afterCreateBuffers_reachable {P : PortAudio → Prop} {s : CFlexASIO}
    (h : CFlexASIO.ReachableWith P s) (bufferInfos : List ASIOBufferInfo) (bufferSize : Int) :
    CFlexASIO.ReachableWith P (s.afterCreateBuffers bufferInfos bufferSize) := by
  unfold CFlexASIO.afterCreateBuffers
  split
  · exact h
  · rename_i r hr
    exact CFlexASIO.ReachableWith.createBuffers s _ _ _ _ r h hr

theorem stereoSession_reachable : stereoSession.Reachable :=
  CFlexASIO.ReachableWith.init _ stereoBackend ( CFlexASIO.new_reachable _) trivial

theorem stereoAllocated_reachable : stereoAllocated.Reachable :=
  CFlexASIO.afterCreateBuffers_reachable stereoSession_reachable _ _

theorem stereoStreaming_reachable : stereoStreaming.Reachable := by
  unfold stereoStreaming
  split
  · exact stereoAllocated_reachable
  · rename_i s hs
    obtain ⟨s1, h1, hs⟩ := Option.bind_eq_some.1 hs
    obtain ⟨s2, h2, h3⟩ := Option.bind_eq_some.1 hs
    have r1 := CFlexASIO.ReachableWith.hostWrite _ _ _ s1 stereoAllocated_reachable h1
    have r2 := CFlexASIO.ReachableWith.hostWrite _ _ _ s2 r1 h2
    have r3 := CFlexASIO.ReachableWith.hostWrite _ _ _ s r2 h3
    exact CFlexASIO.ReachableWith.start s noMessage 0 paNoError r3

/-- What `stop` leaves alone, and when the session is streaming after it. -/
theorem CFlexASIO.stop_fields (s : CFlexASIO) (e : PaError) :
    (s.stop e).2.buffers = s.buffers ∧ (s.stop e).2.stream = s.stream ∧
    (s.stop e).2.heap = s.heap ∧
    (s.stop e).2.portaudio_initialized = s.portaudio_initialized ∧
    ((s.stop e).2.started = true ↔ s.started = true ∧ e ≠ paNoError) := by
  rcases CFlexASIO.stop_cases s e with ⟨hs, h⟩ | ⟨hs, he, text, h⟩ | ⟨hs, he, h⟩ <;> rw [h]
  · exact ⟨rfl, rfl, rfl, rfl, by simp [hs]⟩
  · exact ⟨rfl, rfl, rfl, rfl, by simp [hs, he]⟩
  · exact ⟨rfl, rfl, rfl, rfl, by simp [he]⟩

/-- What `disposeBuffers` leaves alone. -/
theorem CFlexASIO.disposeBuffers_fields (s : CFlexASIO) (e : PaError) :
    (s.disposeBuffers e).2.started = s.started ∧
    (s.disposeBuffers e).2.portaudio_initialized = s.portaudio_initialized := by
  rcases CFlexASIO.disposeBuffers_cases s e with ⟨_, t, h⟩ | ⟨_, _, _, b, _, h⟩ <;> rw [h] <;>
    exact ⟨rfl, rfl⟩

/-- The destructor in terms of the session it starts from: the state after the optional
`stop` and the optional `disposeBuffers`, and the three optional calls in order. -/
theorem CFlexASIO.destructor_eq (s : CFlexASIO) (eStop eClose eTerm : PaError) :
    s.destructor eStop eClose eTerm
      = ((if s.buffers.isSome then
            ((if s.started then (s.stop eStop).2 else s).disposeBuffers eClose).2
          else (if s.started then (s.stop eStop).2 else s)),
         (if s.started then [DestructorCall.stop (s.stop eStop).1] else []) ++
         (if s.buffers.isSome then
            [DestructorCall.disposeBuffers
              ((if s.started then (s.stop eStop).2 else s).disposeBuffers eClose).1]
          else []) ++
         (if s.portaudio_initialized then [DestructorCall.Pa_Terminate eTerm] else [])) := by
  have f1 := CFlexASIO.stop_fields s eStop
  unfold CFlexASIO.destructor
  by_cases hs : s.started = true
  · simp only [hs, if_true, f1.1]
    by_cases hb : s.buffers.isSome = true
    · simp only [hb, if_true, ( CFlexASIO.disposeBuffers_fields _ eClose).2, f1.2.2.2.1]
      split <;> simp
    · simp only [hb, if_false, Bool.false_eq_true, f1.2.2.2.1]
      split <;> simp
  · simp only [hs, if_false, Bool.false_eq_true]
    by_cases hb : s.buffers.isSome = true
    · simp only [hb, if_true, ( CFlexASIO.disposeBuffers_fields _ eClose).2]
      split <;> simp
    · simp only [hb, if_false, Bool.false_eq_true]
      split <;> simp

/-- The calls the destructor makes and the state its body leaves, by cases on what the
session holds and on what the backend answers. -/
theorem CFlexASIO.destructor_spec (s : CFlexASIO) (hw : s.WellFormed)
    (eStop eClose eTerm : PaError) :
    ((∃ r, DestructorCall.stop r ∈ (s.destructor eStop eClose eTerm).2) ↔ s.started = true) ∧
    ((∃ r, DestructorCall.disposeBuffers r ∈ (s.destructor eStop eClose eTerm).2)
      ↔ s.buffers.isSome = true) ∧
    (DestructorCall.Pa_Terminate eTerm ∈ (s.destructor eStop eClose eTerm).2
      ↔ s.portaudio_initialized = true) ∧
    (eStop = paNoError → eClose = paNoError →
      (s.destructor eStop eClose eTerm).1.started = false ∧
      (s.destructor eStop eClose eTerm).1.stream = none ∧
      (s.destructor eStop eClose eTerm).1.buffers = none ∧
      ∀ b, s.buffers = some b →
        (s.destructor eStop eClose eTerm).1.heap = Buffers.destroy s.heap b) ∧
    (s.started = true → eStop ≠ paNoError →
      (s.destructor eStop eClose eTerm).1.started = true ∧
      (s.destructor eStop eClose eTerm).1.stream = s.stream ∧
      (s.destructor eStop eClose eTerm).1.buffers = s.buffers) ∧
    (s.buffers.isSome = true → eClose ≠ paNoError →
      (s.destructor eStop eClose eTerm).1.stream = s.stream ∧
      (s.destructor eStop eClose eTerm).1.buffers = s.buffers) := by
  obtain ⟨w1, w2, _⟩ := hw
  rw [ CFlexASIO.destructor_eq]
  have f1 : (if s.started then (s.stop eStop).2 else s).buffers = s.buffers ∧
      (if s.started then (s.stop eStop).2 else s).stream = s.stream ∧
      (if s.started then (s.stop eStop).2 else s).heap = s.heap ∧
      ((if s.started then (s.stop eStop).2 else s).started = true
        ↔ s.started = true ∧ eStop ≠ paNoError) := by
    have f := CFlexASIO.stop_fields s eStop
    by_cases hs : s.started = true
    · simp only [hs, if_true]
      exact ⟨f.1, f.2.1, f.2.2.1, by rw [f.2.2.2.2]; simp [hs]⟩
    · simp [hs]
  generalize (if s.started then (s.stop eStop).2 else s) = s1 at f1
  obtain ⟨g1, g2, g3, g4⟩ := f1
  refine ⟨?_, ?_, ?_, ?_, ?_, ?_⟩
  · by_cases hs : s.started = true <;> by_cases hb : s.buffers.isSome = true <;>
      by_cases hp : s.portaudio_initialized = true <;> simp [hs, hb, hp]
  · by_cases hs : s.started = true <;> by_cases hb : s.buffers.isSome = true <;>
      by_cases hp : s.portaudio_initialized = true <;> simp [hs, hb, hp]
  · by_cases hs : s.started = true <;> by_cases hb : s.buffers.isSome = true <;>
      by_cases hp : s.portaudio_initialized = true <;> simp [hs, hb, hp]
  · intro he hc
    subst hc
    have hs1 : s1.started = false := by
      cases h : s1.started with
      | false => rfl
      | true => exact absurd he (g4.1 h).2
    simp only
    rcases Option.eq_none_or_eq_some s.buffers with hb | ⟨b, hb⟩
    · have hst : s.stream = none := by
        cases hst : s.stream with
        | none => rfl
        | some x => exact absurd (w2.2 (by rw [hst]; rfl)) (by rw [hb]; simp)
      simp only [hb, Option.isSome_none, Bool.false_eq_true, if_false]
      exact ⟨hs1, g2.trans hst, g1.trans hb, fun b h => absurd h (by simp)⟩
    · rw [ CFlexASIO.disposeBuffers_ok s1 b (g1.trans hb) hs1]
      simp only [hb, Option.isSome_some, if_true]
      refine ⟨hs1, ?_, ?_, ?_⟩
      · trivial
      · trivial
      intro b1 hb1
      injection hb1 with hb1
      rw [g3, hb1]
  · intro hs he
    have hs1 : s1.started = true := g4.2 ⟨hs, he⟩
    have hb := w1 hs
    simp only [hb, if_true]
    rw [ CFlexASIO.disposeBuffers_started s1 eClose hs1]
    exact ⟨hs1, g2, g1⟩
  · intro hb hc
    simp only [hb, if_true]
    rcases CFlexASIO.disposeBuffers_cases s1 eClose with ⟨_, t, h⟩ | ⟨_, _, h0, _⟩
    · rw [h]; exact ⟨g2, g1⟩
    · exact absurd h0 hc



/-- A successful `init`: the devices it has resolved and the sample rate it has stored,
in terms of the rate `r` the two device blocks have computed. -/
theorem CFlexASIO.init_success {s : CFlexASIO} {pa : PortAudio}
    (h : (s.init pa).1 = ASIOTrue) :
    ∃ r : Rat, (s.init pa).2.sample_rate = (if r = 0 then 44100 else r) ∧
      (((s.init pa).2.input_device_info = none ∧ (s.init pa).2.output_device_info = none ∧
          r = 0) ∨
       (∃ i, (s.init pa).2.input_device_info = some i ∧
          (s.init pa).2.output_device_info = none ∧ r = max i.defaultSampleRate 0) ∨
       (∃ o, (s.init pa).2.input_device_info = none ∧
          (s.init pa).2.output_device_info = some o ∧ r = max o.defaultSampleRate 0) ∨
       (∃ i o, (s.init pa).2.input_device_info = some i ∧
          (s.init pa).2.output_device_info = some o ∧
          r = max o.defaultSampleRate (max i.defaultSampleRate 0))) := by
  have hn : ¬ s.negotiated := by
    intro hn
    rw [ CFlexASIO.init_negotiated s pa hn] at h
    exact absurd h (by simp [ASIOFalse, ASIOTrue, ASIOError.toLong])
  have hi0 : s.input_device_info = none := by
    cases hi : s.input_device_info with
    | none => rfl
    | some d => exact absurd (Or.inl (by rw [hi]; rfl)) hn
  have ho0 : s.output_device_info = none := by
    cases ho : s.output_device_info with
    | none => rfl
    | some d => exact absurd (Or.inr (by rw [ho]; rfl)) hn
  rcases CFlexASIO.init_cases s pa hn with ⟨_, e, hi⟩ | ⟨_, ⟨e, hi⟩ | ⟨e, hi⟩ |
    ⟨api, s0, hs0, ⟨_, e, hi⟩ | ⟨s1, h1, ⟨_, e, hi⟩ | ⟨s2, s3, h2, hs3, hi⟩⟩⟩⟩
  · rw [hi] at h; exact absurd h (by simp [ASIOFalse, ASIOTrue, ASIOError.toLong])
  · rw [hi] at h; exact absurd h (by simp [ASIOFalse, ASIOTrue, ASIOError.toLong])
  · rw [hi] at h; exact absurd h (by simp [ASIOFalse, ASIOTrue, ASIOError.toLong])
  · rw [hi] at h; exact absurd h (by simp [ASIOFalse, ASIOTrue, ASIOError.toLong])
  · rw [hi] at h; exact absurd h (by simp [ASIOFalse, ASIOTrue, ASIOError.toLong])
  · have f3 : s3.input_device_info = s2.input_device_info ∧
        s3.output_device_info = s2.output_device_info ∧ s3.sample_rate = s2.sample_rate := by
      have f := CFlexASIO.init.wasapi_frame s2 pa api
      rw [hs3]
      split
      · exact ⟨f.2.2.2.2.1, f.2.2.2.2.2.1, f.2.2.2.2.2.2⟩
      · exact ⟨rfl, rfl, rfl⟩
    have f4 : (s.init pa).2.input_device_info = s2.input_device_info ∧
        (s.init pa).2.output_device_info = s2.output_device_info ∧
        (s.init pa).2.sample_rate = (if s2.sample_rate = 0 then 44100 else s2.sample_rate) := by
      rw [hi, ← f3.1, ← f3.2.1, ← f3.2.2]
      simp only
      split <;> exact ⟨rfl, rfl, rfl⟩
    rw [f4.1, f4.2.1, f4.2.2]
    refine ⟨s2.sample_rate, rfl, ?_⟩
    rcases CFlexASIO.init.inputDevice_cases h1 with ⟨_, e1⟩ | ⟨_, d1, _, e1⟩ <;>
      rcases CFlexASIO.init.outputDevice_cases h2 with ⟨_, e2⟩ | ⟨_, d2, _, e2⟩
    · left
      rw [e2, e1, hs0]
      exact ⟨hi0, ho0, rfl⟩
    · right; right; left
      rw [e2, e1, hs0]
      exact ⟨d2, hi0, rfl, rfl⟩
    · right; left
      rw [e2, e1, hs0]
      exact ⟨d1, rfl, ho0, rfl⟩
    · right; right; right
      rw [e2, e1, hs0]
      exact ⟨d1, d2, rfl, rfl, rfl⟩



/-- The inner loop with its record: from the cursor `2 ^ p` it stops at some `2 ^ p1`
with `p ≤ p1 ≤ 31`, its shifts produce `2 ^ (p + 1)`, ..., `2 ^ p1` and nothing else, and
the cursor it stops at is that of `getChannelName.skip`. -/
theorem getChannelName.skipTrace_spec (m : Nat) :
    ∀ (fuel p : Nat), p ≤ 31 → 31 - p < fuel →
      ∃ p1, p ≤ p1 ∧ p1 ≤ 31 ∧
        getChannelName.skipTrace m fuel (2 ^ p)
          = some (2 ^ p1, (List.range' (p + 1) (p1 - p)).map fun q => 2 ^ q) ∧
        getChannelName.skip m fuel (2 ^ p) = some (2 ^ p1) := by
  intro fuel
  induction fuel with
  | zero => intro p _ h; omega
  | succ fuel ih =>
    intro p hp hf
    unfold getChannelName.skipTrace getChannelName.skip
    by_cases hc : 2 ^ p &&& m = 0 ∧ 2 ^ p < SPEAKER_ALL
    · rw [if_pos hc, if_pos hc]
      have hp31 : p < 31 := (two_pow_lt_SPEAKER_ALL p).1 hc.2
      rw [shift_two_pow p hp31]
      obtain ⟨p1, h1, h2, h3, h4⟩ := ih (p + 1) (by omega) (by omega)
      refine ⟨p1, by omega, h2, ?_, h4⟩
      rw [h3]
      have hlen : p1 - p = (p1 - (p + 1)) + 1 := by omega
      rw [hlen, List.range'_succ, List.map_cons]
    · rw [if_neg hc, if_neg hc]
      exact ⟨p, le_refl p, hp, by simp, rfl⟩

/-- The outer loop with its record: from the cursor `2 ^ p` it leaves with some `2 ^ p1`,
`p ≤ p1 ≤ 31`, after the shifts to `2 ^ (p + 1)`, ..., `2 ^ p1`, and the cursor it leaves
with is that of `getChannelName.search`. -/
theorem getChannelName.searchTrace_spec (channel m : Nat) :
    ∀ (fuel current p : Nat), p ≤ 31 → 31 - p < fuel →
      ∃ p1, p ≤ p1 ∧ p1 ≤ 31 ∧
        getChannelName.searchTrace channel m fuel current (2 ^ p)
          = some (2 ^ p1, (List.range' (p + 1) (p1 - p)).map fun q => 2 ^ q) ∧
        getChannelName.search channel m fuel current (2 ^ p) = some (2 ^ p1) := by
  intro fuel
  induction fuel with
  | zero => intro _ p _ h; omega
  | succ fuel ih =>
    intro current p hp hf
    unfold getChannelName.searchTrace getChannelName.search
    obtain ⟨p1, h1, h2, h3, h4⟩ := getChannelName.skipTrace_spec m 33 p hp (by omega)
    rw [h3, h4]
    simp only
    by_cases hall : (2 : Nat) ^ p1 = SPEAKER_ALL
    · rw [if_pos hall, if_pos hall]
      exact ⟨p1, h1, h2, rfl, rfl⟩
    · rw [if_neg hall, if_neg hall]
      by_cases hcur : current = channel
      · rw [if_pos hcur, if_pos hcur]
        exact ⟨p1, h1, h2, rfl, rfl⟩
      · rw [if_neg hcur, if_neg hcur]
        have hp31 : p1 < 31 := by
          have : p1 ≠ 31 := fun h => hall ((two_pow_eq_SPEAKER_ALL p1).2 h)
          omega
        rw [shift_two_pow p1 hp31]
        obtain ⟨p2, g1, g2, g3, g4⟩ := ih (current + 1) (p1 + 1) (by omega) (by omega)
        refine ⟨p2, by omega, g2, ?_, g4⟩
        rw [g3]
        simp only
        have hlen : p2 - p = (p2 - (p1 + 1) + 1) + (p1 - p) := by omega
        have hs : p1 + 1 = p + 1 + (p1 - p) := by omega
        rw [hlen, ← List.range'_append_1, List.map_append, ← hs, List.range'_succ,
          List.map_cons]



/-- The notification a callback issues is the one `CFlexASIO.notification` describes for
the state the callback starts from. -/
theorem CFlexASIO.StreamCallback_cases_call {s : CFlexASIO} {input output : List (List Sample)}
    {n : Nat} {t : Int} {r : StreamCallbackResult}
    (h : s.StreamCallback input output n t = some r) :
    (r = ⟨paContinue, s, output, none⟩ ∧
      (s.started = false ∨ ∃ b, s.buffers = some b ∧ n ≠ b.buffer_size)) ∨
    (s.started = true ∧ (∃ b, s.buffers = some b ∧ n = b.buffer_size) ∧
      ∃ heap out call,
        r = ⟨paContinue,
             { s with heap := heap, our_buffer_index := (s.our_buffer_index + 1) % 2,
                      position := s.position + n, position_timestamp := t * 1000000 },
             out, some ⟨call, { s with heap := heap }, out⟩⟩ ∧
        call = s.notification) := by
  unfold CFlexASIO.StreamCallback at h
  cases hs : s.started with
  | false =>
    simp [hs] at h
    exact Or.inl ⟨h.symm, Or.inl rfl⟩
  | true =>
    simp only [hs, Bool.not_true, Bool.false_eq_true, if_false] at h
    cases hb : s.buffers with
    | none => simp [hb] at h
    | some b =>
      simp only [hb] at h
      by_cases hn : n = b.buffer_size
      · right
        refine ⟨rfl, ⟨b, rfl, hn⟩, ?_⟩
        simp only [hn, ne_eq, not_true_eq_false, if_false] at h
        split at h
        · cases h
        · split at h
          · cases h
          · rename_i heap out _
            split at h
            · cases h
            · rename_i call hcall
              injection h with h
              refine ⟨heap, out, call, ?_, ?_⟩
              · rw [← h, hn]
              · unfold CFlexASIO.notification
                split at hcall
                · rename_i hti
                  split at hcall
                  · injection hcall with hcall
                    rw [← hcall]
                    simp only [Bool.not_eq_true'] at hti
                    simp [hti]
                  · cases hcall
                · rename_i hti
                  split at hcall
                  · injection hcall with hcall
                    rw [← hcall]
                    simp only [Bool.not_eq_true', Bool.not_eq_false] at hti
                    simp [hti]
                  · cases hcall
      · left
        simp only [ne_eq, hn, not_false_eq_true, if_true] at h
        injection h with h
        exact ⟨h.symm, Or.inr ⟨b, rfl, hn⟩⟩

/-- The form of the notification of a state. -/
theorem CFlexASIO.notification_form (s : CFlexASIO) :
    s.notification.form
      = some (if s.host_supports_timeinfo = true then
                NotificationForm.extended s.our_buffer_index 1 (asio_samples s.position)
              else NotificationForm.plain s.our_buffer_index) := by
  unfold CFlexASIO.notification
  split <;> rfl


/-- Whatever a run hands to the host, its notifications have the forms of `notifications`:
along any sequence of callbacks, `stop`s and `start`s on a session with a BufferSet of
period length `N`. -/
theorem CFlexASIO.runCalls_notifications (N : Nat) :
    ∀ (calls : List DriverCall) (s : CFlexASIO) (streaming timeInfo : Bool) (k : Nat),
      s.buffers.map (fun b => b.buffer_size) = some N →
      s.started = streaming →
      (streaming = true → s.host_supports_timeinfo = timeInfo ∧
        s.position = ((k * N : Nat) : Int) ∧ s.our_buffer_index = k % 2) →
      ∀ (s' : CFlexASIO) (L : List (Option HostCall)), s.runCalls calls = some (s', L) →
        L.map (fun c => c.bind HostCall.form)
          = notifications s.callbacks N streaming timeInfo k calls := by
  intro calls
  induction calls with
  | nil =>
    intro s streaming timeInfo k _ _ _ s' L h
    simp only [ CFlexASIO.runCalls, Option.some.injEq, Prod.mk.injEq] at h
    rw [← h.2]
    rfl
  | cons c cs ih =>
    intro s streaming timeInfo k hper hst hinv s' L h
    unfold CFlexASIO.runCalls at h
    cases hstep : s.stepCall c with
    | none => rw [hstep] at h; cases h
    | some x =>
      obtain ⟨s1, o⟩ := x
      rw [hstep] at h
      simp only at h
      cases hrest : s1.runCalls cs with
      | none => rw [hrest] at h; cases h
      | some y =>
        obtain ⟨s2, os⟩ := y
        rw [hrest] at h
        simp only [Option.some.injEq, Prod.mk.injEq] at h
        obtain ⟨_, hL⟩ := h
        subst hL
        rw [List.map_cons]
        cases c with
        | StreamCallback input output n t =>
          simp only [ CFlexASIO.stepCall] at hstep
          cases hr : s.StreamCallback input output n t with
          | none => rw [hr] at hstep; cases hstep
          | some r =>
            rw [hr] at hstep
            simp only [Option.some.injEq, Prod.mk.injEq] at hstep
            obtain ⟨hs1, ho⟩ := hstep
            rcases CFlexASIO.StreamCallback_cases_call hr with
              ⟨hskip, hwhy⟩ | ⟨hstarted, ⟨b, hb, hn⟩, heap, out, call, hre, hcall⟩
            · have htr : ¬ (streaming = true ∧ n = N) := by
                intro ⟨h1, h2⟩
                rcases hwhy with hw | ⟨b, hb, hn⟩
                · rw [hst, h1] at hw; cases hw
                · rw [hb] at hper
                  simp only [Option.map_some', Option.some.injEq] at hper
                  exact hn (by rw [h2, hper])
              have e1 : s1 = s := by rw [← hs1, hskip]
              have e2 : o = none := by rw [← ho, hskip]; rfl
              subst e1
              subst e2
              have := ih s1 streaming timeInfo k hper hst hinv s2 os hrest
              simp only [notifications, htr, if_false, this, Option.none_bind]
            · have hN : n = N := by
                rw [hb] at hper
                simp only [Option.map_some', Option.some.injEq] at hper
                rw [hn, hper]
              have hstr : streaming = true := by rw [← hst, hstarted]
              obtain ⟨i1, i2, i3⟩ := hinv hstr
              have e2 : o = some s.notification := by rw [← ho, hre, ← hcall]; rfl
              have e1 : s1 =
                  { s with heap := heap, our_buffer_index := (s.our_buffer_index + 1) % 2,
                           position := s.position + n,
                           position_timestamp := t * 1000000 } := by
                rw [← hs1, hre]
              have hih := ih s1 true timeInfo (k + 1) (by rw [e1]; exact hper)
                (by rw [e1]; exact hstarted)
                (fun _ => by
                  rw [e1]
                  refine ⟨i1, ?_, ?_⟩
                  · show s.position + (n : Int) = (((k + 1) * N : Nat) : Int)
                    rw [i2, hN]; push_cast; ring
                  · show (s.our_buffer_index + 1) % 2 = (k + 1) % 2
                    rw [i3]; omega)
                s2 os hrest
              have hcbs : s1.callbacks = s.callbacks := by rw [e1]
              rw [hcbs] at hih
              rw [e2, hih]
              simp only [Option.some_bind, CFlexASIO.notification_form, notifications, hstr, hN,
                and_self, if_true, i1, i2, i3]
        | stop e =>
          simp only [ CFlexASIO.stepCall, Option.some.injEq, Prod.mk.injEq] at hstep
          obtain ⟨hs1, ho⟩ := hstep
          subst ho
          rcases CFlexASIO.stop_cases s e with ⟨hs, he⟩ | ⟨hs, hne, text, he⟩ | ⟨hs, hee, he⟩
          · have e1 : s1 = s := by rw [← hs1, he]
            subst e1
            have hstr : streaming = false := by rw [← hst, hs]
            have := ih s1 false timeInfo k hper hs (fun h => by cases h) s2 os hrest
            simp only [notifications, hstr, Bool.false_and, this, Option.none_bind]
          · have e1 : s1 = { s with init_error := text } := by rw [← hs1, he]
            have hstr : streaming = true := by rw [← hst, hs]
            have hih := ih s1 true timeInfo k (by rw [e1]; exact hper) (by rw [e1]; exact hs)
              (fun _ => by rw [e1]; exact hinv hstr) s2 os hrest
            have hcbs : s1.callbacks = s.callbacks := by rw [e1]
            rw [hcbs] at hih
            simp only [notifications, hstr, Bool.true_and, hne, ne_eq, not_false_eq_true,
              decide_True, hih, Option.none_bind]
          · have e1 : s1 = { s with started := false } := by rw [← hs1, he]
            have hih := ih s1 false timeInfo k (by rw [e1]; exact hper) (by rw [e1])
              (fun h => by cases h) s2 os hrest
            have hcbs : s1.callbacks = s.callbacks := by rw [e1]
            rw [hcbs] at hih
            simp only [notifications, hee, ne_eq, not_true_eq_false, decide_False,
              Bool.and_false, hih, Option.none_bind]
        | start m t e =>
          simp only [ CFlexASIO.stepCall, Option.some.injEq, Prod.mk.injEq] at hstep
          obtain ⟨hs1, ho⟩ := hstep
          subst ho
          rcases CFlexASIO.start_cases s m t e with
            ⟨hg, he⟩ | ⟨hb, hs, q, text, ⟨hne, _, he⟩ | ⟨hee, hok, _⟩⟩
          · have hstr : streaming = true := by
              rcases hg with hg | hg
              · rw [hg] at hper; cases hper
              · rw [← hst, hg]
            have e1 : s1 = s := by rw [← hs1, he]
            subst e1
            have := ih s1 true timeInfo k hper (by rw [hst, hstr])
              (fun _ => hinv hstr) s2 os hrest
            simp only [notifications, hstr, if_true, this, Option.none_bind]
          · have hstr : streaming = false := by rw [← hst, hs]
            have e1 : s1 =
                { s with host_supports_timeinfo := q, our_buffer_index := 0, position := 0,
                         position_timestamp := t * 1000000, started := false,
                         init_error := text } := by rw [← hs1, he]
            have hih := ih s1 false timeInfo k (by rw [e1]; exact hper) (by rw [e1])
              (fun h => by cases h) s2 os hrest
            have hcbs : s1.callbacks = s.callbacks := by rw [e1]
            rw [hcbs] at hih
            simp only [notifications, hstr, Bool.false_eq_true, if_false, hne, hih,
              Option.none_bind]
          · have hstr : streaming = false := by rw [← hst, hs]
            obtain ⟨_, _, _, heq⟩ := CFlexASIO.start_ok hok
            have e1 : s1 = _ := hs1.symm.trans heq
            have hih := ih s1 true (declaresTimeInfo s.callbacks m) 0
              (by rw [e1]; exact hper) (by rw [e1])
              (fun _ => by rw [e1]; exact ⟨rfl, by simp, rfl⟩) s2 os hrest
            have hcbs : s1.callbacks = s.callbacks := by rw [e1]
            rw [hcbs] at hih
            simp only [notifications, hstr, Bool.false_eq_true, if_false, hee, if_true, hih,
              Option.none_bind]


/-- The half-indices a call hands over are those of the notification it issues. -/
theorem CFlexASIO.step_eq_stepCall (s : CFlexASIO) (c : DriverCall) :
    s.step c = (s.stepCall c).map fun x => (x.1, x.2.bind HostCall.halfIndex) := by
  cases c with
  | StreamCallback input output n t =>
    simp only [ CFlexASIO.step, CFlexASIO.stepCall]
    cases hr : s.StreamCallback input output n t with
    | none => rfl
    | some r =>
      simp only [Option.map_some', Option.some.injEq, Prod.mk.injEq, true_and]
      cases r.handoff <;> rfl
  | stop e => rfl
  | start m t e => rfl

theorem CFlexASIO.run_eq_runCalls :
    ∀ (calls : List DriverCall) (s : CFlexASIO),
      s.run calls
        = (s.runCalls calls).map fun x => (x.1, x.2.map fun c => c.bind HostCall.halfIndex) := by
  intro calls
  induction calls with
  | nil => intro s; rfl
  | cons c cs ih =>
    intro s
    unfold CFlexASIO.run CFlexASIO.runCalls
    rw [ CFlexASIO.step_eq_stepCall]
    cases hstep : s.stepCall c with
    | none => rfl
    | some x =>
      obtain ⟨s1, o⟩ := x
      simp only [Option.map_some']
      rw [ih s1]
      cases hrest : s1.runCalls cs with
      | none => rfl
      | some y => rfl

/-- A run that hands over half-indices hands over notifications. -/
theorem CFlexASIO.runCalls_of_run {s s' : CFlexASIO} {calls : List DriverCall}
    {obs : List (Option Nat)} (h : s.run calls = some (s', obs)) :
    ∃ L, s.runCalls calls = some (s', L) := by
  rw [ CFlexASIO.run_eq_runCalls] at h
  cases hr : s.runCalls calls with
  | none => rw [hr] at h; cases h
  | some x =>
    rw [hr] at h
    simp only [Option.map_some', Option.some.injEq, Prod.mk.injEq] at h
    exact ⟨x.2, by rw [← h.1]⟩

/-- Over full periods on a Streaming session the notifications are one per callback, the
`j`-th after `k` earlier ones carrying half-index `(k + j) mod 2` and, in the extended
form, speed 1 and the words of `position.asio_samples` over the count `(k + j) * N`. -/
theorem notifications_full_periods (callbacks : ASIOCallbacks) (N : Nat) (timeInfo : Bool) :
    ∀ (calls : List DriverCall) (k : Nat), (∀ c ∈ calls, c.frames = some N) →
      notifications callbacks N true timeInfo k calls
        = (List.range calls.length).map fun j =>
            some (if timeInfo = true then
                    NotificationForm.extended ((k + j) % 2) 1
                      (asio_samples (((k + j) * N : Nat) : Int))
                  else NotificationForm.plain ((k + j) % 2)) := by
  intro calls
  induction calls with
  | nil => intro _ _; rfl
  | cons c cs ih =>
    intro k hfr
    have hf := hfr c (List.mem_cons_self _ _)
    cases c with
    | StreamCallback input output n t =>
      have hn : n = N := by simpa [DriverCall.frames] using hf
      subst hn
      rw [List.length_cons, List.range_succ_eq_map, List.map_cons, List.map_map]
      simp only [notifications, and_self, if_true, Nat.add_zero]
      rw [ih (k + 1) (fun c hc => hfr c (List.mem_cons_of_mem _ hc))]
      congr 1
      apply List.map_congr_left
      intro j _
      simp only [Function.comp, Nat.succ_eq_add_one]
      have : k + 1 + j = k + (j + 1) := by omega
      rw [this]
    | stop r => simp [DriverCall.frames] at hf
    | start m t r => simp [DriverCall.frames] at hf



/-! ## The session after a refused `createBuffers` -/

/-- The session that streams after a refused and an accepted `createBuffers` is reached
through the driver operations. -/
theorem staleStreaming_reachable : staleStreaming.Reachable :=
  CFlexASIO.ReachableWith.start _ noMessage 0 paNoError
    ( CFlexASIO.afterCreateBuffers_reachable
      ( CFlexASIO.afterCreateBuffers_reachable stereoSession_reachable _ _) _ _)

/-! ## The session states of the specification -/

/-- The states of `ReachableIn` are reachable. -/
theorem CFlexASIO.ReachableIn.reachable {g : Bool} {s : CFlexASIO} (h : s.ReachableIn g) :
    s.Reachable := by
  induction h with
  | fresh c t i p q => exact CFlexASIO.ReachableWith.fresh c t i p q
  | init g s pa _ ih => exact CFlexASIO.ReachableWith.init s pa ih trivial
  | createBuffers g s bufferInfos bufferSize callbacks Pa_OpenStream r _ hr ih =>
    exact CFlexASIO.ReachableWith.createBuffers s bufferInfos bufferSize callbacks Pa_OpenStream
      r ih hr
  | disposeBuffers g s e _ ih => exact CFlexASIO.ReachableWith.disposeBuffers s e ih
  | start g s m t e _ ih => exact CFlexASIO.ReachableWith.start s m t e ih
  | stop g s e _ ih => exact CFlexASIO.ReachableWith.stop s e ih
  | setSampleRate g s r _ ih => exact CFlexASIO.ReachableWith.setSampleRate s r ih
  | StreamCallback g s input output n t r _ hr ih =>
    exact CFlexASIO.ReachableWith.StreamCallback s input output n t r ih hr
  | hostWrite g s p data s1 _ hw ih => exact CFlexASIO.ReachableWith.hostWrite s p data s1 ih hw

/-- An `init` that does not return `ASIOTrue` and ends without a resolved device leaves the
channel counts alone. -/
theorem CFlexASIO.init_failed_unresolved (s : CFlexASIO) (pa : PortAudio)
    (hf : (s.init pa).1 ≠ ASIOTrue) (h : ¬ (s.init pa).2.negotiated) :
    (s.init pa).2.input_channel_count = s.input_channel_count ∧
      (s.init pa).2.output_channel_count = s.output_channel_count := by
  have hn : ¬ s.negotiated := fun hn => h ( CFlexASIO.init_keeps_negotiated s pa hn)
  rcases CFlexASIO.init_cases s pa hn with ⟨_, e, hi⟩ | ⟨_, ⟨e, hi⟩ | ⟨e, hi⟩ |
    ⟨api, s0, hs0, ⟨_, e, hi⟩ | ⟨s1, h1, ⟨_, e, hi⟩ | ⟨s2, s3, h2, hs3, hi⟩⟩⟩⟩
  · rw [hi]; exact ⟨rfl, rfl⟩
  · rw [hi]; exact ⟨rfl, rfl⟩
  · rw [hi]; exact ⟨rfl, rfl⟩
  · rw [hi, hs0]; exact ⟨rfl, rfl⟩
  · rw [hi] at h ⊢
    rcases CFlexASIO.init.inputDevice_cases h1 with ⟨_, e1⟩ | ⟨_, d, _, e1⟩
    · subst e1; subst hs0; exact ⟨rfl, rfl⟩
    · exfalso; apply h; subst e1; exact Or.inl rfl
  · exfalso; apply hf; rw [hi]

/-- In the specification's state Uninitialized, as long as no failed `init` has left a
device resolved, the channel counts are those of the constructor. -/
theorem CFlexASIO.ReachableIn.uninitialized_counts {g : Bool} {s : CFlexASIO}
    (h : s.ReachableIn g) :
    g = false → ¬ s.negotiated → s.input_channel_count = 0 ∧ s.output_channel_count = 0 := by
  induction h with
  | fresh => intro _ _; exact ⟨rfl, rfl⟩
  | init g s pa _ ih =>
    intro hg hn
    have hn0 : ¬ s.negotiated := fun h0 => hn ( CFlexASIO.init_keeps_negotiated s pa h0)
    have hg0 : g = false := by
      cases g
      · rfl
      · simp at hg
    have hf : (s.init pa).1 ≠ ASIOTrue := by
      intro e
      rw [hg0] at hg
      simp [e] at hg
    obtain ⟨c1, c2⟩ := CFlexASIO.init_failed_unresolved s pa hf hn
    rw [c1, c2]
    exact ih hg0 hn0
  | createBuffers g s bufferInfos bufferSize callbacks Pa_OpenStream r _ hr ih =>
    obtain ⟨⟨_, f2, f3, f4, f5, _⟩, _⟩ := CFlexASIO.createBuffers_frame hr
    unfold CFlexASIO.negotiated at *
    rw [f2, f3, f4, f5]
    exact ih
  | disposeBuffers g s e _ ih =>
    rcases CFlexASIO.disposeBuffers_cases s e with ⟨_, t, h⟩ | ⟨_, _, _, b, _, h⟩ <;>
      rw [h] <;> exact ih
  | start g s m t e _ ih =>
    rcases CFlexASIO.start_cases s m t e with ⟨_, h⟩ | ⟨_, _, q, text, ⟨_, _, h⟩ | ⟨_, _, h⟩⟩ <;>
      rw [h] <;> exact ih
  | stop g s e _ ih =>
    rcases CFlexASIO.stop_cases s e with ⟨_, h⟩ | ⟨_, _, text, h⟩ | ⟨_, _, h⟩ <;>
      rw [h] <;> exact ih
  | setSampleRate g s r _ ih =>
    obtain ⟨q, h⟩ := CFlexASIO.setSampleRate_frame s r
    rw [h]; exact ih
  | StreamCallback g s input output n t r _ hr ih =>
    obtain ⟨_, _, _, f4, f5, f6, f7, _⟩ := CFlexASIO.StreamCallback_frame hr
    unfold CFlexASIO.negotiated at *
    rw [f4, f5, f6, f7]
    exact ih
  | hostWrite g s p data s1 _ hw ih =>
    obtain ⟨heap, h⟩ := CFlexASIO.hostWrite_frame hw
    rw [h]; exact ih

/-- A fresh session is in the specification's state Uninitialized. -/
theorem CFlexASIO.new_reachableIn : CFlexASIO.new.ReachableIn false :=
  CFlexASIO.ReachableIn.fresh ⟨false, false, false, false⟩ false 0 0 0

/-- The stereo session is in the specification's state Negotiated. -/
theorem stereoSession_reachableIn : stereoSession.ReachableIn true :=
  CFlexASIO.ReachableIn.init false _ stereoBackend CFlexASIO.new_reachableIn

/-- The session after the failed `init` on `inputOnlyBackend` is reachable. -/
theorem halfResolved_reachable : halfResolved.Reachable :=
  CFlexASIO.ReachableWith.init _ inputOnlyBackend ( CFlexASIO.new_reachable _) trivial

/-! ## C1: `isActive` and the existing BufferSet -/

/-- C1, evaluated at the failing input: on the stereo session, `createBuffers` is asked for
the bindings (input, 0) and (input, 5); the second one is out of range, the call returns
`ASE_InvalidMode` and no BufferSet exists afterwards, yet the first binding stays recorded
and `getChannelInfo` for (input, 0) returns `ASE_OK` with `isActive = true`. -/
theorem C1_isActive_after_rejected_createBuffers :
    ∃ r, stereoSession.createBuffers [binding true 0, binding true 5] 4 (some plainHost)
        openAlways = some r ∧
      r.result = ASIOError.ASE_InvalidMode ∧ r.state.buffers = none ∧
      r.state.getChannelInfo true 0
        = some (ASIOError.ASE_OK, some ⟨true, 0, ASIOSampleType.asio_sample_type, "IN 0"⟩) := by
  refine ⟨_, rfl, ?_, ?_, ?_⟩ <;> decide


/-! ## C2: alternation of the half-index -/

/-- The alternation on a BufferSet every recorded binding of which points into its block
(`BufferSetOk`): after a successful `start()` on such a BufferSet of period length `N`, any
sequence of callbacks, `stop`s and further `start`s hands to the host exactly the
half-indices of the alternation: the `k`-th callback since the latest successful `start`
whose frame count is `N` passes `k mod 2`, and calls that transfer nothing (not Streaming,
or another frame count) pass nothing and do not disturb the count.  In particular, as long
as no further `start` intervenes the indices handed over are 0, 1, 0, 1, ... -/
theorem CFlexASIO.half_index_alternates (s : CFlexASIO) (asioMessage : Int → Int → Int) (t : Int)
    (r : PaError) (N : Nat) (calls : List DriverCall)
    (hok : s.BufferSetOk) (hN : s.buffers.map (fun b => b.buffer_size) = some N)
    (hcb : s.callbacks.bufferSwitch = true)
    (hhost : HostConsistent s.callbacks asioMessage)
    (hstart : (s.start asioMessage t r).1 = ASIOError.ASE_OK)
    (hcalls : ∀ c ∈ calls, s.CallOk N c) :
    ((s.start asioMessage t r).2.1.run calls).map (fun x => x.2)
      = some (alternation N true 0 calls) ∧
    ((∀ c ∈ calls, ∀ m t' r', c ≠ DriverCall.start m t' r') →
      ∃ m, ((s.start asioMessage t r).2.1.run calls).map (fun x => x.2.filterMap id)
        = some ((List.range m).map (fun j => j % 2))) := by
  obtain ⟨_, _, _, heq⟩ := CFlexASIO.start_ok hstart
  have hrun : ∃ s', (s.start asioMessage t r).2.1.run calls
      = some (s', alternation N true 0 calls) := by
    apply CFlexASIO.run_alternation N calls _ true 0
    · exact hok.of_same_set (by rw [heq]) (by rw [heq]) (by rw [heq]) (by rw [heq])
        (by intro b _; rw [heq])
    · rw [heq]; exact hN
    · rw [heq]; exact hcb
    · rw [heq]
    · intro _
      exact ⟨by rw [heq], CFlexASIO.start_HostReady hstart hcb hhost⟩
    · intro c hc
      exact (hcalls c hc).of_same_counts (by rw [heq]) (by rw [heq]) (by rw [heq])
  obtain ⟨s', hs'⟩ := hrun
  refine ⟨by rw [hs', Option.map_some'], ?_⟩
  intro hno
  obtain ⟨m, hm⟩ := alternation_consecutive N calls true 0 hno
  refine ⟨m, ?_⟩
  rw [hs']
  simp only [Option.map_some', hm, Nat.zero_add]

/-- The alternation at work on the stereo session with period length 4: three transfers
interleaved with a short callback, then `stop`, a callback outside Streaming, a new `start`
and two more transfers hand over 0, 1, 0 and then, starting afresh, 0, 1. -/
theorem CFlexASIO.half_index_alternates_example :
    (((stereoAllocated.start noMessage 0 paNoError).2.1.run
        [period4, shortPeriod, period4, period4, DriverCall.stop paNoError, period4,
         DriverCall.start noMessage 0 paNoError, period4, period4]).map (fun x => x.2)
      = some [some 0, none, some 1, some 0, none, none, none, some 0, some 1]) ∧
    ∃ m, ((stereoAllocated.start noMessage 0 paNoError).2.1.run
        [period4, shortPeriod, period4, period4]).map (fun x => x.2.filterMap id)
      = some ((List.range m).map (fun j => j % 2)) :=
  ⟨( CFlexASIO.half_index_alternates stereoAllocated noMessage 0 paNoError 4
      [period4, shortPeriod, period4, period4, DriverCall.stop paNoError, period4,
       DriverCall.start noMessage 0 paNoError, period4, period4]
      (by decide) (by decide) (by decide) (by decide) (by decide) (by decide)).1,
   ( CFlexASIO.half_index_alternates stereoAllocated noMessage 0 paNoError 4
      [period4, shortPeriod, period4, period4]
      (by decide) (by decide) (by decide) (by decide) (by decide) (by decide)).2
      (by intro c hc m t r; simp only [List.mem_cons, List.mem_singleton, List.not_mem_nil,
            or_false] at hc
          rcases hc with h | h | h | h <;> subst h <;> simp [period4, shortPeriod])⟩

/-- C2: the alternation is lost on a session the driver operations reach.  On the stereo
session a `createBuffers` with the bindings (input, 0) and (input, 5) is refused at the
second binding and leaves the first one recorded, its two slots in the block the refused
call allocated and released.  The next `createBuffers`, with the four bindings and period
length 4, is accepted and records its bindings behind the stale one; `start` returns
`ASE_OK`.  The first callback with frame count 4 then copies through the stale binding into
the released block before it reaches the notification: it has no defined behaviour, and no
half-index is handed over, where the claim has 0 and then 1.  Without the refused call the
same two callbacks hand over 0, 1. -/
theorem C2_alternation_lost_after_refused_createBuffers :
    staleStreaming.Reachable ∧
    (stereoSession.createBuffers [binding true 0, binding true 5] 4 (some plainHost)
        openAlways).map (fun r => r.result) = some ASIOError.ASE_InvalidMode ∧
    (staleRefused.createBuffers stereoBindings 4 (some plainHost) openAlways).map
        (fun r => r.result) = some ASIOError.ASE_OK ∧
    (staleAllocated.start noMessage 0 paNoError).1 = ASIOError.ASE_OK ∧
    staleStreaming.run [period4] = none ∧
    staleStreaming.run [period4, period4] = none ∧
    ((stereoAllocated.start noMessage 0 paNoError).2.1.run [period4, period4]).map
        (fun x => x.2) = some [some 0, some 1] :=
  ⟨staleStreaming_reachable, by decide, by decide, by decide, by decide, by decide, by decide⟩

/-! ## C3: the sample count -/

/-- The sample count on a BufferSet every recorded binding of which points into its block
(`BufferSetOk`, `StreamingOk`): `start()` resets the sample count to 0; after `start()` and
any number `n` of callbacks with frame count `N` (the period length) the sample count is
`n * N`; while Streaming every callback with frame count `N` adds exactly `N` to it; and no
callback that returns, in any state and with any frame count, decreases it. -/
theorem CFlexASIO.sample_count_spec (s : CFlexASIO) (asioMessage : Int → Int → Int) (t : Int)
    (r : PaError) (N : Nat)
    (hok : s.BufferSetOk) (hN : s.buffers.map (fun b => b.buffer_size) = some N)
    (hcb : s.callbacks.bufferSwitch = true)
    (hhost : HostConsistent s.callbacks asioMessage)
    (hstart : (s.start asioMessage t r).1 = ASIOError.ASE_OK) :
    (s.start asioMessage t r).2.1.position = 0 ∧
    (∀ calls : List DriverCall,
      (∀ c ∈ calls, c.frames = some N) → (∀ c ∈ calls, s.CallOk N c) →
      ∃ s' obs, (s.start asioMessage t r).2.1.run calls = some (s', obs) ∧
        s'.position = ((calls.length * N : Nat) : Int)) ∧
    (∀ (s1 : CFlexASIO) (input output : List (List Sample)) (t1 : Int),
      s1.StreamingOk N → s1.ArraysOk input output N →
      ∃ r1, s1.StreamCallback input output N t1 = some r1 ∧
        r1.state.position = s1.position + N) ∧
    (∀ (s1 : CFlexASIO) (input output : List (List Sample)) (n : Nat) (t1 : Int)
      (r1 : StreamCallbackResult),
      s1.StreamCallback input output n t1 = some r1 → s1.position ≤ r1.state.position) := by
  obtain ⟨_, _, _, heq⟩ := CFlexASIO.start_ok hstart
  have hS : (s.start asioMessage t r).2.1.StreamingOk N := by
    refine ⟨by rw [heq], ?_, by rw [heq]; exact Nat.zero_lt_two,
      CFlexASIO.start_HostReady hstart hcb hhost, by rw [heq]; exact hN⟩
    exact hok.of_same_set (by rw [heq]) (by rw [heq]) (by rw [heq]) (by rw [heq])
      (by intro b _; rw [heq])
  have hpos : (s.start asioMessage t r).2.1.position = 0 := by rw [heq]
  refine ⟨hpos, ?_, ?_, ?_⟩
  · intro calls hfr hcalls
    obtain ⟨s', obs, hrun, hp, _⟩ := CFlexASIO.run_transfers N calls _ hS hfr
      (fun c hc => (hcalls c hc).of_same_counts (by rw [heq]) (by rw [heq]) (by rw [heq]))
    exact ⟨s', obs, hrun, by rw [hp, hpos, Int.zero_add]⟩
  · intro s1 input output t1 hS1 ha
    obtain ⟨b, blob, blob', out', _, _, _, _, _, _, _, hrun, _⟩ :=
      CFlexASIO.StreamCallback_spec s1 input output N t1 hS1 ha
    exact ⟨_, hrun, rfl⟩
  · intro s1 input output n t1 r1 h
    rcases CFlexASIO.StreamCallback_cases h with ⟨h1, _⟩ | ⟨_, _, heap, out, call, h1, _⟩
    · rw [h1]
    · rw [h1]
      show s1.position ≤ s1.position + (n : Int)
      omega

set_option maxRecDepth 100000 in
/-- The sample count on the specification's scenario: two inputs and two outputs at 48000 Hz, the four
bindings, period length 256, `start`, then ten periods of 256 frames: the sample count
is 2560. -/
theorem CFlexASIO.sample_count_example :
    ∃ s' obs, (stereoAllocated256.start noMessage 0 paNoError).2.1.run
        (List.replicate 10 period256) = some (s', obs) ∧ s'.position = 2560 :=
  ( CFlexASIO.sample_count_spec stereoAllocated256 noMessage 0 paNoError 256
    ( CFlexASIO.afterCreateBuffers_BufferSetOk stereoSession stereoBindings 256
      (by decide) (by decide))
    (by decide) (by decide) (by decide) (by decide)).2.1
    (List.replicate 10 period256) (by decide) (by decide)

/-- C3: a streaming session on which a callback with the period length does not add the
period length to the sample count.  The session is the one reached by a `createBuffers`
refused at its second binding (input, 5), an accepted `createBuffers` with the four
bindings and period length 4, and `start`: it is streaming with period length 4 and sample
count 0.  A callback with frame count 4 copies through the binding the refused call left
recorded, into a released block, before the line that adds to the count: the call has no
defined behaviour and leaves no sample count, where the claim has 4.  Without the refused
call the same callback leaves the count 4. -/
theorem C3_sample_count_lost_after_refused_createBuffers :
    staleStreaming.Reachable ∧
    staleStreaming.started = true ∧
    staleStreaming.buffers.map (fun b => b.buffer_size) = some 4 ∧
    staleStreaming.position = 0 ∧
    (staleStreaming.StreamCallback [[1, 2, 3, 4], [5, 6, 7, 8]] [[9, 9, 9, 9], [9, 9, 9, 9]]
        4 0).map (fun r => r.state.position) = none ∧
    ((stereoAllocated.start noMessage 0 paNoError).2.1.StreamCallback
        [[1, 2, 3, 4], [5, 6, 7, 8]] [[9, 9, 9, 9], [9, 9, 9, 9]] 4 0).map
        (fun r => r.state.position) = some 4 :=
  ⟨staleStreaming_reachable, by decide, by decide, by decide, by decide, by decide⟩

/-! ## C4: what the backend's output arrays hold at the notification -/

/-- C4, counterexample to the claim as stated: in `doubleBound` output channel 0 is bound
twice.  In a transfer of one period the first binding of the channel (its slot of the
engine-owned half 0 is at offset 0 of block 0) has `[1, 1]` in that slot when the host
notification is reached, but the backend's output array of channel 0 holds `[2, 2]`, the
samples of the second binding's slot. -/
theorem C4_counterexample_double_binding :
    doubleBound.StreamingOk 2 ∧ doubleBound.ArraysOk [[0, 0], [0, 0]] [[9, 9], [9, 9]] 2 ∧
    doubleBound.our_buffer_index = 0 ∧
    doubleBound.buffers_info[0]? = some ⟨false, 0, ⟨0, 0⟩, ⟨0, 4⟩⟩ ∧
    ((doubleBound.StreamCallback [[0, 0], [0, 0]] [[9, 9], [9, 9]] 2 0).bind
        fun r => r.handoff.map fun h => (h.state.heap.read ⟨0, 0⟩ 2, h.output[0]?))
      = some (some [1, 1], some [2, 2]) := by
  decide

/-- C4 as amended: in every callback that performs a transfer on a well-formed BufferSet
(Streaming, frame count equal to the period length), when the host notification is reached
each backend output array of a channel index `c` below the output channel count holds in
its first `n` samples: zeros if no output binding names channel `c`, and otherwise exactly
the samples of the engine-owned half's slot of the last binding of channel `c` in the
binding list (the binding of `c`, when the channel is bound once).  That slot holds at the
notification what it held before the call, so no output sample comes from an input
array. -/
theorem C4_output_arrays (s : CFlexASIO) (input output : List (List Sample)) (n : Nat)
    (t : Int) (hs : s.StreamingOk n) (ha : s.ArraysOk input output n) :
    ∃ r h, s.StreamCallback input output n t = some r ∧ r.handoff = some h ∧
      ∀ c : Nat, (c : Int) < s.output_channel_count →
        ((∀ bi ∈ s.buffers_info, bi.isInput = false → bi.channelNum ≠ c) →
          ∃ arr, h.output[c]? = some arr ∧ arr.take n = List.replicate n 0) ∧
        (∀ (i : Nat) (bi : ASIOBufferInfo), s.buffers_info[i]? = some bi →
          bi.isInput = false → bi.channelNum = c →
          (∀ (i' : Nat) (bi' : ASIOBufferInfo), i < i' → s.buffers_info[i']? = some bi' →
            bi'.isInput = false → bi'.channelNum ≠ c) →
          ∃ p arr, bi.buffers s.our_buffer_index = some p ∧ h.output[c]? = some arr ∧
            h.state.heap.read p n = some (arr.take n) ∧
            s.heap.read p n = some (arr.take n)) := by
  obtain ⟨b, blob, blob', out', hb, hbs, hcc, hblk, hlen, hl', hol, hrun, hframe, hinp, ho2, ho3⟩ :=
    CFlexASIO.StreamCallback_spec s input output n t hs ha
  obtain ⟨hstarted, hok, hidx, hhost, hperiod⟩ := hs
  have hnn : ∀ bi ∈ s.buffers_info, 0 ≤ bi.channelNum := fun bi hbi => (hok.inRange hbi).1
  refine ⟨_, _, hrun, rfl, ?_⟩
  intro c hc
  constructor
  · intro hnone
    apply ho2 c (by omega)
    intro bi hbi hio heq
    apply hnone bi hbi hio
    have := hnn bi hbi
    omega
  · intro i bi hi hio hch hlast
    have hbi : bi ∈ s.buffers_info := List.mem_iff_getElem?.mpr ⟨i, hi⟩
    obtain ⟨arr, data, harr, hread, htake⟩ := ho3 c i bi hi hio (by omega) (by
      intro i' bi' hlt hi' hio' heq
      apply hlast i' bi' hlt hi' hio'
      have := hnn bi' (List.mem_iff_getElem?.mpr ⟨i', hi'⟩)
      omega)
    have hp := hok.pointer hb hi _ hidx
    have hilt : i < s.buffers_info.length := by
      rcases List.getElem?_eq_some.mp hi with ⟨hlt, _⟩
      exact hlt
    refine ⟨_, arr, hp, harr, ?_, ?_⟩
    · show Heap.read (s.heap.set b.buffers (some blob')) (b.getBuffer s.our_buffer_index i) n = _
      rw [ CFlexASIO.getBuffer_offset, Heap.read_block (Heap.getElem?_set_block hblk), hcc, hbs,
        htake, ← hread]
      have e : s.our_buffer_index * s.buffers_info.length * n + i * n
          = (s.our_buffer_index * s.buffers_info.length + i) * n := by rw [Nat.add_mul]
      rw [e]
      apply frame_slot hl' hframe
      · rw [← e, hlen]
        have h2 : s.our_buffer_index = 0 ∨ s.our_buffer_index = 1 := by omega
        have : i * n + n ≤ s.buffers_info.length * n := by
          have := Nat.mul_le_mul_right n (Nat.succ_le_of_lt hilt)
          rw [Nat.succ_mul] at this
          exact this
        rcases h2 with h2 | h2 <;> rw [h2] <;> simp only [Nat.two_mul, Nat.add_mul,
          Nat.zero_mul, Nat.one_mul] <;> omega
      · intro i' bi' hi' hio' heq
        have : i = i' := by omega
        subst this
        rw [hi] at hi'
        injection hi' with hi'
        subst hi'
        rw [hio] at hio'
        cases hio'
    · rw [ CFlexASIO.getBuffer_offset, Heap.read_block hblk, hcc, hbs, htake, ← hread]

/-- C4 (amended) on the stereo session: period length 4, all four channels bound, the host
has filled the output slots of half 0. -/
theorem C4_output_arrays_witness :
    ∃ r h, stereoStreaming.StreamCallback [[1, 2, 3, 4], [5, 6, 7, 8]]
        [[9, 9, 9, 9], [9, 9, 9, 9]] 4 0 = some r ∧ r.handoff = some h ∧
      ∀ c : Nat, (c : Int) < stereoStreaming.output_channel_count →
        ((∀ bi ∈ stereoStreaming.buffers_info, bi.isInput = false → bi.channelNum ≠ c) →
          ∃ arr, h.output[c]? = some arr ∧ arr.take 4 = List.replicate 4 0) ∧
        (∀ (i : Nat) (bi : ASIOBufferInfo), stereoStreaming.buffers_info[i]? = some bi →
          bi.isInput = false → bi.channelNum = c →
          (∀ (i' : Nat) (bi' : ASIOBufferInfo), i < i' →
            stereoStreaming.buffers_info[i']? = some bi' →
            bi'.isInput = false → bi'.channelNum ≠ c) →
          ∃ p arr, bi.buffers stereoStreaming.our_buffer_index = some p ∧
            h.output[c]? = some arr ∧
            h.state.heap.read p 4 = some (arr.take 4) ∧
            stereoStreaming.heap.read p 4 = some (arr.take 4)) :=
  C4_output_arrays stereoStreaming [[1, 2, 3, 4], [5, 6, 7, 8]] [[9, 9, 9, 9], [9, 9, 9, 9]] 4 0
    (by decide) (by decide)


/-! ## C5: what the engine-owned half holds at the notification -/

/-- The input slots on a BufferSet every recorded binding of which points into its block
(`StreamingOk`): in every callback that performs a transfer (Streaming, frame count equal
to the period length), when the host notification is reached the engine-owned half's slot
of every input-direction binding holds exactly the first `n` (frame count) samples of the
backend's input array of the bound channel index. -/
theorem CFlexASIO.input_slots_spec (s : CFlexASIO) (input output : List (List Sample)) (n : Nat)
    (t : Int) (hs : s.StreamingOk n) (ha : s.ArraysOk input output n) :
    ∃ r h, s.StreamCallback input output n t = some r ∧ r.handoff = some h ∧
      ∀ bi ∈ s.buffers_info, bi.isInput = true →
        ∃ p src, bi.buffers s.our_buffer_index = some p ∧ 0 ≤ bi.channelNum ∧
          input[bi.channelNum.toNat]? = some src ∧ n ≤ src.length ∧
          h.state.heap.read p n = some (src.take n) := by
  obtain ⟨b, blob, blob', out', hb, hbs, hcc, hblk, hlen, hl', hol, hrun, hframe, hinp, ho2, ho3⟩ :=
    CFlexASIO.StreamCallback_spec s input output n t hs ha
  obtain ⟨hstarted, hok, hidx, hhost, hperiod⟩ := hs
  refine ⟨_, _, hrun, rfl, ?_⟩
  intro bi hbi hio
  obtain ⟨i, hi⟩ := List.mem_iff_getElem?.mp hbi
  obtain ⟨src, hsrc, hread⟩ := hinp i bi hi hio
  have hrange := hok.inRange hbi
  rw [if_pos hio] at hrange
  have hsl : n ≤ src.length := by
    rcases List.getElem?_eq_some.mp hsrc with ⟨hlt, hget⟩
    rw [← hget]
    exact ha.2.1 _ (List.getElem_mem hlt)
  refine ⟨_, src, hok.pointer hb hi _ hidx, hrange.1, hsrc, hsl, ?_⟩
  show Heap.read (s.heap.set b.buffers (some blob')) (b.getBuffer s.our_buffer_index i) n = _
  rw [ CFlexASIO.getBuffer_offset, Heap.read_block (Heap.getElem?_set_block hblk), hcc, hbs]
  exact hread

/-- The input slots on the stereo session: one period of four frames with inputs `[1, 2, 3, 4]` and
`[5, 6, 7, 8]`. -/
theorem CFlexASIO.input_slots_example :
    ∃ r h, stereoStreaming.StreamCallback [[1, 2, 3, 4], [5, 6, 7, 8]]
        [[9, 9, 9, 9], [9, 9, 9, 9]] 4 0 = some r ∧ r.handoff = some h ∧
      ∀ bi ∈ stereoStreaming.buffers_info, bi.isInput = true →
        ∃ p src, bi.buffers stereoStreaming.our_buffer_index = some p ∧ 0 ≤ bi.channelNum ∧
          [[1, 2, 3, 4], [5, 6, 7, 8]][bi.channelNum.toNat]? = some src ∧ 4 ≤ src.length ∧
          h.state.heap.read p 4 = some (src.take 4) :=
  CFlexASIO.input_slots_spec stereoStreaming [[1, 2, 3, 4], [5, 6, 7, 8]] [[9, 9, 9, 9], [9, 9, 9, 9]] 4 0
    (by decide) (by decide)

/-- C5: a transfer in which an input-direction binding has no slot to hold the samples.
On the session reached by a `createBuffers` refused at its second binding (input, 5), an
accepted `createBuffers` with the four bindings and period length 4, and `start`, the first
recorded binding is the input binding (input, 0) of the refused call.  Its slot of the
engine-owned half 0 lies in block 0, which the refused call released, while the BufferSet
is block 1: the slot cannot be read, the copy of the four input samples into it has no
defined behaviour, and the callback, Streaming and with the period length as frame count,
does not reach the host notification. -/
theorem C5_stale_input_binding_after_refused_createBuffers :
    staleStreaming.Reachable ∧
    staleStreaming.started = true ∧
    staleStreaming.buffers.map (fun b => (b.buffers, b.buffer_size)) = some (1, 4) ∧
    staleStreaming.our_buffer_index = 0 ∧
    staleStreaming.buffers_info.head?.map (fun bi => (bi.isInput, bi.channelNum, bi.buffers 0))
      = some (true, 0, some ⟨0, 0⟩) ∧
    staleStreaming.heap[0]? = some none ∧
    staleStreaming.heap.read ⟨0, 0⟩ 4 = none ∧
    staleStreaming.heap.write ⟨0, 0⟩ [1, 2, 3, 4] = none ∧
    staleStreaming.StreamCallback [[1, 2, 3, 4], [5, 6, 7, 8]] [[9, 9, 9, 9], [9, 9, 9, 9]]
        4 0 = none :=
  ⟨staleStreaming_reachable, by decide, by decide, by decide, by decide, by decide, by decide,
    by decide, by decide⟩

/-! ## C6: the half the host is holding -/

/-- The other half on a BufferSet every recorded binding of which points into its block
(`StreamingOk`): in every callback that performs a transfer, with current half-index `h`,
the notification hands `h` to the host while the half-index still is `h`, the half-index
is `1 - h` when the callback returns, and every slot of the other half `1 - h` holds at the
notification (and on return) what it held before the call.  Nothing is read from the other
half either: a session that differs only in its sample memory and whose slots of half `h`
read the same hands over the same notification, the same output arrays and the same slots
of half `h`. -/
theorem CFlexASIO.other_half_untouched (s : CFlexASIO) (input output : List (List Sample)) (n : Nat)
    (t : Int) (hs : s.StreamingOk n) (ha : s.ArraysOk input output n) :
    ∃ r h, s.StreamCallback input output n t = some r ∧ r.handoff = some h ∧
      h.call.halfIndex = some s.our_buffer_index ∧
      h.state.our_buffer_index = s.our_buffer_index ∧
      r.state.our_buffer_index = 1 - s.our_buffer_index ∧
      (∀ bi ∈ s.buffers_info,
        ∃ p data, bi.buffers (1 - s.our_buffer_index) = some p ∧
          s.heap.read p n = some data ∧ h.state.heap.read p n = some data ∧
          r.state.heap.read p n = some data) ∧
      ∀ s2 : CFlexASIO, s2.StreamingOk n → { s2 with heap := s.heap } = s →
        (∀ bi ∈ s.buffers_info, ∀ p, bi.buffers s.our_buffer_index = some p →
          s2.heap.read p n = s.heap.read p n) →
        ∃ r2 h2, s2.StreamCallback input output n t = some r2 ∧ r2.handoff = some h2 ∧
          h2.call = h.call ∧ h2.output = h.output ∧
          ∀ bi ∈ s.buffers_info, ∀ p, bi.buffers s.our_buffer_index = some p →
            h2.state.heap.read p n = h.state.heap.read p n := by
  obtain ⟨b, blob, blob', out', hb, hbs, hcc, hblk, hlen, hl', hol, hrun, hframe, hinp, ho2, ho3⟩ :=
    CFlexASIO.StreamCallback_spec s input output n t hs ha
  have hs' := hs
  obtain ⟨hstarted, hok, hidx, hhost, hperiod⟩ := hs
  have h2 : s.our_buffer_index = 0 ∨ s.our_buffer_index = 1 := by omega
  refine ⟨_, _, hrun, rfl, CFlexASIO.notification_halfIndex s, rfl, ?_, ?_, ?_⟩
  · show (s.our_buffer_index + 1) % 2 = 1 - s.our_buffer_index
    omega
  rotate_left
  · intro s2 hs2 hsame hagree
    obtain ⟨r, r2, h, h2, e1, e2, e3, e4, e5, e6, _, e8⟩ :=
      CFlexASIO.StreamCallback_reads_own_half s s2 input output n t hs' hs2 ha hsame hagree
    rw [hrun] at e1
    injection e1 with e1
    subst e1
    injection e3 with e3
    subst e3
    exact ⟨r2, h2, e2, e4, e5, e6, e8⟩
  · intro bi hbi
    obtain ⟨i, hi⟩ := List.mem_iff_getElem?.mp hbi
    have hilt : i < s.buffers_info.length := by
      rcases List.getElem?_eq_some.mp hi with ⟨hlt, _⟩
      exact hlt
    have hslot : i * n + n ≤ s.buffers_info.length * n := by
      have := Nat.mul_le_mul_right n (Nat.succ_le_of_lt hilt)
      rw [Nat.succ_mul] at this
      exact this
    have hbound : (1 - s.our_buffer_index) * s.buffers_info.length * n + i * n + n
        ≤ blob.length := by
      rw [hlen]
      rcases h2 with h2 | h2 <;> rw [h2] <;>
        simp only [Nat.two_mul, Nat.add_mul, Nat.zero_mul, Nat.one_mul, Nat.sub_zero,
          Nat.sub_self] <;> omega
    obtain ⟨data, hdata⟩ := readSamples_eq_some blob
      ((1 - s.our_buffer_index) * s.buffers_info.length * n + i * n) n hbound
    have hsame : readSamples blob'
        ((1 - s.our_buffer_index) * s.buffers_info.length * n + i * n) n = some data := by
      rw [← hdata]
      have e : (1 - s.our_buffer_index) * s.buffers_info.length * n + i * n
          = ((1 - s.our_buffer_index) * s.buffers_info.length + i) * n := by rw [Nat.add_mul]
      rw [e]
      apply frame_slot hl' hframe
      · rw [← e]; exact hbound
      · intro i' bi' hi' _ heq
        have hi'lt : i' < s.buffers_info.length := by
          rcases List.getElem?_eq_some.mp hi' with ⟨hlt, _⟩
          exact hlt
        rcases h2 with h2 | h2 <;> rw [h2] at heq <;>
          simp only [Nat.zero_mul, Nat.one_mul, Nat.sub_zero, Nat.sub_self] at heq <;> omega
    have hp := hok.pointer hb hi (1 - s.our_buffer_index) (by omega)
    refine ⟨_, data, hp, ?_, ?_, ?_⟩
    · rw [ CFlexASIO.getBuffer_offset, Heap.read_block hblk, hcc, hbs]
      exact hdata
    · show Heap.read (s.heap.set b.buffers (some blob')) _ n = _
      rw [ CFlexASIO.getBuffer_offset, Heap.read_block (Heap.getElem?_set_block hblk), hcc, hbs]
      exact hsame
    · show Heap.read (s.heap.set b.buffers (some blob')) _ n = _
      rw [ CFlexASIO.getBuffer_offset, Heap.read_block (Heap.getElem?_set_block hblk), hcc, hbs]
      exact hsame

/-- The other half on the stereo session: the transfer works on half 0 and leaves half 1, where the
host has stored `[31, 32, 33, 34]`, as it was. -/
theorem CFlexASIO.other_half_untouched_example :
    ∃ r h, stereoStreaming.StreamCallback [[1, 2, 3, 4], [5, 6, 7, 8]]
        [[9, 9, 9, 9], [9, 9, 9, 9]] 4 0 = some r ∧ r.handoff = some h ∧
      h.call.halfIndex = some stereoStreaming.our_buffer_index ∧
      h.state.our_buffer_index = stereoStreaming.our_buffer_index ∧
      r.state.our_buffer_index = 1 - stereoStreaming.our_buffer_index ∧
      (∀ bi ∈ stereoStreaming.buffers_info,
        ∃ p data, bi.buffers (1 - stereoStreaming.our_buffer_index) = some p ∧
          stereoStreaming.heap.read p 4 = some data ∧ h.state.heap.read p 4 = some data ∧
          r.state.heap.read p 4 = some data) ∧
      ∀ s2 : CFlexASIO, s2.StreamingOk 4 → { s2 with heap := stereoStreaming.heap } = stereoStreaming →
        (∀ bi ∈ stereoStreaming.buffers_info, ∀ p,
          bi.buffers stereoStreaming.our_buffer_index = some p →
          s2.heap.read p 4 = stereoStreaming.heap.read p 4) →
        ∃ r2 h2, s2.StreamCallback [[1, 2, 3, 4], [5, 6, 7, 8]]
            [[9, 9, 9, 9], [9, 9, 9, 9]] 4 0 = some r2 ∧ r2.handoff = some h2 ∧
          h2.call = h.call ∧ h2.output = h.output ∧
          ∀ bi ∈ stereoStreaming.buffers_info, ∀ p,
            bi.buffers stereoStreaming.our_buffer_index = some p →
            h2.state.heap.read p 4 = h.state.heap.read p 4 :=
  CFlexASIO.other_half_untouched stereoStreaming [[1, 2, 3, 4], [5, 6, 7, 8]]
    [[9, 9, 9, 9], [9, 9, 9, 9]] 4 0 (by decide) (by decide)

/-- C6: a transfer in which the engine goes outside the half it owns.  On the session
reached by a `createBuffers` refused at its second binding (input, 5), an accepted
`createBuffers` with the four bindings and period length 4, and `start`, five bindings are
recorded against the four slots per half of the BufferSet (block 1, half 0 at offsets 0 to
15 and half 1 at offsets 16 to 31).  With half-index 0 the engine copies through the
pointers recorded for half 0: those of the last four bindings are the slots of half 0,
that of the first, left by the refused call, is offset 0 of the released block 0, no slot
of either half.  The callback has no defined behaviour before the notification, so nothing
is established about the contents of half 1 at the notification, nor about the flip of
the half-index. -/
theorem C6_access_outside_half_after_refused_createBuffers :
    staleStreaming.Reachable ∧
    staleStreaming.our_buffer_index = 0 ∧
    staleStreaming.buffers.map (fun b => (b.buffers, b.channel_count, b.buffer_size))
      = some (1, 4, 4) ∧
    staleStreaming.buffers_info.map (fun bi => bi.buffers 0)
      = [some ⟨0, 0⟩, some ⟨1, 0⟩, some ⟨1, 4⟩, some ⟨1, 8⟩, some ⟨1, 12⟩] ∧
    staleStreaming.heap.map (fun blk => blk.map List.length) = [none, some 32] ∧
    (staleStreaming.StreamCallback [[1, 2, 3, 4], [5, 6, 7, 8]] [[9, 9, 9, 9], [9, 9, 9, 9]]
        4 0).map (fun r => (r.handoff.map (fun h => h.call.halfIndex),
          r.state.our_buffer_index)) = none :=
  ⟨staleStreaming_reachable, by decide, by decide, by decide, by decide, by decide⟩

/-! ## C7: callbacks that are skipped -/

/-- C7: a callback that arrives while the session is not Streaming, or whose frame count
differs from the period length of the BufferSet, is a no-op: the driver state (sample
memory of both halves, half-index and sample count included) and the backend's output
arrays are returned unchanged, no host notification is issued, and the value returned to
the backend is `paContinue`. -/
theorem C7_skipped_callback_is_noop (s : CFlexASIO) (input output : List (List Sample))
    (n : Nat) (t : Int)
    (h : s.started = false ∨ ∃ b, s.buffers = some b ∧ n ≠ b.buffer_size) :
    s.StreamCallback input output n t
      = some { ret := paContinue, state := s, output := output, handoff := none } :=
  CFlexASIO.StreamCallback_skip s input output n t h

/-- C7 on the stereo session: a callback before `start`, and a callback of three frames
while Streaming with period length 4. -/
theorem C7_skipped_callback_is_noop_witness :
    stereoAllocated.StreamCallback [[1, 2, 3, 4], [5, 6, 7, 8]] [[9, 9, 9, 9], [9, 9, 9, 9]] 4 0
      = some { ret := paContinue, state := stereoAllocated,
               output := [[9, 9, 9, 9], [9, 9, 9, 9]], handoff := none } ∧
    stereoStreaming.StreamCallback [[1, 2, 3], [5, 6, 7]] [[9, 9, 9], [9, 9, 9]] 3 0
      = some { ret := paContinue, state := stereoStreaming,
               output := [[9, 9, 9], [9, 9, 9]], handoff := none } :=
  ⟨C7_skipped_callback_is_noop stereoAllocated _ _ 4 0 (Or.inl (by decide)),
   C7_skipped_callback_is_noop stereoStreaming _ _ 3 0
     (Or.inr ⟨⟨2, 4, 4, 0⟩, by decide, by decide⟩)⟩


/-! ## C8: `createBuffers` while a BufferSet exists -/

/-- C8: if a BufferSet already exists, `createBuffers` returns `ASE_InvalidMode` whatever
its arguments are and whatever the backend would answer, and it leaves the whole driver
state (BufferSet, bindings, stream handle, stored callbacks, sample rate, Streaming flag)
and the caller's binding array unchanged. -/
theorem C8_second_createBuffers_rejected (s : CFlexASIO) (bufferInfos : List ASIOBufferInfo)
    (bufferSize : Int) (callbacks : Option ASIOCallbacks)
    (Pa_OpenStream : PaOpenStreamArgs → PaError × Nat) (h : s.buffers.isSome = true) :
    s.createBuffers bufferInfos bufferSize callbacks Pa_OpenStream
      = some { result := ASIOError.ASE_InvalidMode, state := s, bufferInfos := bufferInfos } := by
  unfold CFlexASIO.createBuffers
  simp only [h, if_true]
  split
  · rfl
  · split <;> rfl

/-- C8 on the stereo session after a first `createBuffers`: a second call with perfectly
valid arguments is rejected and changes nothing. -/
theorem C8_second_createBuffers_rejected_witness :
    stereoAllocated.createBuffers stereoBindings 4 (some plainHost) openAlways
      = some { result := ASIOError.ASE_InvalidMode, state := stereoAllocated,
               bufferInfos := stereoBindings } :=
  C8_second_createBuffers_rejected stereoAllocated stereoBindings 4 (some plainHost) openAlways
    (by decide)

/-! ## C9: `disposeBuffers` out of order -/

/-- C9: `disposeBuffers` called while Streaming returns `ASE_InvalidMode` and leaves the
whole driver state (stream handle, BufferSet, bindings, Streaming flag) unchanged; it
returns `ASE_OK` exactly when a BufferSet exists, the session is not Streaming and the
backend closes the stream; before `createBuffers` (no BufferSet) it fails without a
change, and after a successful `disposeBuffers` a second one fails. -/
theorem C9_disposeBuffers_out_of_order (s : CFlexASIO) (Pa_CloseStream : PaError) :
    (s.started = true → s.disposeBuffers Pa_CloseStream = (ASIOError.ASE_InvalidMode, s)) ∧
    ((s.disposeBuffers Pa_CloseStream).1 = ASIOError.ASE_OK ↔
      (s.buffers.isSome = true ∧ s.started = false ∧ Pa_CloseStream = paNoError)) ∧
    (s.buffers = none → s.disposeBuffers Pa_CloseStream = (ASIOError.ASE_InvalidMode, s)) ∧
    ((s.disposeBuffers Pa_CloseStream).1 = ASIOError.ASE_OK →
      ∀ again : PaError,
        (s.disposeBuffers Pa_CloseStream).2.disposeBuffers again
          = (ASIOError.ASE_InvalidMode, (s.disposeBuffers Pa_CloseStream).2)) := by
  unfold CFlexASIO.disposeBuffers
  cases hb : s.buffers <;> cases hs : s.started <;>
    by_cases hr : Pa_CloseStream = paNoError <;> simp [hr, CFlexASIO.disposeBuffers]


/-! ## C10: when `createBuffers` succeeds -/

/-- The exits of `createBuffers`, in terms of the test the function itself makes for the
session state (line 435: a device pointer is set, `negotiated`), which is not the record of
a successful `init`.  On a session whose API descriptor is resolved whenever a device is,
`createBuffers` returns a result code, and that code is `ASE_OK` if and only if at least
one binding is requested, the period length is at least 1, a callback table with
`bufferSwitch` is supplied, a device pointer is set, no BufferSet exists, every requested
binding has `0 ≤ channelNum <` the channel count of its direction, and the backend opens
the stream.  In every other case it returns `ASE_InvalidMode` or `ASE_HWMalfunction` and no
BufferSet exists afterwards that did not exist before; on `ASE_OK` one exists. -/
theorem CFlexASIO.createBuffers_ok_iff (s : CFlexASIO) (bufferInfos : List ASIOBufferInfo)
    (bufferSize : Int) (callbacks : Option ASIOCallbacks)
    (Pa_OpenStream : PaOpenStreamArgs → PaError × Nat)
    (hapi : s.negotiated → s.pa_api_info.isSome = true) :
    ∃ r, s.createBuffers bufferInfos bufferSize callbacks Pa_OpenStream = some r ∧
      (r.result = ASIOError.ASE_OK ↔
        (1 ≤ bufferInfos.length ∧ 1 ≤ bufferSize ∧
         (∃ cb, callbacks = some cb ∧ cb.bufferSwitch = true) ∧
         s.negotiated ∧ s.buffers = none ∧
         (∀ bi ∈ bufferInfos, 0 ≤ bi.channelNum ∧
            bi.channelNum <
              (if bi.isInput then s.input_channel_count else s.output_channel_count)) ∧
         ∃ args,
           s.OpenStream (if s.sample_rate = 0 then 44100 else s.sample_rate) bufferSize.toNat
             = some args ∧ (Pa_OpenStream args).1 = paNoError)) ∧
      (r.result = ASIOError.ASE_OK ∨ r.result = ASIOError.ASE_InvalidMode ∨
        r.result = ASIOError.ASE_HWMalfunction) ∧
      (r.result ≠ ASIOError.ASE_OK → r.state.buffers = s.buffers) ∧
      (r.result = ASIOError.ASE_OK → r.state.buffers.isSome = true) := by
  by_cases hg : (1 ≤ bufferInfos.length ∧ 1 ≤ bufferSize ∧
      (∃ cb, callbacks = some cb ∧ cb.bufferSwitch = true) ∧ s.negotiated ∧ s.buffers = none)
  · obtain ⟨g1, g2, ⟨cb, g3, g3'⟩, g4, g5⟩ := hg
    obtain ⟨args, hargs⟩ := CFlexASIO.OpenStream_isSome hapi
      (if s.sample_rate = 0 then 44100 else s.sample_rate) bufferSize.toNat
    have hloop := CFlexASIO.createBuffers.loop_completes s
      (Buffers.create s.heap 2 (bufferInfos.length : Int).toNat bufferSize.toNat).2
      bufferInfos 0 s.buffers_info
    subst g3
    rw [ CFlexASIO.createBuffers_past_guards s bufferInfos bufferSize cb Pa_OpenStream g1 g2 g3'
      g4 g5]
    simp only [hargs]
    by_cases hr : ( CFlexASIO.createBuffers.loop s
        (Buffers.create s.heap 2 (bufferInfos.length : Int).toNat bufferSize.toNat).2 0
        bufferInfos s.buffers_info).1 = true
    · have hin : ∀ bi ∈ bufferInfos, 0 ≤ bi.channelNum ∧ bi.channelNum <
          (if bi.isInput then s.input_channel_count else s.output_channel_count) :=
        fun bi hbi => (s.not_outOfBounds_iff bi).mp (hloop.mp hr bi hbi)
      by_cases hp : (Pa_OpenStream args).1 = paNoError
      · simp only [hr, hp, Bool.true_eq_false, if_false, ne_eq, not_true_eq_false]
        refine ⟨_, rfl, ?_, Or.inl rfl, fun h => absurd rfl h, fun _ => rfl⟩
        exact ⟨fun _ => ⟨g1, g2, ⟨cb, rfl, g3'⟩, g4, g5, hin, args, rfl, hp⟩, fun _ => rfl⟩
      · simp only [hr, hp, Bool.true_eq_false, if_false, ne_eq, not_false_eq_true, if_true]
        refine ⟨_, rfl, ?_, Or.inr (Or.inr rfl), fun _ => rfl, fun h => by cases h⟩
        constructor
        · intro h; cases h
        · intro ⟨_, _, _, _, _, _, args', ha', hp'⟩
          injection ha' with ha'
          subst ha'
          exact absurd hp' hp
    · have hrf : ( CFlexASIO.createBuffers.loop s
          (Buffers.create s.heap 2 (bufferInfos.length : Int).toNat bufferSize.toNat).2 0
          bufferInfos s.buffers_info).1 = false := by
        cases h : ( CFlexASIO.createBuffers.loop s
          (Buffers.create s.heap 2 (bufferInfos.length : Int).toNat bufferSize.toNat).2 0
          bufferInfos s.buffers_info).1
        · rfl
        · exact absurd h hr
      simp only [hrf, if_true]
      refine ⟨_, rfl, ?_, Or.inr (Or.inl rfl), fun _ => rfl, fun h => by cases h⟩
      constructor
      · intro h; cases h
      · intro ⟨_, _, _, _, _, hin, _⟩
        exact absurd (hloop.mpr fun bi hbi => (s.not_outOfBounds_iff bi).mpr (hin bi hbi)) hr
  · refine ⟨_, CFlexASIO.createBuffers_guarded s bufferInfos bufferSize callbacks Pa_OpenStream
      hg, ?_, Or.inr (Or.inl rfl), fun _ => rfl, fun h => by cases h⟩
    constructor
    · intro h; cases h
    · intro ⟨g1, g2, g3, g4, g5, _⟩
      exact absurd ⟨g1, g2, g3, g4, g5⟩ hg

/-- The exits of `createBuffers` on the stereo session: the four in-range bindings with period length 4 succeed. -/
theorem CFlexASIO.createBuffers_ok_iff_example :
    ∃ r, stereoSession.createBuffers stereoBindings 4 (some plainHost) openAlways = some r ∧
      (r.result = ASIOError.ASE_OK ↔
        (1 ≤ stereoBindings.length ∧ (1 : Int) ≤ 4 ∧
         (∃ cb, some plainHost = some cb ∧ cb.bufferSwitch = true) ∧
         stereoSession.negotiated ∧ stereoSession.buffers = none ∧
         (∀ bi ∈ stereoBindings, 0 ≤ bi.channelNum ∧
            bi.channelNum <
              (if bi.isInput then stereoSession.input_channel_count
               else stereoSession.output_channel_count)) ∧
         ∃ args,
           stereoSession.OpenStream
               (if stereoSession.sample_rate = 0 then 44100 else stereoSession.sample_rate)
               (4 : Int).toNat
             = some args ∧ (openAlways args).1 = paNoError)) ∧
      (r.result = ASIOError.ASE_OK ∨ r.result = ASIOError.ASE_InvalidMode ∨
        r.result = ASIOError.ASE_HWMalfunction) ∧
      (r.result ≠ ASIOError.ASE_OK → r.state.buffers = stereoSession.buffers) ∧
      (r.result = ASIOError.ASE_OK → r.state.buffers.isSome = true) :=
  CFlexASIO.createBuffers_ok_iff stereoSession stereoBindings 4 (some plainHost) openAlways
    (by decide)

/-- C10: `createBuffers` returns `ASE_OK` on a session that is not Negotiated.  On a fresh
session, `init` on a backend whose default input device resolves and whose default output
device has no device info returns `ASIOFalse` with the input device pointer left set.
The test of `createBuffers` for the uninitialised state (line 435) looks at the device
pointers, not at the result of `init`: `createBuffers` with the binding (input, 0), period
length 4 and a callback table with `bufferSwitch`, the backend opening the stream, returns
`ASE_OK` and a BufferSet exists afterwards, where the claim has an error and no BufferSet. -/
theorem C10_createBuffers_ok_after_failed_init :
    halfResolved.Reachable ∧
    ( CFlexASIO.new.init inputOnlyBackend).1 = ASIOFalse ∧
    halfResolved.buffers = none ∧
    (halfResolved.createBuffers [binding true 0] 4 (some plainHost) openAlways).map
        (fun r => (r.result, r.state.buffers.isSome, r.state.stream))
      = some (ASIOError.ASE_OK, true, some 1) :=
  ⟨halfResolved_reachable, by decide, by decide, by decide⟩

/-! ## C11: the range of `getChannelInfo` -/

/-- C11: for a direction with resolved channel count `c`, `getChannelInfo` always returns,
and it returns OK exactly when `0 ≤ index < c`; any other index gets the error the code
uses for a channel out of range (`ASE_NotPresent`) and the caller's record is not written.
In particular index `c` fails, and index `c - 1` succeeds when `c ≥ 1`. -/
theorem C11_getChannelInfo_range (s : CFlexASIO) (isInput : Bool) (channel : Int) :
    (∃ r, s.getChannelInfo isInput channel = some r ∧
      (r.1 = ASIOError.ASE_OK ↔ 0 ≤ channel ∧ channel < s.channel_count isInput) ∧
      (r.1 ≠ ASIOError.ASE_OK → r = (ASIOError.ASE_NotPresent, none))) ∧
    s.getChannelInfo isInput (s.channel_count isInput) = some (ASIOError.ASE_NotPresent, none) ∧
    (1 ≤ s.channel_count isInput →
      ∃ info, s.getChannelInfo isInput (s.channel_count isInput - 1)
        = some (ASIOError.ASE_OK, some info)) := by
  refine ⟨?_, ?_, ?_⟩
  · rw [ CFlexASIO.getChannelInfo_eq]
    by_cases h : channel < 0 ∨ channel ≥ s.channel_count isInput
    · rw [if_pos h]
      refine ⟨_, rfl, ?_, fun _ => rfl⟩
      constructor
      · intro h1; exact absurd h1 (by decide)
      · intro h1; omega
    · rw [if_neg h, getChannelName_eq]
      refine ⟨_, rfl, ?_, fun h1 => absurd rfl h1⟩
      constructor
      · intro _; omega
      · intro _; rfl
  · rw [ CFlexASIO.getChannelInfo_eq, if_pos (Or.inr (le_refl _))]
  · intro hc
    rw [ CFlexASIO.getChannelInfo_eq, if_neg (by omega), getChannelName_eq]
    exact ⟨_, rfl⟩

/-! ## C12: `setSampleRate` -/

/-- C12: while a BufferSet exists `setSampleRate r` leaves the whole session, its sample
rate included, as it was: without a host `asioMessage` callback it returns
`ASE_NotPresent` and calls nothing, with one it returns `ASE_OK` and makes exactly one
call, the reset request.  Without a BufferSet it stores `r` as the sample rate, changes
nothing else, calls nothing and returns `ASE_OK`. -/
theorem C12_setSampleRate (s : CFlexASIO) (r : Rat) :
    (s.buffers.isSome = true → s.callbacks.asioMessage = false →
      s.setSampleRate r = (ASIOError.ASE_NotPresent, s, [])) ∧
    (s.buffers.isSome = true → s.callbacks.asioMessage = true →
      s.setSampleRate r = (ASIOError.ASE_OK, s, [HostCall.asioMessage kAsioResetRequest 0])) ∧
    (s.buffers.isSome = true → (s.setSampleRate r).2.1.sample_rate = s.sample_rate) ∧
    (s.buffers = none →
      s.setSampleRate r = (ASIOError.ASE_OK, { s with sample_rate := r }, []) ∧
      (s.setSampleRate r).2.1.sample_rate = r) := by
  unfold CFlexASIO.setSampleRate
  refine ⟨?_, ?_, ?_, ?_⟩
  · intro hb hm; simp [hb, hm]
  · intro hb hm; simp [hb, hm]
  · intro hb; cases hm : s.callbacks.asioMessage <;> simp [hb, hm]
  · intro hb; simp [hb]

/-! ## C13: the label of a channel -/

/-- C13: `getChannelName i m` always returns, and it takes the speaker position from the
`i`-th (0-based) set bit of the mask `m`, counted from the least significant bit.  If the
mask has such a bit and it is one of the 18 known positions, the label is the decimal
index, a space and the name of the position; if the mask has no more than `i` set bits,
the label is the decimal index alone. -/
theorem C13_getChannelName_label (i m : Nat) :
    (∀ (q : Nat) (name : String), nthSetBit m i = some q →
      speakerPositionNames[q]? = some name →
      getChannelName i m = some (toString i ++ " " ++ name)) ∧
    (nthSetBit m i = none → getChannelName i m = some (toString i)) ∧
    (∀ (q : Nat), q < 18 → (speakerPositionNames[q]?).isSome = true) := by
  refine ⟨?_, ?_, ?_⟩
  · intro q name hq hn
    rw [getChannelName_eq, hq, Option.some_bind, hn]
  · intro hq
    rw [getChannelName_eq, hq]
    rfl
  · intro q hq
    interval_cases q <;> rfl

/-- C13 at the mask `0b101`: channel 1 is the front centre speaker, channel 2 has no
position. -/
theorem C13_getChannelName_label_witness :
    nthSetBit 5 1 = some 2 ∧ speakerPositionNames[2]? = some "FC (Front Center)" ∧
    getChannelName 1 5 = some "1 FC (Front Center)" ∧
    nthSetBit 5 2 = none ∧ getChannelName 2 5 = some "2" :=
  ⟨by decide, by decide,
    (C13_getChannelName_label 1 5).1 2 "FC (Front Center)" (by decide) (by decide),
    by decide, (C13_getChannelName_label 2 5).2.1 (by decide)⟩

/-! ## C14: the queries and the session state -/

/-- What `getChannels` and `getChannelInfo` answer rests on the device pointers and the
channel counts, `getBufferSize` on nothing: without a device pointer `getChannels` returns
`ASE_NotPresent` and writes nothing, and so does `getChannelInfo` for every direction and
index in every state reached from a fresh session (the backend reporting no default format
for an absent device); with a device pointer `getChannels` returns `ASE_OK` with the two
channel counts; `getBufferSize` returns `ASE_OK` with its four constants in every state. -/
theorem CFlexASIO.queries_by_guard (s : CFlexASIO) :
    (¬ s.negotiated → s.getChannels = (ASIOError.ASE_NotPresent, none)) ∧
    (¬ s.negotiated → CFlexASIO.ReachableWith PortAudio.noFormatWithoutDevice s →
      ∀ (isInput : Bool) (channel : Int),
        s.getChannelInfo isInput channel = some (ASIOError.ASE_NotPresent, none)) ∧
    (s.negotiated →
      s.getChannels
        = (ASIOError.ASE_OK, some (s.input_channel_count, s.output_channel_count))) ∧
    s.getBufferSize = (ASIOError.ASE_OK, 48, 48000, 1024, 1) := by
  refine ⟨?_, ?_, ?_, rfl⟩
  · intro hn
    unfold CFlexASIO.negotiated at hn
    unfold CFlexASIO.getChannels
    cases h1 : s.input_device_info.isSome <;> cases h2 : s.output_device_info.isSome <;>
      simp_all
  · intro hn hr isInput channel
    obtain ⟨c1, c2⟩ := hr.unresolved_counts hn
    rw [ CFlexASIO.getChannelInfo_eq, if_pos]
    unfold CFlexASIO.channel_count
    cases isInput
    · simp only [Bool.false_eq_true, if_false, c2]; omega
    · simp only [if_true, c1]; omega
  · intro hn
    unfold CFlexASIO.negotiated at hn
    unfold CFlexASIO.getChannels
    rcases hn with h | h <;> simp [h]

/-- The two sessions on which the device pointers and the result of `init` disagree.  After
an `init` that returned `ASIOFalse` with the input device resolved, `getChannels` returns
`ASE_OK` with the counts 2 and 0 and `getChannelInfo` for (input, 0) returns `ASE_OK`;
after an `init` that returned `ASIOTrue` on a backend without a default device,
`getChannels` returns `ASE_NotPresent`. -/
theorem CFlexASIO.queries_where_guard_and_init_disagree :
    ( CFlexASIO.new.init inputOnlyBackend).1 = ASIOFalse ∧
    halfResolved.getChannels = (ASIOError.ASE_OK, some (2, 0)) ∧
    (halfResolved.getChannelInfo true 0).map (fun x => x.1) = some ASIOError.ASE_OK ∧
    ( CFlexASIO.new.init noDeviceBackend).1 = ASIOTrue ∧
    noDeviceSession.getChannels = (ASIOError.ASE_NotPresent, none) := by
  decide

/-- C14 (amended): `getBufferSize` has no state check and returns `ASE_OK` with its four
constants in every state.  In the state Uninitialized (no `init` call has returned
`ASIOTrue`), as long as no failed `init` has left a device pointer set, `getChannels`
returns `ASE_NotPresent` and writes nothing, and so does `getChannelInfo` for every
direction and index.  From Negotiated onward (an `init` call has returned `ASIOTrue`), if
a device pointer is set, `getChannels` returns `ASE_OK` with the two channel counts.
Nothing is said of the two kinds of session on which the device pointers and the result of
`init` disagree. -/
theorem C14_queries_by_state (g : Bool) (s : CFlexASIO) (h : s.ReachableIn g) :
    s.getBufferSize = (ASIOError.ASE_OK, 48, 48000, 1024, 1) ∧
    (g = false → ¬ s.negotiated →
      s.getChannels = (ASIOError.ASE_NotPresent, none) ∧
      ∀ (isInput : Bool) (channel : Int),
        s.getChannelInfo isInput channel = some (ASIOError.ASE_NotPresent, none)) ∧
    (g = true → s.negotiated →
      s.getChannels
        = (ASIOError.ASE_OK, some (s.input_channel_count, s.output_channel_count))) := by
  refine ⟨rfl, ?_, ?_⟩
  · intro hg hn
    refine ⟨( CFlexASIO.queries_by_guard s).1 hn, ?_⟩
    intro isInput channel
    obtain ⟨c1, c2⟩ := h.uninitialized_counts hg hn
    rw [ CFlexASIO.getChannelInfo_eq, if_pos]
    unfold CFlexASIO.channel_count
    cases isInput
    · simp only [Bool.false_eq_true, if_false, c2]; omega
    · simp only [if_true, c1]; omega
  · intro _ hn
    exact ( CFlexASIO.queries_by_guard s).2.2.1 hn

/-- C14 (amended) in a fresh session, which is Uninitialized, and in the stereo session,
which is Negotiated: `getChannels` and `getChannelInfo` refuse in the first and
`getChannels` answers in the second; `getBufferSize` answers in both. -/
theorem C14_queries_by_state_witness :
    CFlexASIO.new.getBufferSize = (ASIOError.ASE_OK, 48, 48000, 1024, 1) ∧
    CFlexASIO.new.getChannels = (ASIOError.ASE_NotPresent, none) ∧
    CFlexASIO.new.getChannelInfo true 0 = some (ASIOError.ASE_NotPresent, none) ∧
    stereoSession.getBufferSize = (ASIOError.ASE_OK, 48, 48000, 1024, 1) ∧
    stereoSession.getChannels = (ASIOError.ASE_OK, some (2, 2)) :=
  ⟨(C14_queries_by_state false CFlexASIO.new CFlexASIO.new_reachableIn).1,
    ((C14_queries_by_state false CFlexASIO.new CFlexASIO.new_reachableIn).2.1 rfl
      (by decide)).1,
    ((C14_queries_by_state false CFlexASIO.new CFlexASIO.new_reachableIn).2.1 rfl
      (by decide)).2 true 0,
    (C14_queries_by_state true stereoSession stereoSession_reachableIn).1,
    (C14_queries_by_state true stereoSession stereoSession_reachableIn).2.2 rfl (by decide)⟩

/-- C14, the sentence as written fails: in a fresh session, on which `init` was never
called, `getBufferSize` returns `ASE_OK`, not `ASE_NotPresent`. -/
theorem C14_counterexample_getBufferSize :
    ¬ CFlexASIO.new.negotiated ∧
    CFlexASIO.new.getBufferSize = (ASIOError.ASE_OK, 48, 48000, 1024, 1) ∧
    CFlexASIO.new.getBufferSize.1 ≠ ASIOError.ASE_NotPresent := by
  decide


/-! ## C15: `init` on a negotiated session -/


/-- C15: `init` on a session that has a resolved device returns at its guard with the
value of `ASE_NotPresent`, -1000, which is not `ASIOFalse` and counts as true for a
boolean; it makes no call of `Pa_Initialize` and leaves the whole session, the device
profile included, as it was. -/
theorem C15_init_on_negotiated_session (s : CFlexASIO) (pa : PortAudio) (h : s.negotiated) :
    (s.init pa).1 = -1000 ∧ (s.init pa).1 ≠ ASIOFalse ∧ (s.init pa).2 = s ∧
    CFlexASIO.init.Pa_Initialize_calls s pa = [] := by
  rw [ CFlexASIO.init_negotiated s pa h]
  refine ⟨rfl, by simp [ASIOError.toLong, ASIOFalse], rfl, ?_⟩
  unfold CFlexASIO.init.Pa_Initialize_calls
  unfold CFlexASIO.negotiated at h
  rcases h with h | h <;> simp [h]

/-- C15 on the stereo session: the second `init` returns -1000. -/
theorem C15_init_on_negotiated_session_witness :
    stereoSession.negotiated ∧
    (stereoSession.init stereoBackend).1 = -1000 ∧
    (stereoSession.init stereoBackend).1 ≠ ASIOFalse ∧
    (stereoSession.init stereoBackend).2 = stereoSession ∧
    CFlexASIO.init.Pa_Initialize_calls stereoSession stereoBackend = [] :=
  ⟨by decide, C15_init_on_negotiated_session stereoSession stereoBackend (by decide)⟩


/-! ## C16: global initialisation and teardown of the backend -/

/-- C16: two `init` calls on a backend that initialises but offers no host API both fail
after a successful `Pa_Initialize`, so the backend is initialised twice; the destructor
then calls `Pa_Terminate` once. -/
theorem C16_backend_initialised_twice :
    ( CFlexASIO.new.inits [noHostApiBackend, noHostApiBackend]).2.1 = [ASIOFalse, ASIOFalse] ∧
    ( CFlexASIO.new.inits [noHostApiBackend, noHostApiBackend]).2.2 = [paNoError, paNoError] ∧
    (( CFlexASIO.new.inits [noHostApiBackend, noHostApiBackend]).1.destructor
        paNoError paNoError paNoError).2 = [DestructorCall.Pa_Terminate paNoError] ∧
    (( CFlexASIO.new.inits [noHostApiBackend]).1.destructor
        paNoError paNoError paNoError).2 = [DestructorCall.Pa_Terminate paNoError] := by
  decide


/-! ## C17: the destructor -/

/-- C17 (amended): from every reachable state the body of the destructor calls `stop`
exactly if the session is streaming, `disposeBuffers` exactly if a BufferSet exists and
`Pa_Terminate` exactly if the backend had been initialised, whatever the earlier calls
return.  If the backend stops and closes the stream, the session ends not streaming, with
the stream closed and the BufferSet released.  If the backend does not stop the stream of
a streaming session, the session stays streaming and keeps its stream and its BufferSet;
if it does not close the stream, the session keeps its stream and its BufferSet. -/
theorem C17_destructor (s : CFlexASIO) (hr : s.Reachable)
    (Pa_StopStream Pa_CloseStream Pa_Terminate : PaError) :
    ((∃ r, DestructorCall.stop r ∈ (s.destructor Pa_StopStream Pa_CloseStream Pa_Terminate).2)
      ↔ s.started = true) ∧
    ((∃ r, DestructorCall.disposeBuffers r
        ∈ (s.destructor Pa_StopStream Pa_CloseStream Pa_Terminate).2)
      ↔ s.buffers.isSome = true) ∧
    (DestructorCall.Pa_Terminate Pa_Terminate
        ∈ (s.destructor Pa_StopStream Pa_CloseStream Pa_Terminate).2
      ↔ s.portaudio_initialized = true) ∧
    (Pa_StopStream = paNoError → Pa_CloseStream = paNoError →
      (s.destructor Pa_StopStream Pa_CloseStream Pa_Terminate).1.started = false ∧
      (s.destructor Pa_StopStream Pa_CloseStream Pa_Terminate).1.stream = none ∧
      (s.destructor Pa_StopStream Pa_CloseStream Pa_Terminate).1.buffers = none ∧
      ∀ b, s.buffers = some b →
        (s.destructor Pa_StopStream Pa_CloseStream Pa_Terminate).1.heap
          = Buffers.destroy s.heap b) ∧
    (s.started = true → Pa_StopStream ≠ paNoError →
      (s.destructor Pa_StopStream Pa_CloseStream Pa_Terminate).1.started = true ∧
      (s.destructor Pa_StopStream Pa_CloseStream Pa_Terminate).1.stream = s.stream ∧
      (s.destructor Pa_StopStream Pa_CloseStream Pa_Terminate).1.buffers = s.buffers) ∧
    (s.buffers.isSome = true → Pa_CloseStream ≠ paNoError →
      (s.destructor Pa_StopStream Pa_CloseStream Pa_Terminate).1.stream = s.stream ∧
      (s.destructor Pa_StopStream Pa_CloseStream Pa_Terminate).1.buffers = s.buffers) :=
  CFlexASIO.destructor_spec s hr.wellFormed Pa_StopStream Pa_CloseStream Pa_Terminate

/-- C17 on the streaming stereo session with a backend that stops and closes the stream:
the destructor leaves it not streaming, without stream and without BufferSet. -/
theorem C17_destructor_witness :
    stereoStreaming.Reachable ∧
    (stereoStreaming.destructor paNoError paNoError paNoError).1.started = false ∧
    (stereoStreaming.destructor paNoError paNoError paNoError).1.stream = none ∧
    (stereoStreaming.destructor paNoError paNoError paNoError).1.buffers = none :=
  ⟨stereoStreaming_reachable,
    ((C17_destructor stereoStreaming stereoStreaming_reachable paNoError paNoError
      paNoError).2.2.2.1 rfl rfl).1,
    ((C17_destructor stereoStreaming stereoStreaming_reachable paNoError paNoError
      paNoError).2.2.2.1 rfl rfl).2.1,
    ((C17_destructor stereoStreaming stereoStreaming_reachable paNoError paNoError
      paNoError).2.2.2.1 rfl rfl).2.2.1⟩

/-- C17, the sentence as written fails: when `Pa_StopStream` fails (with -9999,
`paUnanticipatedHostError`) in the destructor of the streaming stereo session, `stop`
returns `ASE_NotPresent`, `disposeBuffers` refuses with `ASE_InvalidMode`, and the body
ends with the session still streaming, the stream still open and the BufferSet still
there. -/
theorem C17_counterexample_stop_fails :
    stereoStreaming.Reachable ∧
    stereoStreaming.started = true ∧
    (stereoStreaming.destructor (-9999) paNoError paNoError).1.started = true ∧
    (stereoStreaming.destructor (-9999) paNoError paNoError).1.stream = some 1 ∧
    (stereoStreaming.destructor (-9999) paNoError paNoError).1.buffers.isSome = true ∧
    (stereoStreaming.destructor (-9999) paNoError paNoError).2
      = [DestructorCall.stop ASIOError.ASE_NotPresent,
         DestructorCall.disposeBuffers ASIOError.ASE_InvalidMode,
         DestructorCall.Pa_Terminate paNoError] :=
  ⟨stereoStreaming_reachable, by decide, by decide, by decide, by decide, by decide⟩

/-! ## C18: the reachable states are well-formed -/

/-- C18: in every state a fresh session reaches through `init`, `createBuffers`,
`disposeBuffers`, `start`, `stop`, `setSampleRate` and `StreamCallback` (and stores of the
host into its buffers), whatever the backend answers, a streaming session has a
BufferSet, a BufferSet exists exactly if the stream handle is non-null, and a BufferSet
exists only if `init` resolved a device for at least one direction. -/
theorem C18_reachable_well_formed (s : CFlexASIO) (h : s.Reachable) :
    (s.started = true → s.buffers.isSome = true) ∧
    (s.buffers.isSome = true ↔ s.stream.isSome = true) ∧
    (s.buffers.isSome = true →
      s.input_device_info.isSome = true ∨ s.output_device_info.isSome = true) :=
  h.wellFormed

/-- C18 on the streaming stereo session, which is reachable and has all three. -/
theorem C18_reachable_well_formed_witness :
    stereoStreaming.Reachable ∧
    stereoStreaming.started = true ∧ stereoStreaming.buffers.isSome = true ∧
    stereoStreaming.stream.isSome = true ∧ stereoStreaming.input_device_info.isSome = true :=
  ⟨stereoStreaming_reachable, by decide,
    (C18_reachable_well_formed stereoStreaming stereoStreaming_reachable).1 (by decide),
    (C18_reachable_well_formed stereoStreaming stereoStreaming_reachable).2.1.1
      ((C18_reachable_well_formed stereoStreaming stereoStreaming_reachable).1 (by decide)),
    by decide⟩

/-! ## C19: the sample rate after `init` -/

/-- C19 (amended): after a successful `init` the sample rate is strictly positive; it is
44100 if no direction has a device; if some direction has one, it is the largest default
sample rate among the resolved devices when that rate is positive, and 44100 when it is
not. -/
theorem C19_sample_rate_after_init (s : CFlexASIO) (pa : PortAudio)
    (h : (s.init pa).1 = ASIOTrue) :
    0 < (s.init pa).2.sample_rate ∧
    ((s.init pa).2.maxDefaultSampleRate = none → (s.init pa).2.sample_rate = 44100) ∧
    (∀ M, (s.init pa).2.maxDefaultSampleRate = some M → 0 < M →
      (s.init pa).2.sample_rate = M) ∧
    (∀ M, (s.init pa).2.maxDefaultSampleRate = some M → M ≤ 0 →
      (s.init pa).2.sample_rate = 44100) := by
  obtain ⟨r, hr, hc⟩ := CFlexASIO.init_success h
  rw [hr]
  unfold CFlexASIO.maxDefaultSampleRate
  rcases hc with ⟨hi, ho, h0⟩ | ⟨i, hi, ho, h0⟩ | ⟨o, hi, ho, h0⟩ | ⟨i, o, hi, ho, h0⟩
  · rw [hi, ho, h0]
    simp
  · rw [hi, ho, h0]
    simp only [Option.some.injEq, forall_eq', reduceCtorEq, false_implies, true_and]
    rcases le_total i.defaultSampleRate 0 with hle | hle
    · rw [max_eq_right hle]
      refine ⟨by norm_num, fun hp => absurd hp (not_lt.2 hle), fun _ => by norm_num⟩
    · rw [max_eq_left hle]
      rcases eq_or_lt_of_le hle with heq | hlt
      · rw [← heq]
        refine ⟨by norm_num, fun hp => absurd hp (lt_irrefl _), fun _ => by norm_num⟩
      · rw [if_neg (ne_of_gt hlt)]
        exact ⟨hlt, fun _ => rfl, fun hp => absurd hlt (not_lt.2 hp)⟩
  · rw [hi, ho, h0]
    simp only [Option.some.injEq, forall_eq', reduceCtorEq, false_implies, true_and]
    rcases le_total o.defaultSampleRate 0 with hle | hle
    · rw [max_eq_right hle]
      refine ⟨by norm_num, fun hp => absurd hp (not_lt.2 hle), fun _ => by norm_num⟩
    · rw [max_eq_left hle]
      rcases eq_or_lt_of_le hle with heq | hlt
      · rw [← heq]
        refine ⟨by norm_num, fun hp => absurd hp (lt_irrefl _), fun _ => by norm_num⟩
      · rw [if_neg (ne_of_gt hlt)]
        exact ⟨hlt, fun _ => rfl, fun hp => absurd hlt (not_lt.2 hp)⟩
  · rw [hi, ho, h0]
    simp only [Option.some.injEq, forall_eq', reduceCtorEq, false_implies, true_and]
    have hm : max o.defaultSampleRate (max i.defaultSampleRate 0)
        = max (max i.defaultSampleRate o.defaultSampleRate) 0 := by
      rw [max_comm o.defaultSampleRate, max_assoc, max_comm 0, ← max_assoc]
    rw [hm]
    rcases le_total (max i.defaultSampleRate o.defaultSampleRate) 0 with hle | hle
    · rw [max_eq_right hle]
      refine ⟨by norm_num, fun hp => absurd hp (not_lt.2 hle), fun _ => by norm_num⟩
    · rw [max_eq_left hle]
      rcases eq_or_lt_of_le hle with heq | hlt
      · rw [← heq]
        refine ⟨by norm_num, fun hp => absurd hp (lt_irrefl _), fun _ => by norm_num⟩
      · rw [if_neg (ne_of_gt hlt)]
        exact ⟨hlt, fun _ => rfl, fun hp => absurd hlt (not_lt.2 hp)⟩

/-- C19 on the stereo backend: both devices report 48000, and that is the sample rate. -/
theorem C19_sample_rate_after_init_witness :
    ( CFlexASIO.new.init stereoBackend).1 = ASIOTrue ∧
    ( CFlexASIO.new.init stereoBackend).2.maxDefaultSampleRate = some 48000 ∧
    ( CFlexASIO.new.init stereoBackend).2.sample_rate = 48000 :=
  ⟨by decide, by decide,
    (C19_sample_rate_after_init CFlexASIO.new stereoBackend (by decide)).2.2.1 48000
      (by decide) (by norm_num)⟩

/-- C19, the sentence as written fails: with one input device whose default sample rate
is 0 and no output device, `init` succeeds and the sample rate is 44100, not the largest
default rate of the resolved devices, which is 0. -/
theorem C19_counterexample_zero_rate :
    ( CFlexASIO.new.init zeroRateBackend).1 = ASIOTrue ∧
    ( CFlexASIO.new.init zeroRateBackend).2.input_device_info = some ⟨1, 0, 0⟩ ∧
    ( CFlexASIO.new.init zeroRateBackend).2.output_device_info = none ∧
    ( CFlexASIO.new.init zeroRateBackend).2.maxDefaultSampleRate = some 0 ∧
    ( CFlexASIO.new.init zeroRateBackend).2.sample_rate = 44100 := by
  decide

/-! ## C20: `start` and `stop` -/

/-- C20: `start` returns `ASE_NotPresent`, changes nothing and calls nothing if there is
no BufferSet or the session is streaming; past that guard it returns `ASE_HWMalfunction`
and leaves the session not streaming if `Pa_StartStream` fails, and returns `ASE_OK` with
the session streaming otherwise.  `stop` returns `ASE_NotPresent` and changes nothing if
the session is not streaming; it leaves it streaming, without returning `ASE_OK`, if
`Pa_StopStream` fails, and returns `ASE_OK` with the session not streaming and its
BufferSet kept otherwise (a reachable session then has a BufferSet).  Either call changes
the streaming flag exactly when it returns `ASE_OK`. -/
theorem C20_start_stop (s : CFlexASIO) (asioMessage : Int → Int → Int) (timeGetTime : Int)
    (e : PaError) :
    ((s.buffers = none ∨ s.started = true) →
      s.start asioMessage timeGetTime e = (ASIOError.ASE_NotPresent, s, [])) ∧
    (s.buffers.isSome = true → s.started = false → e ≠ paNoError →
      (s.start asioMessage timeGetTime e).1 = ASIOError.ASE_HWMalfunction ∧
      (s.start asioMessage timeGetTime e).2.1.started = false) ∧
    (s.buffers.isSome = true → s.started = false → e = paNoError →
      (s.start asioMessage timeGetTime e).1 = ASIOError.ASE_OK ∧
      (s.start asioMessage timeGetTime e).2.1.started = true ∧
      (s.start asioMessage timeGetTime e).2.1.buffers = s.buffers) ∧
    ((s.start asioMessage timeGetTime e).2.1.started ≠ s.started
      ↔ (s.start asioMessage timeGetTime e).1 = ASIOError.ASE_OK) ∧
    (s.started = false → s.stop e = (ASIOError.ASE_NotPresent, s)) ∧
    (s.started = true → e ≠ paNoError →
      (s.stop e).1 ≠ ASIOError.ASE_OK ∧ (s.stop e).2.started = true) ∧
    (s.started = true → e = paNoError →
      (s.stop e).1 = ASIOError.ASE_OK ∧ (s.stop e).2.started = false ∧
      (s.stop e).2.buffers = s.buffers ∧ (s.Reachable → (s.stop e).2.buffers.isSome = true)) ∧
    ((s.stop e).2.started ≠ s.started ↔ (s.stop e).1 = ASIOError.ASE_OK) := by
  refine ⟨?_, ?_, ?_, ?_, ?_, ?_, ?_, ?_⟩
  · exact CFlexASIO.start_guarded s asioMessage timeGetTime e
  · intro hb hs he
    rcases CFlexASIO.start_cases s asioMessage timeGetTime e with
      ⟨hg, _⟩ | ⟨_, _, q, text, ⟨_, h1, h2⟩ | ⟨he1, _, _⟩⟩
    · rcases hg with hg | hg
      · rw [hg] at hb; exact absurd hb (by simp)
      · rw [hg] at hs; exact absurd hs (by simp)
    · rw [h1, h2]; exact ⟨rfl, rfl⟩
    · exact absurd he1 he
  · intro hb hs he
    rcases CFlexASIO.start_cases s asioMessage timeGetTime e with
      ⟨hg, _⟩ | ⟨_, _, q, text, ⟨he1, _, _⟩ | ⟨_, h1, h2⟩⟩
    · rcases hg with hg | hg
      · rw [hg] at hb; exact absurd hb (by simp)
      · rw [hg] at hs; exact absurd hs (by simp)
    · exact absurd he he1
    · rw [h1, h2]; exact ⟨rfl, rfl, rfl⟩
  · rcases CFlexASIO.start_cases s asioMessage timeGetTime e with
      ⟨_, h⟩ | ⟨_, hs, q, text, ⟨_, h1, h2⟩ | ⟨_, h1, h2⟩⟩
    · rw [h]; simp
    · rw [h1, h2]; simp [hs]
    · rw [h1, h2]; simp [hs]
  · intro hs
    rcases CFlexASIO.stop_cases s e with ⟨_, h⟩ | ⟨hs1, _⟩ | ⟨hs1, _⟩
    · exact h
    · rw [hs] at hs1; exact absurd hs1 (by simp)
    · rw [hs] at hs1; exact absurd hs1 (by simp)
  · intro hs he
    rcases CFlexASIO.stop_cases s e with ⟨hs1, _⟩ | ⟨_, _, text, h⟩ | ⟨_, he1, _⟩
    · rw [hs] at hs1; exact absurd hs1 (by simp)
    · rw [h]; exact ⟨by simp, hs⟩
    · exact absurd he1 he
  · intro hs he
    rcases CFlexASIO.stop_cases s e with ⟨hs1, _⟩ | ⟨_, he1, _⟩ | ⟨_, _, h⟩
    · rw [hs] at hs1; exact absurd hs1 (by simp)
    · exact absurd he he1
    · rw [h]; exact ⟨rfl, rfl, rfl, fun hr => hr.wellFormed.1 hs⟩
  · rcases CFlexASIO.stop_cases s e with ⟨_, h⟩ | ⟨hs, _, text, h⟩ | ⟨hs, _, h⟩
    · rw [h]; simp
    · rw [h]; simp
    · rw [h]; simp [hs]

/-- C20 on the stereo session: `start` after `createBuffers` succeeds and a second one is
refused; `stop` of the streaming session succeeds and leaves the BufferSet. -/
theorem C20_start_stop_witness :
    (stereoAllocated.start noMessage 0 paNoError).1 = ASIOError.ASE_OK ∧
    (stereoAllocated.start noMessage 0 paNoError).2.1.started = true ∧
    stereoStreaming.start noMessage 0 paNoError
      = (ASIOError.ASE_NotPresent, stereoStreaming, []) ∧
    (stereoStreaming.stop paNoError).1 = ASIOError.ASE_OK ∧
    (stereoStreaming.stop paNoError).2.started = false ∧
    (stereoStreaming.stop paNoError).2.buffers.isSome = true :=
  ⟨((C20_start_stop stereoAllocated noMessage 0 paNoError).2.2.1 (by decide) (by decide)
      rfl).1,
    ((C20_start_stop stereoAllocated noMessage 0 paNoError).2.2.1 (by decide) (by decide)
      rfl).2.1,
    (C20_start_stop stereoStreaming noMessage 0 paNoError).1 (Or.inr (by decide)),
    ((C20_start_stop stereoStreaming noMessage 0 paNoError).2.2.2.2.2.2.1 (by decide) rfl).1,
    ((C20_start_stop stereoStreaming noMessage 0 paNoError).2.2.2.2.2.2.1 (by decide) rfl).2.1,
    ((C20_start_stop stereoStreaming noMessage 0 paNoError).2.2.2.2.2.2.1 (by decide)
      rfl).2.2.2 stereoStreaming_reachable⟩

/-! ## C21: the form of the notifications -/

/-- The notifications on a BufferSet every recorded binding of which points into its block
(`BufferSetOk`): after a successful `start()` on such a BufferSet of period length `N`, any
sequence of callbacks, `stop`s and further `start`s issues exactly the notifications of
`notifications`: a callback notifies exactly when it transfers; its notification is of the
extended form exactly if the host declared time-info support in the negotiation of the
latest `start` that went through; an extended notification carries speed 1 and as sample
position the words of `position.asio_samples` over the count `k * N`, where `k` counts the
transfers since that `start`, and a plain one carries the half-index only. -/
theorem CFlexASIO.notification_forms (s : CFlexASIO) (asioMessage : Int → Int → Int) (t : Int)
    (r : PaError) (N : Nat) (calls : List DriverCall)
    (hok : s.BufferSetOk) (hN : s.buffers.map (fun b => b.buffer_size) = some N)
    (hcb : s.callbacks.bufferSwitch = true)
    (hhost : HostConsistent s.callbacks asioMessage)
    (hstart : (s.start asioMessage t r).1 = ASIOError.ASE_OK)
    (hcalls : ∀ c ∈ calls, s.CallOk N c) :
    ((s.start asioMessage t r).2.1.runCalls calls).map
        (fun x => x.2.map fun c => c.bind HostCall.form)
      = some (notifications s.callbacks N true (declaresTimeInfo s.callbacks asioMessage) 0
          calls) ∧
    ((∀ c ∈ calls, c.frames = some N) →
      ((s.start asioMessage t r).2.1.runCalls calls).map
          (fun x => x.2.map fun c => c.bind HostCall.form)
        = some ((List.range calls.length).map fun j =>
            some (if declaresTimeInfo s.callbacks asioMessage = true then
                    NotificationForm.extended (j % 2) 1 (asio_samples ((j * N : Nat) : Int))
                  else NotificationForm.plain (j % 2)))) := by
  obtain ⟨_, _, _, heq⟩ := CFlexASIO.start_ok hstart
  have hrun : ∃ s', (s.start asioMessage t r).2.1.run calls
      = some (s', alternation N true 0 calls) := by
    apply CFlexASIO.run_alternation N calls _ true 0
    · exact hok.of_same_set (by rw [heq]) (by rw [heq]) (by rw [heq]) (by rw [heq])
        (by intro b _; rw [heq])
    · rw [heq]; exact hN
    · rw [heq]; exact hcb
    · rw [heq]
    · intro _
      exact ⟨by rw [heq], CFlexASIO.start_HostReady hstart hcb hhost⟩
    · intro c hc
      exact (hcalls c hc).of_same_counts (by rw [heq]) (by rw [heq]) (by rw [heq])
  obtain ⟨s', hs'⟩ := hrun
  obtain ⟨L, hL⟩ := CFlexASIO.runCalls_of_run hs'
  have hspec := CFlexASIO.runCalls_notifications N calls (s.start asioMessage t r).2.1 true
    (declaresTimeInfo s.callbacks asioMessage) 0 (by rw [heq]; exact hN) (by rw [heq])
    (fun _ => by rw [heq]; exact ⟨rfl, by simp, rfl⟩) s' L hL
  have hcbs : (s.start asioMessage t r).2.1.callbacks = s.callbacks := by rw [heq]
  rw [hcbs] at hspec
  have h1 : ((s.start asioMessage t r).2.1.runCalls calls).map
        (fun x => x.2.map fun c => c.bind HostCall.form)
      = some (notifications s.callbacks N true (declaresTimeInfo s.callbacks asioMessage) 0
          calls) := by
    rw [hL, Option.map_some', hspec]
  refine ⟨h1, ?_⟩
  intro hfr
  rw [h1, notifications_full_periods s.callbacks N _ calls 0 hfr]
  simp only [Nat.zero_add]

/-- The notifications on the stereo session with period length 4 and a host that declares
time-info support: the transfers are notified in the extended form with speed 1; after
`stop` and a new `start` in which the host declares nothing, the next transfer is notified
in the plain form. -/
theorem CFlexASIO.notification_forms_example :
    ((stereoAllocatedTimeInfo.start timeInfoMessage 0 paNoError).2.1.runCalls
        [period4, shortPeriod, period4, DriverCall.stop paNoError,
         DriverCall.start noMessage 0 paNoError, period4]).map
        (fun x => x.2.map fun c => c.bind HostCall.form)
      = some [some (NotificationForm.extended 0 1 ⟨0, 0⟩), none,
              some (NotificationForm.extended 1 1 ⟨4, 0⟩), none, none,
              some (NotificationForm.plain 0)] :=
  ( CFlexASIO.notification_forms stereoAllocatedTimeInfo timeInfoMessage 0 paNoError 4
    [period4, shortPeriod, period4, DriverCall.stop paNoError,
     DriverCall.start noMessage 0 paNoError, period4]
    (by decide) (by decide) (by decide) (by decide) (by decide) (by decide)).1

/-- C21: the second extended notification after `start` does not carry the sample count 4
as its sample position.  On the stereo session with the four bindings, period length 4 and
a host that declares time-info support, `start` returns `ASE_OK` and two callbacks of 4
frames issue extended notifications with speed 1 and half-indices 0 and 1, as the claim
has it; the sample count is 4 when the second one is issued.  The code counts in
`position.samples` and hands over `position.asio_samples` (line 661), whose first word
`hi` lies on the low 32 bits of the count: the second notification carries `hi = 4` and
`lo = 0`, which the protocol reads as `4 * 2 ^ 32`, not 4.  The first notification carries
0, which reads the same either way. -/
theorem C21_sample_position_words_exchanged :
    (stereoAllocatedTimeInfo.start timeInfoMessage 0 paNoError).1 = ASIOError.ASE_OK ∧
    ((stereoAllocatedTimeInfo.start timeInfoMessage 0 paNoError).2.1.runCalls
        [period4, period4]).map (fun x => x.2.map fun c => c.bind HostCall.form)
      = some [some (NotificationForm.extended 0 1 ⟨0, 0⟩),
              some (NotificationForm.extended 1 1 ⟨4, 0⟩)] ∧
    ((stereoAllocatedTimeInfo.start timeInfoMessage 0 paNoError).2.1.runCalls [period4]).map
        (fun x => x.1.position) = some 4 ∧
    (⟨4, 0⟩ : ASIOSamples).value = 4 * 2 ^ 32 ∧
    (⟨4, 0⟩ : ASIOSamples).value ≠ 4 := by
  decide

/-! ## C22: a rejected `createBuffers` -/

/-- C22, evaluated at failing inputs on the stereo session, which has no recorded binding,
no BufferSet and no stream.  Asked for the bindings (input, 0) and (input, 5),
`createBuffers` returns `ASE_InvalidMode` and leaves the first binding recorded.  Asked
for the four bindings while the backend refuses to open the stream, it returns
`ASE_HWMalfunction` and leaves all four recorded; BufferSet, stream handle and callbacks
are as before.  After `setSampleRate(0)`, the same refused call also leaves the sample
rate at 44100 instead of 0. -/
theorem C22_rejected_createBuffers_not_atomic :
    stereoSession.buffers_info = [] ∧
    (∃ r, stereoSession.createBuffers [binding true 0, binding true 5] 4 (some plainHost)
        openAlways = some r ∧
      r.result = ASIOError.ASE_InvalidMode ∧
      r.state.buffers_info.map (fun b => (b.isInput, b.channelNum)) = [(true, 0)]) ∧
    (∃ r, stereoSession.createBuffers stereoBindings 4 (some plainHost) openNever = some r ∧
      r.result = ASIOError.ASE_HWMalfunction ∧
      r.state.buffers_info.map (fun b => (b.isInput, b.channelNum))
        = [(true, 0), (true, 1), (false, 0), (false, 1)] ∧
      r.state.buffers = stereoSession.buffers ∧ r.state.stream = stereoSession.stream ∧
      r.state.callbacks = stereoSession.callbacks) ∧
    (∃ r, (stereoSession.setSampleRate 0).2.1.createBuffers stereoBindings 4 (some plainHost)
        openNever = some r ∧
      r.result = ASIOError.ASE_HWMalfunction ∧
      (stereoSession.setSampleRate 0).2.1.sample_rate = 0 ∧ r.state.sample_rate = 44100) := by
  refine ⟨by decide, ⟨_, rfl, ?_, ?_⟩, ⟨_, rfl, ?_, ?_, ?_, ?_, ?_⟩, ⟨_, rfl, ?_, ?_, ?_⟩⟩ <;>
    decide

/-! ## C23: `getChannelName` terminates -/

/-- C23: for every channel index and every channel mask the search loop of
`getChannelName` leaves, and the function returns a label.  The cursor starts at 1 and
every shift takes it from one power of two to the next, `2 ^ 1`, `2 ^ 2`, ..., up to the
value `2 ^ p` it leaves with, where `p ≤ 31`: it never passes `SPEAKER_ALL = 2 ^ 31`, the
32-bit shift never wraps, and the loop has made `p`, so at most 31, shifts. -/
theorem C23_getChannelName_terminates (channel channelMask : Nat) :
    ∃ p, p ≤ 31 ∧
      getChannelName.searchTrace channel channelMask 33 0 1
        = some (2 ^ p, (List.range' 1 p).map fun q => 2 ^ q) ∧
      getChannelName.search channel channelMask 33 0 1 = some (2 ^ p) ∧
      ((List.range' 1 p).map fun q => 2 ^ q).length = p ∧
      (∀ c ∈ 1 :: (List.range' 1 p).map fun q => 2 ^ q, ∃ q, q ≤ 31 ∧ c = 2 ^ q) ∧
      2 ^ p ≤ SPEAKER_ALL ∧
      (getChannelName channel channelMask).isSome = true := by
  obtain ⟨p, _, hp, h1, h2⟩ :=
    getChannelName.searchTrace_spec channel channelMask 33 0 0 (by decide) (by decide)
  rw [pow_zero, Nat.zero_add, Nat.sub_zero] at h1
  rw [pow_zero] at h2
  refine ⟨p, hp, h1, h2, by simp, ?_, ?_, getChannelName_isSome channel channelMask⟩
  · intro c hc
    rcases List.mem_cons.1 hc with h | h
    · exact ⟨0, by decide, by rw [h, pow_zero]⟩
    · obtain ⟨q, hq, hqc⟩ := List.mem_map.1 h
      rw [List.mem_range'_1] at hq
      exact ⟨q, by omega, hqc.symm⟩
  · have : SPEAKER_ALL = 2 ^ 31 := by decide
    rw [this]
    exact Nat.pow_le_pow_right (by decide) hp

/-- C23 on the masks the claim names: with mask 0, with mask `0xFFFFFFFF` and an index
beyond its 32 bits, and with only the top bit set, the loop leaves at `SPEAKER_ALL` after
31 shifts; with mask `0xFFFFFFFF` and index 3 it leaves at bit 3 after 3 shifts. -/
theorem C23_getChannelName_terminates_witness :
    (∃ p, p ≤ 31 ∧ getChannelName.search 40 0xFFFFFFFF 33 0 1 = some (2 ^ p)) ∧
    (getChannelName.searchTrace 5 0 33 0 1).map (fun r => (r.1, r.2.length))
      = some (SPEAKER_ALL, 31) ∧
    (getChannelName.searchTrace 40 0xFFFFFFFF 33 0 1).map (fun r => (r.1, r.2.length))
      = some (SPEAKER_ALL, 31) ∧
    (getChannelName.searchTrace 0 0x80000000 33 0 1).map (fun r => (r.1, r.2.length))
      = some (SPEAKER_ALL, 31) ∧
    getChannelName.searchTrace 3 0xFFFFFFFF 33 0 1 = some (8, [2, 4, 8]) ∧
    getChannelName 3 0xFFFFFFFF = some "3 LFE (Low Frequency)" ∧
    getChannelName 40 0xFFFFFFFF = some "40" ∧ getChannelName 5 0 = some "5" :=
  ⟨(C23_getChannelName_terminates 40 0xFFFFFFFF).imp fun _ h => ⟨h.1, h.2.2.1⟩,
    by decide, by decide, by decide, by decide, by decide, by decide, by decide⟩

end FlexASIO
